import Mathlib

/-!
# ASCII tetris: piece simulation and playfield consistency

A shallow embedding of `src/tetris.cpp`: the falling piece (`Tetromino`), the
line-clear scan (`RowChecker`) and the round controller (`Player`), over a
model of the playfield class `Grid` (whose header `lib/grid.h` is not part of
the sources at hand).  The C++ program keeps the playfield in a global
variable `grid`; here every operation takes the playfield as an argument and
returns the new one.

C++ `int` values are modelled by `Int`.  No value of the program comes near
the limits of a machine integer: coordinates stay within a few cells of the
playfield and the gravity counter is reset at 40.
-/

namespace Tetris

/-! ## Data model -/

/-- State of one playfield cell.  In the source these are characters:
`Grid::empty`, `Tetromino::asciiIdle` (the character `+`) and
`Tetromino::asciiActive` (the character `b`). -/
inductive Cell
  | Empty
  | Locked
  | Active
deriving DecidableEq, Repr

/-- Class `Coordinate` (tetris.cpp 12-23). -/
structure Coordinate where
  x : Int
  y : Int
deriving DecidableEq, Repr

/-- Enumeration `Tetrominos` (tetris.cpp 25-34). -/
inductive Tetrominos
  | Line
  | Z
  | Z2
  | L
  | L2
  | Square
  | T
deriving DecidableEq, Repr

/-- Modelled from the spec: the decoded command of `lib/input.h`, the closed
set None, Left, Right, Down, Up, Quit of section 6. -/
inductive UserInput
  | None
  | Left
  | Right
  | Down
  | Up
  | Quit
deriving DecidableEq, Repr

/-- Modelled from the spec: the playfield class `Grid` of `lib/grid.h`, a
fixed-size rectangular array of cell states kept as a sequence of rows
(section 3 and section 4.1; `GetTiles()[row]` is compared with a string of
`GetWidth()` characters in `RowChecker::Update`).  The height is the number of
rows. -/
structure Grid where
  width : Nat
  tiles : List (List Cell)
deriving DecidableEq, Repr

/-- Character constant `Grid::empty`. -/
def Grid.empty : Cell := Cell.Empty

/-- Modelled from the spec: `Grid::GetWidth`. -/
def Grid.GetWidth (g : Grid) : Nat := g.width

/-- Modelled from the spec: `Grid::GetHeight`. -/
def Grid.GetHeight (g : Grid) : Nat := g.tiles.length

/-- Modelled from the spec: `Grid::GetTiles`, the rows of the playfield. -/
def Grid.GetTiles (g : Grid) : List (List Cell) := g.tiles

/-- Modelled from the spec: `isOutOfBounds(x, y)` of section 4.1, true if
(x,y) lies outside `[0,width) x [0,height)`. -/
def Grid.IsOutOfBounds (g : Grid) (x y : Int) : Bool :=
  x < 0 || (g.GetWidth : Int) ≤ x || y < 0 || (g.GetHeight : Int) ≤ y

/-- The cell stored at (x,y), if there is one. -/
def Grid.tileAt (g : Grid) (x y : Int) : Option Cell :=
  if g.IsOutOfBounds x y then none
  else (g.tiles.getD y.toNat [])[x.toNat]?

/-- Modelled from the spec: `isCollision(x, y, state)` of section 4.1, true if
the cell at (x,y) currently holds `state`.  Section 4.1 calls a coordinate
outside the playfield a caller error; the model answers `false` there. -/
def Grid.IsCollision (g : Grid) (x y : Int) (state : Cell) : Bool :=
  g.tileAt x y == some state

/-- Modelled from the spec: `setTile(x, y, state = Empty)` of section 4.1,
overwrite the state of the cell at (x,y).  Section 4.1 calls a coordinate
outside the playfield a caller error; the model leaves the playfield as it is
there. -/
def Grid.SetTile (g : Grid) (x y : Int) (state : Cell := Grid.empty) : Grid :=
  if g.IsOutOfBounds x y then g
  else { g with tiles := g.tiles.set y.toNat ((g.tiles.getD y.toNat []).set x.toNat state) }

/-- Modelled from the spec: `setRow(index, rowContents)` of section 4.1,
replace the contents of a whole row. -/
def Grid.SetRow (g : Grid) (index : Nat) (rowContents : List Cell) : Grid :=
  { g with tiles := g.tiles.set index rowContents }

/-- An empty playfield of the given width and height. -/
def Grid.blank (w h : Nat) : Grid :=
  { width := w, tiles := List.replicate h (List.replicate w Grid.empty) }

/-- A playfield is rectangular when every row has `width` cells. -/
def Grid.WF (g : Grid) : Prop := ∀ r ∈ g.tiles, r.length = g.width

instance (g : Grid) : Decidable g.WF := by
  unfold Grid.WF; infer_instance

/-- Class `Tetromino` (tetris.cpp 36-176), its private members. -/
structure Tetromino where
  spawnable : Bool
  idle : Bool
  frames : Int
  blocks : List Coordinate
  type : Tetrominos
deriving DecidableEq, Repr

/-- Constant `Tetromino::asciiIdle`: the state of a settled cell. -/
def Tetromino.asciiIdle : Cell := Cell.Locked

/-- Constant `Tetromino::asciiActive`: the state of a cell of the falling piece. -/
def Tetromino.asciiActive : Cell := Cell.Active

/-- The `switch` of the constructor (tetris.cpp 44-67): the four local cells
of each shape. -/
def Tetromino.layout : Tetrominos → List Coordinate
  | Tetrominos.Line => [⟨0, 0⟩, ⟨0, 1⟩, ⟨0, 2⟩, ⟨0, 3⟩]
  | Tetrominos.Z => [⟨1, 0⟩, ⟨1, 1⟩, ⟨0, 1⟩, ⟨0, 2⟩]
  | Tetrominos.Z2 => [⟨0, 0⟩, ⟨0, 1⟩, ⟨1, 1⟩, ⟨1, 2⟩]
  | Tetrominos.L => [⟨1, 0⟩, ⟨0, 0⟩, ⟨0, 1⟩, ⟨0, 2⟩]
  | Tetrominos.L2 => [⟨0, 0⟩, ⟨1, 0⟩, ⟨1, 1⟩, ⟨1, 2⟩]
  | Tetrominos.Square => [⟨0, 0⟩, ⟨0, 1⟩, ⟨1, 1⟩, ⟨1, 0⟩]
  | Tetrominos.T => [⟨0, 0⟩, ⟨1, 0⟩, ⟨1, 1⟩, ⟨2, 0⟩]

/-- The loop of the constructor (tetris.cpp 69-75) over the blocks still to be
placed: shift the block by half the width, record a collision with a settled
cell, paint the cell.  `done` holds the blocks already placed. -/
def Tetromino.place (g : Grid) (spawnable : Bool) (done : List Coordinate) :
    List Coordinate → Bool × List Coordinate × Grid
  | [] => (spawnable, done, g)
  | b :: rest =>
    let b1 : Coordinate := { x := b.x + ((g.GetWidth / 2 : Nat) : Int), y := b.y }
    let spawnable1 := if g.IsCollision b1.x b1.y Tetromino.asciiIdle then false else spawnable
    Tetromino.place (g.SetTile b1.x b1.y Tetromino.asciiActive) spawnable1 (done ++ [b1]) rest

/-- Constructor `Tetromino::Tetromino(Tetrominos)` (tetris.cpp 41-78). -/
def Tetromino.create (ty : Tetrominos) (g : Grid) : Tetromino × Grid :=
  let r := Tetromino.place g true [] (Tetromino.layout ty)
  ({ spawnable := r.1, idle := false, frames := 0, blocks := r.2.1, type := ty }, r.2.2)

/-- A loop `for i: grid.SetTile(blocks[i].x, blocks[i].y, state)`. -/
def Grid.paint (g : Grid) (blocks : List Coordinate) (state : Cell) : Grid :=
  blocks.foldl (fun acc b => acc.SetTile b.x b.y state) g

/-- The test of the first loop of `Tetromino::Update` (tetris.cpp 88-90): the
block cannot go one row down. -/
def Tetromino.blocked (g : Grid) (b : Coordinate) : Bool :=
  if !g.IsOutOfBounds b.x (b.y + 1) then
    if !g.IsCollision b.x (b.y + 1) Tetromino.asciiIdle then false else true
  else true

/-- The descent attempt of `Tetromino::Update` (tetris.cpp 86-101): lock the
piece in place at the first blocked block, else move every block one row down. -/
def Tetromino.fall (t : Tetromino) (g : Grid) : Tetromino × Grid :=
  if t.blocks.any (Tetromino.blocked g) then
    ({ t with idle := true }, g.paint t.blocks Tetromino.asciiIdle)
  else
    let g1 := g.paint t.blocks Grid.empty
    let moved := t.blocks.map (fun b => ({ x := b.x, y := b.y + 1 } : Coordinate))
    ({ t with blocks := moved }, g1.paint moved Tetromino.asciiActive)

/-- Method `Tetromino::Update` (tetris.cpp 80-102).  The test
`frames++ != 40` compares the counter as it was before the increment. -/
def Tetromino.Update (t : Tetromino) (g : Grid) : Tetromino × Grid :=
  if t.idle then (t, g)
  else if t.frames ≠ 40 then ({ t with frames := t.frames + 1 }, g)
  else Tetromino.fall { t with frames := 0 } g

/-- The test of the first loop of `Tetromino::Move` (tetris.cpp 110-111): the
translated block leaves the playfield or meets a settled cell. -/
def Tetromino.moveRejected (g : Grid) (xOffset yOffset : Int) (b : Coordinate) : Bool :=
  g.IsOutOfBounds (b.x + xOffset) (b.y + yOffset)
    || g.IsCollision (b.x + xOffset) (b.y + yOffset) Tetromino.asciiIdle

/-- Method `Tetromino::Move` (tetris.cpp 104-126). -/
def Tetromino.Move (t : Tetromino) (g : Grid) (xOffset yOffset : Int) : Tetromino × Grid :=
  if t.idle then (t, g)
  else if t.blocks.any (Tetromino.moveRejected g xOffset yOffset) then (t, g)
  else
    let frames1 := if yOffset = 1 then 0 else t.frames
    let g1 := g.paint t.blocks Grid.empty
    let moved := t.blocks.map
      (fun b => ({ x := b.x + xOffset, y := b.y + yOffset } : Coordinate))
    ({ t with frames := frames1, blocks := moved }, g1.paint moved Tetromino.asciiActive)

/-- The first loop of `Tetromino::Turn` (tetris.cpp 137-151) over the blocks
still to be turned: `none` stands for the early `return`, `newCoordinates`
collects the turned blocks. -/
def Tetromino.turnLoop (g : Grid) (xBase yBase : Int) (newCoordinates : List Coordinate) :
    List Coordinate → Option (List Coordinate)
  | [] => some newCoordinates
  | b :: rest =>
    let xNorm := b.x - xBase
    let yNorm := b.y - yBase
    let xNew := xBase + yNorm * -1
    let yNew := yBase + xNorm
    if g.IsOutOfBounds xNew yNew then none
    else if g.IsCollision xNew yNew Tetromino.asciiIdle then none
    else Tetromino.turnLoop g xBase yBase (newCoordinates ++ [⟨xNew, yNew⟩]) rest

/-- Method `Tetromino::Turn` (tetris.cpp 128-162).  The pivot is `blocks[1]`;
a piece always has four blocks, the default stands for a missing one. -/
def Tetromino.Turn (t : Tetromino) (g : Grid) : Tetromino × Grid :=
  if t.idle then (t, g)
  else if t.type = Tetrominos.Square then (t, g)
  else
    let xBase := (t.blocks.getD 1 ⟨0, 0⟩).x
    let yBase := (t.blocks.getD 1 ⟨0, 0⟩).y
    match Tetromino.turnLoop g xBase yBase [] t.blocks with
    | none => (t, g)
    | some newCoordinates =>
      let g1 := g.paint t.blocks Grid.empty
      ({ t with blocks := newCoordinates }, g1.paint newCoordinates Tetromino.asciiActive)

/-- Method `Tetromino::IsIdle`. -/
def Tetromino.IsIdle (t : Tetromino) : Bool := t.idle

/-- Method `Tetromino::IsSpawnable`. -/
def Tetromino.IsSpawnable (t : Tetromino) : Bool := t.spawnable

/-- Class `RowChecker` (tetris.cpp 178-205), its private members. -/
structure RowChecker where
  fullRow : List Cell
  clearedRowCount : Int
deriving DecidableEq, Repr

/-- Constructor `RowChecker::RowChecker` (tetris.cpp 181-184). -/
def RowChecker.create (g : Grid) : RowChecker :=
  { fullRow := List.replicate g.GetWidth Tetromino.asciiIdle, clearedRowCount := 0 }

/-- The inner loop of `RowChecker::Update` (tetris.cpp 193-194),
`for (irow = row; irow > 0; irow--) SetRow(irow, GetTiles()[irow-1])`. -/
def RowChecker.shiftDown : Nat → Grid → Grid
  | 0, g => g
  | irow + 1, g => RowChecker.shiftDown irow (g.SetRow (irow + 1) (g.GetTiles.getD irow []))

/-- The outer loop of `RowChecker::Update` (tetris.cpp 189-197), one iteration
per unit of fuel; `none` when the fuel runs out before the loop ends.  The
local `emptyRow` of the source is built and never used. -/
def RowChecker.scan (fullRow : List Cell) : Nat → Int → Grid → Int → Option (Grid × Int)
  | 0, _, _, _ => none
  | fuel + 1, row, g, clearedRowCount =>
    if 0 ≤ row then
      if g.GetTiles.getD row.toNat [] ≠ fullRow then
        RowChecker.scan fullRow fuel (row - 1) g clearedRowCount
      else
        let _emptyRow := List.replicate g.GetWidth Grid.empty
        let g1 := RowChecker.shiftDown row.toNat g
        RowChecker.scan fullRow fuel (row + 1 - 1) g1 (clearedRowCount + 1)
    else some (g, clearedRowCount)

/-- Method `RowChecker::Update` (tetris.cpp 186-198).  The loop is run with
fuel for twice the height plus one iterations, which is enough whenever the
loop of the source ends (`RowChecker.Update_of_scan`). -/
def RowChecker.Update (rc : RowChecker) (g : Grid) : Option (RowChecker × Grid) :=
  match RowChecker.scan rc.fullRow (2 * g.GetHeight + 1) ((g.GetHeight : Int) - 1) g 0 with
  | none => none
  | some (g1, n) => some ({ rc with clearedRowCount := n }, g1)

/-- Method `RowChecker::GetClearedRows`. -/
def RowChecker.GetClearedRows (rc : RowChecker) : Int := rc.clearedRowCount

/-- Class `Player` (tetris.cpp 207-240), its private members. -/
structure Player where
  tetromino : Tetromino
  rowChecker : RowChecker
  score : Int
  playable : Bool
deriving DecidableEq, Repr

/-- The shape drawn by `static_cast<Tetrominos>(rand()%7)`. -/
def Tetrominos.ofRand (rnd : Nat) : Tetrominos :=
  match rnd % 7 with
  | 0 => Tetrominos.Line
  | 1 => Tetrominos.Z
  | 2 => Tetrominos.Z2
  | 3 => Tetrominos.L
  | 4 => Tetrominos.L2
  | 5 => Tetrominos.Square
  | _ => Tetrominos.T

/-- The command dispatch of `Player::Update` (tetris.cpp 212-215). -/
def Player.command (t : Tetromino) (g : Grid) (userInput : UserInput) : Tetromino × Grid :=
  if userInput = UserInput.Left then t.Move g (-1) 0
  else if userInput = UserInput.Right then t.Move g 1 0
  else if userInput = UserInput.Down then t.Move g 0 1
  else if userInput = UserInput.Up then t.Turn g
  else (t, g)

/-- Method `Player::Update` (tetris.cpp 210-230) on the global `userInput`
and the value `rnd` returned by `rand()`; `none` when the line-clear scan
does not end. -/
def Player.Update (p : Player) (g : Grid) (userInput : UserInput) (rnd : Nat) :
    Option (Player × Grid) :=
  let r := Player.command p.tetromino g userInput
  if r.1.IsIdle then
    let s := Tetromino.create (Tetrominos.ofRand rnd) r.2
    if !s.1.IsSpawnable then
      some ({ p with tetromino := s.1, playable := false }, s.2)
    else
      match p.rowChecker.Update s.2 with
      | none => none
      | some (rc, g2) =>
        let u := s.1.Update g2
        some ({ p with tetromino := u.1, rowChecker := rc,
                       score := p.score + rc.GetClearedRows }, u.2)
  else
    let u := r.1.Update r.2
    some ({ p with tetromino := u.1 }, u.2)

/-- Method `Player::IsPlayable`. -/
def Player.IsPlayable (p : Player) : Bool := p.playable

/-- Method `Player::GetScore`. -/
def Player.GetScore (p : Player) : Int := p.score

/-- The round at program start on a playfield of the given size: the empty
playfield, then the member initialisers of `Player` (tetris.cpp 236-239), the
default `Tetromino()` being a `Line`. -/
def Player.initial (w h : Nat) : Player × Grid :=
  let s := Tetromino.create Tetrominos.Line (Grid.blank w h)
  ({ tetromino := s.1, rowChecker := RowChecker.create s.2, score := 0, playable := true }, s.2)

/-- Run `Player::Update` once per element of a list of commands and draws. -/
def Player.run : List (UserInput × Nat) → Player × Grid → Option (Player × Grid)
  | [], s => some s
  | (c, rnd) :: rest, s =>
    match Player.Update s.1 s.2 c rnd with
    | none => none
    | some s1 => Player.run rest s1

/-- The states a round can be in: the initial round and whatever
`Player::Update` makes of a reachable state, for any command and draw. -/
inductive Reachable (w h : Nat) : Player × Grid → Prop
  | init : Reachable w h (Player.initial w h)
  | step (s s1 : Player × Grid) (c : UserInput) (rnd : Nat) :
      Reachable w h s → Player.Update s.1 s.2 c rnd = some s1 → Reachable w h s1

/-- Number of `Active` cells on the playfield. -/
def Grid.activeCount (g : Grid) : Nat :=
  (g.tiles.map (fun r => r.count Cell.Active)).sum


/-! ## Notions used in the statements -/

/-- The cell a block goes to by a quarter turn about the pivot (px,py):
`newX = px - dy`, `newY = py + dx` for `(dx, dy) = (x - px, y - py)`. -/
def Coordinate.turned (px py : Int) (b : Coordinate) : Coordinate :=
  { x := px - (b.y - py), y := py + (b.x - px) }

/-- The block translated by (dx,dy). -/
def Coordinate.shifted (dx dy : Int) (b : Coordinate) : Coordinate :=
  { x := b.x + dx, y := b.y + dy }

/-- The pivot of `Tetromino::Turn`: the block at index 1. -/
def Tetromino.pivot (t : Tetromino) : Coordinate := t.blocks.getD 1 ⟨0, 0⟩

/-- `Tetromino::Turn` gets past its validation loop (it is not idle, not a
square, and no turned block made the loop return). -/
def Tetromino.turnAccepted (t : Tetromino) (g : Grid) : Bool :=
  !t.idle && decide (t.type ≠ Tetrominos.Square) &&
    (Tetromino.turnLoop g t.pivot.x t.pivot.y [] t.blocks).isSome

/-- The state after `n` successive calls of `Tetromino::Update`. -/
def Tetromino.updates : Nat → Tetromino × Grid → Tetromino × Grid
  | 0, s => s
  | n + 1, s => Tetromino.updates n (s.1.Update s.2)

/-- Row `r` of the playfield is full: it exists and every cell of it is `Locked`. -/
def Grid.rowFull (g : Grid) (r : Nat) : Bool :=
  match g.tiles[r]? with
  | some row => row.all (fun c => c == Cell.Locked)
  | none => false

/-- Number of full rows of the playfield. -/
def Grid.fullRows (g : Grid) : Nat :=
  g.tiles.countP (fun row => row.all (fun c => c == Cell.Locked))

/-- A cell of the playfield is `Active` if and only if it is one of the
coordinates of the piece and the piece is not idle. -/
def ActiveIffPiece (t : Tetromino) (g : Grid) : Prop :=
  ∀ y : Nat, y < g.GetHeight → ∀ x : Nat, x < g.GetWidth →
    (g.IsCollision x y Cell.Active = true ↔
      (t.idle = false ∧ (⟨x, y⟩ : Coordinate) ∈ t.blocks))

instance (t : Tetromino) (g : Grid) : Decidable (ActiveIffPiece t g) := by
  unfold ActiveIffPiece; infer_instance

/-! ## A round that clears a row -/

/-- Commands and draws that fill the bottom row of the 10 by 20 playfield.
The initial line is turned flat, pushed to the left wall, dropped by 18 `Down`
and left to lock (40 further steps); the next piece, drawn as a line by the
step that follows the lock, is laid flat beside it; a square (draw 5) closes
the row.  The draw of a step is used only when that step spawns a piece. -/
def Player.fillBottomRow : List (UserInput × Nat) :=
  [(UserInput.Up, 0)] ++ List.replicate 3 (UserInput.Left, 0)
    ++ List.replicate 18 (UserInput.Down, 0) ++ List.replicate 40 (UserInput.None, 0)
    ++ [(UserInput.None, 0), (UserInput.Up, 0), (UserInput.Right, 0)]
    ++ List.replicate 18 (UserInput.Down, 0) ++ List.replicate 40 (UserInput.None, 0)
    ++ [(UserInput.None, 5)] ++ List.replicate 3 (UserInput.Right, 0)
    ++ List.replicate 18 (UserInput.Down, 0) ++ List.replicate 40 (UserInput.None, 0)

/-- The 10 by 20 playfield with the bottom row full and the rest of the square
above its right end; `Player.fillBottomRow` leads to it. -/
def Grid.bottomRowFull : Grid :=
  { width := 10,
    tiles := List.replicate 18 (List.replicate 10 Cell.Empty) ++
      [[Cell.Empty, Cell.Empty, Cell.Empty, Cell.Empty, Cell.Empty, Cell.Empty, Cell.Empty,
        Cell.Empty, Cell.Locked, Cell.Locked],
       List.replicate 10 Cell.Locked] }

/-- The round after `Player.fillBottomRow`: the square has just locked. -/
def Player.bottomRowFilled : Player × Grid :=
  ({ tetromino := ⟨true, true, 0, [⟨8, 18⟩, ⟨8, 19⟩, ⟨9, 19⟩, ⟨9, 18⟩], Tetrominos.Square⟩,
     rowChecker := RowChecker.create Grid.bottomRowFull, score := 0, playable := true },
   Grid.bottomRowFull)

/-- The playfield handed to the line-clear scan by the step after
`Player.bottomRowFilled`: the new line stands on its spawn cells. -/
def Grid.bottomRowFullSpawned : Grid :=
  (Tetromino.create Tetrominos.Line Grid.bottomRowFull).2

/-! ## Effects of the piece operations -/

/-- The effects a call of `Move`, `Turn` or `Update` can have on the piece and
the playfield: the blocks, the idle flag and the playfield stay as they are;
or the non-idle piece is repainted on the cells `f b`, all on the playfield,
for a one-to-one `f`; or the non-idle piece locks where it stands. -/
def PieceStep (t : Tetromino) (g : Grid) (t1 : Tetromino) (g1 : Grid) : Prop :=
  (t1.idle = t.idle ∧ t1.blocks = t.blocks ∧ g1 = g) ∨
  (t.idle = false ∧ t1.idle = false ∧ ∃ f : Coordinate → Coordinate, Function.Injective f ∧
    t1.blocks = t.blocks.map f ∧ (∀ b ∈ t1.blocks, g.IsOutOfBounds b.x b.y = false) ∧
    g1 = (g.paint t.blocks Grid.empty).paint t1.blocks Tetromino.asciiActive) ∨
  (t.idle = false ∧ t1.idle = true ∧ t1.blocks = t.blocks ∧
    g1 = g.paint t.blocks Tetromino.asciiIdle)

/-- The cells a new piece of the given shape takes on a playfield of width `w`:
the local cells of the shape with every x shifted by `w / 2`. -/
def Tetromino.spawnBlocks (ty : Tetrominos) (w : Nat) : List Coordinate :=
  (Tetromino.layout ty).map (fun b => ({ x := b.x + ((w / 2 : Nat) : Int), y := b.y } : Coordinate))

/-- The piece and the playfield fit together on a `w` by `h` playfield: the
playfield is rectangular of that size, the piece has four distinct blocks, all
on the playfield, and the `Active` cells are those of the non-idle piece. -/
def PieceOnField (w h : Nat) (t : Tetromino) (g : Grid) : Prop :=
  g.WF ∧ g.width = w ∧ g.tiles.length = h ∧ ActiveIffPiece t g ∧
    t.blocks.Nodup ∧ t.blocks.length = 4 ∧ ∀ b ∈ t.blocks, g.IsOutOfBounds b.x b.y = false

/-! ## The piece operations with every playfield access checked

The same constructor and methods, with `none` as the result as soon as
`IsCollision` or `SetTile` is called on a coordinate outside the playfield
(the caller error of section 4.1). -/

/-- `Grid::IsCollision` with the access checked: `none` outside the playfield. -/
def Grid.IsCollisionChecked (g : Grid) (x y : Int) (state : Cell) : Option Bool :=
  if g.IsOutOfBounds x y then none else some (g.IsCollision x y state)

/-- `Grid::SetTile` with the access checked: `none` outside the playfield. -/
def Grid.SetTileChecked (g : Grid) (x y : Int) (state : Cell := Grid.empty) : Option Grid :=
  if g.IsOutOfBounds x y then none else some (g.SetTile x y state)

/-- A loop `for i: grid.SetTile(blocks[i].x, blocks[i].y, state)`, accesses checked. -/
def Grid.paintChecked (g : Grid) (state : Cell) : List Coordinate → Option Grid
  | [] => some g
  | b :: rest =>
    match g.SetTileChecked b.x b.y state with
    | none => none
    | some g1 => Grid.paintChecked g1 state rest

/-- A validation loop over the blocks that returns at the first block whose
test is true: `some true` for that return, `some false` when every test was
false, `none` when a test made an access outside the playfield. -/
def Tetromino.anyChecked (test : Coordinate → Option Bool) : List Coordinate → Option Bool
  | [] => some false
  | b :: rest =>
    match test b with
    | none => none
    | some true => some true
    | some false => Tetromino.anyChecked test rest

/-- The loop of the constructor (tetris.cpp 69-75), accesses checked. -/
def Tetromino.placeChecked (g : Grid) (spawnable : Bool) (done : List Coordinate) :
    List Coordinate → Option (Bool × List Coordinate × Grid)
  | [] => some (spawnable, done, g)
  | b :: rest =>
    let b1 : Coordinate := { x := b.x + ((g.GetWidth / 2 : Nat) : Int), y := b.y }
    match g.IsCollisionChecked b1.x b1.y Tetromino.asciiIdle with
    | none => none
    | some hit =>
      match g.SetTileChecked b1.x b1.y Tetromino.asciiActive with
      | none => none
      | some g1 =>
        Tetromino.placeChecked g1 (if hit then false else spawnable) (done ++ [b1]) rest

/-- Constructor `Tetromino::Tetromino(Tetrominos)` (tetris.cpp 41-78), accesses checked. -/
def Tetromino.createChecked (ty : Tetrominos) (g : Grid) : Option (Tetromino × Grid) :=
  match Tetromino.placeChecked g true [] (Tetromino.layout ty) with
  | none => none
  | some r =>
    some ({ spawnable := r.1, idle := false, frames := 0, blocks := r.2.1, type := ty }, r.2.2)

/-- The test of the first loop of `Tetromino::Update` (tetris.cpp 88-90),
accesses checked: `IsCollision` is called only after `IsOutOfBounds` said no. -/
def Tetromino.blockedChecked (g : Grid) (b : Coordinate) : Option Bool :=
  if !g.IsOutOfBounds b.x (b.y + 1) then
    match g.IsCollisionChecked b.x (b.y + 1) Tetromino.asciiIdle with
    | none => none
    | some hit => if !hit then some false else some true
  else some true

/-- The descent attempt of `Tetromino::Update` (tetris.cpp 86-101), accesses checked. -/
def Tetromino.fallChecked (t : Tetromino) (g : Grid) : Option (Tetromino × Grid) :=
  match Tetromino.anyChecked (Tetromino.blockedChecked g) t.blocks with
  | none => none
  | some true =>
    match g.paintChecked Tetromino.asciiIdle t.blocks with
    | none => none
    | some g1 => some ({ t with idle := true }, g1)
  | some false =>
    match g.paintChecked Grid.empty t.blocks with
    | none => none
    | some g1 =>
      let moved := t.blocks.map (fun b => ({ x := b.x, y := b.y + 1 } : Coordinate))
      match g1.paintChecked Tetromino.asciiActive moved with
      | none => none
      | some g2 => some ({ t with blocks := moved }, g2)

/-- Method `Tetromino::Update` (tetris.cpp 80-102), accesses checked. -/
def Tetromino.UpdateChecked (t : Tetromino) (g : Grid) : Option (Tetromino × Grid) :=
  if t.idle then some (t, g)
  else if t.frames ≠ 40 then some ({ t with frames := t.frames + 1 }, g)
  else Tetromino.fallChecked { t with frames := 0 } g

/-- The test of the first loop of `Tetromino::Move` (tetris.cpp 110-111),
accesses checked. -/
def Tetromino.moveRejectedChecked (g : Grid) (xOffset yOffset : Int) (b : Coordinate) :
    Option Bool :=
  if g.IsOutOfBounds (b.x + xOffset) (b.y + yOffset) then some true
  else g.IsCollisionChecked (b.x + xOffset) (b.y + yOffset) Tetromino.asciiIdle

/-- Method `Tetromino::Move` (tetris.cpp 104-126), accesses checked. -/
def Tetromino.MoveChecked (t : Tetromino) (g : Grid) (xOffset yOffset : Int) :
    Option (Tetromino × Grid) :=
  if t.idle then some (t, g)
  else
    match Tetromino.anyChecked (Tetromino.moveRejectedChecked g xOffset yOffset) t.blocks with
    | none => none
    | some true => some (t, g)
    | some false =>
      let frames1 := if yOffset = 1 then 0 else t.frames
      match g.paintChecked Grid.empty t.blocks with
      | none => none
      | some g1 =>
        let moved := t.blocks.map
          (fun b => ({ x := b.x + xOffset, y := b.y + yOffset } : Coordinate))
        match g1.paintChecked Tetromino.asciiActive moved with
        | none => none
        | some g2 => some ({ t with frames := frames1, blocks := moved }, g2)

/-- The test of the first loop of `Tetromino::Turn` (tetris.cpp 139-148) on one
block, accesses checked. -/
def Tetromino.turnRejectedChecked (g : Grid) (xBase yBase : Int) (b : Coordinate) :
    Option Bool :=
  let xNorm := b.x - xBase
  let yNorm := b.y - yBase
  let xNew := xBase + yNorm * -1
  let yNew := yBase + xNorm
  if g.IsOutOfBounds xNew yNew then some true
  else g.IsCollisionChecked xNew yNew Tetromino.asciiIdle

/-- Method `Tetromino::Turn` (tetris.cpp 128-162), accesses checked; the new
coordinates are those the first loop collected. -/
def Tetromino.TurnChecked (t : Tetromino) (g : Grid) : Option (Tetromino × Grid) :=
  if t.idle then some (t, g)
  else if t.type = Tetrominos.Square then some (t, g)
  else
    let xBase := (t.blocks.getD 1 ⟨0, 0⟩).x
    let yBase := (t.blocks.getD 1 ⟨0, 0⟩).y
    match Tetromino.anyChecked (Tetromino.turnRejectedChecked g xBase yBase) t.blocks with
    | none => none
    | some true => some (t, g)
    | some false =>
      let newCoordinates := t.blocks.map
        (fun b => ({ x := xBase + (b.y - yBase) * -1, y := yBase + (b.x - xBase) } : Coordinate))
      match g.paintChecked Grid.empty t.blocks with
      | none => none
      | some g1 =>
        match g1.paintChecked Tetromino.asciiActive newCoordinates with
        | none => none
        | some g2 => some ({ t with blocks := newCoordinates }, g2)

/-- The piece and playfield states that spawns, `Move`, `Turn` and `Update`
calls lead to from the initial piece of a `w` by `h` playfield, in any order
and with any arguments; a finished line-clear scan of any row checker may come
in between. -/
inductive PieceReachable (w h : Nat) : Tetromino × Grid → Prop
  | init : PieceReachable w h (Tetromino.create Tetrominos.Line (Grid.blank w h))
  | spawn (s : Tetromino × Grid) (ty : Tetrominos) :
      PieceReachable w h s → PieceReachable w h (Tetromino.create ty s.2)
  | move (s : Tetromino × Grid) (dx dy : Int) :
      PieceReachable w h s → PieceReachable w h (s.1.Move s.2 dx dy)
  | turn (s : Tetromino × Grid) :
      PieceReachable w h s → PieceReachable w h (s.1.Turn s.2)
  | tick (s : Tetromino × Grid) :
      PieceReachable w h s → PieceReachable w h (s.1.Update s.2)
  | scan (s : Tetromino × Grid) (rc rc1 : RowChecker) (g1 : Grid) :
      PieceReachable w h s → rc.Update s.2 = some (rc1, g1) → PieceReachable w h (s.1, g1)

/-- The state after `n` successive calls of `Tetromino::Turn`. -/
def Tetromino.turns : Nat → Tetromino × Grid → Tetromino × Grid
  | 0, s => s
  | n + 1, s => Tetromino.turns n (s.1.Turn s.2)

/-- The cleared-row count added to the score by a step of `Player::Update`:
that of the line-clear scan when the step runs one, 0 when it runs none. -/
def Player.clearedInStep (p : Player) (g : Grid) (userInput : UserInput) (rnd : Nat) : Int :=
  let r := Player.command p.tetromino g userInput
  if r.1.IsIdle then
    let s := Tetromino.create (Tetrominos.ofRand rnd) r.2
    if !s.1.IsSpawnable then 0
    else
      match p.rowChecker.Update s.2 with
      | none => 0
      | some (rc, _) => rc.GetClearedRows
  else 0

/-- The cleared-row counts of the steps of a run, added up. -/
def Player.clearedInRun : List (UserInput × Nat) → Player × Grid → Int
  | [], _ => 0
  | (c, rnd) :: rest, s =>
    match Player.Update s.1 s.2 c rnd with
    | none => 0
    | some s1 => Player.clearedInStep s.1 s.2 c rnd + Player.clearedInRun rest s1

/-! ## The playfield: writing cells -/

theorem Grid.IsOutOfBounds_false_iff (g : Grid) (x y : Int) :
    g.IsOutOfBounds x y = false ↔ 0 ≤ x ∧ x < g.width ∧ 0 ≤ y ∧ y < g.tiles.length := by
  simp only [Grid.IsOutOfBounds, Grid.GetWidth, Grid.GetHeight, Bool.or_eq_false_iff,
    decide_eq_false_iff_not, not_lt, not_le]
  tauto

theorem Grid.SetTile_width (g : Grid) (x y : Int) (c : Cell) :
    (g.SetTile x y c).width = g.width := by
  unfold Grid.SetTile; split <;> rfl

theorem Grid.SetTile_length (g : Grid) (x y : Int) (c : Cell) :
    (g.SetTile x y c).tiles.length = g.tiles.length := by
  unfold Grid.SetTile; split <;> simp

theorem Grid.SetTile_IsOutOfBounds (g : Grid) (x y : Int) (c : Cell) (a b : Int) :
    (g.SetTile x y c).IsOutOfBounds a b = g.IsOutOfBounds a b := by
  simp only [Grid.IsOutOfBounds, Grid.GetWidth, Grid.GetHeight, Grid.SetTile_width,
    Grid.SetTile_length]

theorem Grid.SetTile_WF (g : Grid) (x y : Int) (c : Cell) (h : g.WF) :
    (g.SetTile x y c).WF := by
  unfold Grid.SetTile
  split
  · exact h
  · intro r hr
    simp only at hr ⊢
    rcases List.mem_or_eq_of_mem_set hr with hr | hr
    · exact h r hr
    · subst hr
      rw [List.length_set]
      rename_i hb
      have hb2 := (Grid.IsOutOfBounds_false_iff g x y).1 (by simpa using hb)
      have hy : y.toNat < g.tiles.length := by omega
      rw [List.getD_eq_getElem?_getD, List.getElem?_eq_getElem hy]
      exact h _ (List.getElem_mem hy)

theorem Grid.tileAt_SetTile_same (g : Grid) (x y : Int) (c : Cell) (h : g.WF)
    (hb : g.IsOutOfBounds x y = false) : (g.SetTile x y c).tileAt x y = some c := by
  have hb2 := (Grid.IsOutOfBounds_false_iff g x y).1 hb
  have hy : y.toNat < g.tiles.length := by omega
  have hrow : (g.tiles[y.toNat]).length = g.width := h _ (List.getElem_mem hy)
  have hx : x.toNat < (g.tiles[y.toNat]).length := by omega
  simp only [Grid.tileAt, Grid.SetTile_IsOutOfBounds, hb]
  simp only [Grid.SetTile, hb, Bool.false_eq_true, if_false]
  simp [List.getD_eq_getElem?_getD, hy, hx]

theorem Grid.tileAt_SetTile_other (g : Grid) (x y : Int) (c : Cell) (a b : Int)
    (hne : ¬ (a = x ∧ b = y)) : (g.SetTile x y c).tileAt a b = g.tileAt a b := by
  simp only [Grid.tileAt, Grid.SetTile_IsOutOfBounds]
  cases hab : g.IsOutOfBounds a b
  swap
  · simp
  simp only [Bool.false_eq_true, if_false]
  have hab2 := (Grid.IsOutOfBounds_false_iff g a b).1 hab
  unfold Grid.SetTile
  split
  · rfl
  rename_i hb
  have hb2 := (Grid.IsOutOfBounds_false_iff g x y).1 (by simpa using hb)
  simp only [List.getD_eq_getElem?_getD]
  by_cases hy : b = y
  · subst hy
    have hx : a ≠ x := fun hx => hne ⟨hx, rfl⟩
    have hby : b.toNat < g.tiles.length := by omega
    have hxn : x.toNat ≠ a.toNat := by omega
    simp [hby, List.getElem?_set_ne hxn]
  · have hyn : y.toNat ≠ b.toNat := by omega
    simp [List.getElem?_set_ne hyn]

/-! ### Painting a list of blocks -/

theorem Grid.paint_nil (g : Grid) (c : Cell) : g.paint [] c = g := rfl

theorem Grid.paint_cons (g : Grid) (b : Coordinate) (bs : List Coordinate) (c : Cell) :
    g.paint (b :: bs) c = (g.SetTile b.x b.y c).paint bs c := rfl

theorem Grid.paint_width (g : Grid) (bs : List Coordinate) (c : Cell) :
    (g.paint bs c).width = g.width := by
  induction bs generalizing g with
  | nil => rfl
  | cons b bs ih => rw [Grid.paint_cons, ih, Grid.SetTile_width]

theorem Grid.paint_length (g : Grid) (bs : List Coordinate) (c : Cell) :
    (g.paint bs c).tiles.length = g.tiles.length := by
  induction bs generalizing g with
  | nil => rfl
  | cons b bs ih => rw [Grid.paint_cons, ih, Grid.SetTile_length]

theorem Grid.paint_IsOutOfBounds (g : Grid) (bs : List Coordinate) (c : Cell) (a b : Int) :
    (g.paint bs c).IsOutOfBounds a b = g.IsOutOfBounds a b := by
  simp only [Grid.IsOutOfBounds, Grid.GetWidth, Grid.GetHeight, Grid.paint_width,
    Grid.paint_length]

theorem Grid.paint_WF (g : Grid) (bs : List Coordinate) (c : Cell) (h : g.WF) :
    (g.paint bs c).WF := by
  induction bs generalizing g with
  | nil => exact h
  | cons b bs ih => rw [Grid.paint_cons]; exact ih _ (Grid.SetTile_WF g b.x b.y c h)

theorem Grid.tileAt_paint_not_mem (g : Grid) (bs : List Coordinate) (c : Cell) (a b : Int)
    (hn : (⟨a, b⟩ : Coordinate) ∉ bs) : (g.paint bs c).tileAt a b = g.tileAt a b := by
  induction bs generalizing g with
  | nil => rfl
  | cons d bs ih =>
    rw [Grid.paint_cons, ih _ (fun hm => hn (List.mem_cons_of_mem _ hm))]
    apply Grid.tileAt_SetTile_other
    rintro ⟨h1, h2⟩
    apply hn
    subst h1 h2
    exact List.mem_cons_self _ _

theorem Grid.tileAt_paint_mem (g : Grid) (bs : List Coordinate) (c : Cell) (a b : Int)
    (h : g.WF) (hm : (⟨a, b⟩ : Coordinate) ∈ bs) (hb : g.IsOutOfBounds a b = false) :
    (g.paint bs c).tileAt a b = some c := by
  induction bs generalizing g with
  | nil => cases hm
  | cons d bs ih =>
    rw [Grid.paint_cons]
    by_cases hin : (⟨a, b⟩ : Coordinate) ∈ bs
    · exact ih _ (Grid.SetTile_WF g d.x d.y c h) hin (by rw [Grid.SetTile_IsOutOfBounds]; exact hb)
    · rw [Grid.tileAt_paint_not_mem _ _ _ _ _ hin]
      rcases List.mem_cons.1 hm with hd | hd
      · have h1 : d.x = a := by rw [← hd]
        have h2 : d.y = b := by rw [← hd]
        rw [h1, h2]
        exact Grid.tileAt_SetTile_same g a b c h hb
      · exact absurd hd hin

theorem Grid.IsCollision_iff (g : Grid) (x y : Int) (c : Cell) :
    g.IsCollision x y c = true ↔ g.tileAt x y = some c := by
  simp [Grid.IsCollision]

/-- Clearing the old blocks and painting the new ones, as `Update`, `Move` and
`Turn` do once a change is accepted. -/
theorem Grid.repaint (g : Grid) (old new : List Coordinate) (h : g.WF)
    (hnew : ∀ b ∈ new, g.IsOutOfBounds b.x b.y = false) :
    (∀ b ∈ new, ((g.paint old Grid.empty).paint new Tetromino.asciiActive).IsCollision
        b.x b.y Cell.Active = true) ∧
    (∀ b ∈ old, g.IsOutOfBounds b.x b.y = false → b ∉ new →
      ((g.paint old Grid.empty).paint new Tetromino.asciiActive).IsCollision
        b.x b.y Cell.Empty = true) ∧
    (∀ a b : Int, (⟨a, b⟩ : Coordinate) ∉ old → (⟨a, b⟩ : Coordinate) ∉ new →
      ((g.paint old Grid.empty).paint new Tetromino.asciiActive).tileAt a b = g.tileAt a b) := by
  refine ⟨?_, ?_, ?_⟩
  · intro b hb
    rw [Grid.IsCollision_iff]
    exact Grid.tileAt_paint_mem _ _ _ _ _ (Grid.paint_WF _ _ _ h) hb
      (by rw [Grid.paint_IsOutOfBounds]; exact hnew b hb)
  · intro b hb hin hnn
    rw [Grid.IsCollision_iff, Grid.tileAt_paint_not_mem _ _ _ _ _ hnn]
    exact Grid.tileAt_paint_mem _ _ _ _ _ h hb hin
  · intro a b ho hn
    rw [Grid.tileAt_paint_not_mem _ _ _ _ _ hn, Grid.tileAt_paint_not_mem _ _ _ _ _ ho]


/-! ## The piece: `Move`, `Turn` and `Update` -/

theorem Tetromino.turnLoop_eq (g : Grid) (px py : Int) (acc bs : List Coordinate) :
    Tetromino.turnLoop g px py acc bs =
      if bs.any (fun b => g.IsOutOfBounds (b.turned px py).x (b.turned px py).y
          || g.IsCollision (b.turned px py).x (b.turned px py).y Cell.Locked)
      then none else some (acc ++ bs.map (Coordinate.turned px py)) := by
  induction bs generalizing acc with
  | nil => simp [Tetromino.turnLoop]
  | cons b bs ih =>
    have hx : px + (b.y - py) * -1 = px - (b.y - py) := by ring
    simp only [Tetromino.turnLoop, hx, Tetromino.asciiIdle, List.any_cons, Coordinate.turned,
      List.map_cons]
    cases h1 : g.IsOutOfBounds (px - (b.y - py)) (py + (b.x - px))
    · cases h2 : g.IsCollision (px - (b.y - py)) (py + (b.x - px)) Cell.Locked
      · simp only [Bool.false_eq_true, if_false, Bool.or_false, Bool.false_or]
        rw [ih]
        simp [Coordinate.turned]
      · simp
    · simp

/-- C4: a rejected `Move` or `Turn` changes nothing: when some translated
cell (for `Move`) or some turned cell (for `Turn`) is out of bounds or
`Locked`, the call returns the piece (its four coordinates in order, its
gravity counter and flags) and the playfield exactly as they were.  This holds
for every piece, so in particular for every non-idle one. -/
theorem Tetromino.rejected_move_turn_unchanged (t : Tetromino) (g : Grid) (dx dy : Int) :
    ((∃ b ∈ t.blocks, g.IsOutOfBounds (b.x + dx) (b.y + dy) = true ∨
        g.IsCollision (b.x + dx) (b.y + dy) Cell.Locked = true) →
      t.Move g dx dy = (t, g)) ∧
    ((∃ b ∈ t.blocks,
        g.IsOutOfBounds (b.turned t.pivot.x t.pivot.y).x (b.turned t.pivot.x t.pivot.y).y = true ∨
        g.IsCollision (b.turned t.pivot.x t.pivot.y).x (b.turned t.pivot.x t.pivot.y).y
          Cell.Locked = true) →
      t.Turn g = (t, g)) := by
  constructor
  · rintro ⟨b, hb, hrej⟩
    have hany : t.blocks.any (Tetromino.moveRejected g dx dy) = true := by
      rw [List.any_eq_true]
      exact ⟨b, hb, by simpa [Tetromino.moveRejected, Tetromino.asciiIdle] using hrej⟩
    unfold Tetromino.Move
    simp [hany]
  · rintro ⟨b, hb, hrej⟩
    unfold Tetromino.Turn
    split
    · rfl
    split
    · rfl
    have hloop : Tetromino.turnLoop g (t.blocks.getD 1 ⟨0, 0⟩).x (t.blocks.getD 1 ⟨0, 0⟩).y []
        t.blocks = none := by
      rw [Tetromino.turnLoop_eq, if_pos]
      rw [List.any_eq_true]
      exact ⟨b, hb, by simpa [Tetromino.pivot] using hrej⟩
    simp only [hloop]

/-- A non-idle `Line` standing in the left column of an empty 10 by 20 playfield. -/
theorem Tetromino.rejected_move_turn_unchanged_witness :
    let g : Grid := (Grid.blank 10 20).paint [⟨0, 0⟩, ⟨0, 1⟩, ⟨0, 2⟩, ⟨0, 3⟩] Cell.Active
    let t : Tetromino := ⟨true, false, 7, [⟨0, 0⟩, ⟨0, 1⟩, ⟨0, 2⟩, ⟨0, 3⟩], Tetrominos.Line⟩
    t.Move g (-1) 0 = (t, g) ∧ t.Turn g = (t, g) :=
  ⟨(Tetromino.rejected_move_turn_unchanged _ _ (-1) 0).1 ⟨⟨0, 0⟩, by decide, by decide⟩,
   (Tetromino.rejected_move_turn_unchanged _ _ 0 0).2 ⟨⟨0, 2⟩, by decide, by decide⟩⟩


theorem Tetromino.blocked_eq (g : Grid) (b : Coordinate) :
    Tetromino.blocked g b =
      (g.IsOutOfBounds b.x (b.y + 1) || g.IsCollision b.x (b.y + 1) Cell.Locked) := by
  unfold Tetromino.blocked Tetromino.asciiIdle
  cases g.IsOutOfBounds b.x (b.y + 1) <;> cases g.IsCollision b.x (b.y + 1) Cell.Locked <;> rfl

/-- C5: the call of `Update` on which the counter fires (counter at 40), for a
non-idle piece on a rectangular playfield.  If for some block the cell below
is out of bounds or `Locked`, the piece locks: its coordinates are unchanged,
it becomes idle and each of its cells on the playfield is `Locked`.  Otherwise
every block goes one row down with x unchanged, the piece stays non-idle, the
new cells are `Active` and each vacated cell of the playfield is `Empty`. -/
theorem Tetromino.Update_descent_attempt (t : Tetromino) (g : Grid) (hwf : g.WF)
    (hidle : t.idle = false) (hfire : t.frames = 40) :
    ((∃ b ∈ t.blocks, g.IsOutOfBounds b.x (b.y + 1) = true ∨
        g.IsCollision b.x (b.y + 1) Cell.Locked = true) →
      (t.Update g).1.blocks = t.blocks ∧ (t.Update g).1.idle = true ∧
      ∀ b ∈ t.blocks, g.IsOutOfBounds b.x b.y = false →
        (t.Update g).2.IsCollision b.x b.y Cell.Locked = true) ∧
    ((∀ b ∈ t.blocks, g.IsOutOfBounds b.x (b.y + 1) = false ∧
        g.IsCollision b.x (b.y + 1) Cell.Locked = false) →
      (t.Update g).1.blocks = t.blocks.map (fun b => ({ x := b.x, y := b.y + 1 } : Coordinate)) ∧
      (t.Update g).1.idle = false ∧
      (∀ b ∈ t.blocks, (t.Update g).2.IsCollision b.x (b.y + 1) Cell.Active = true) ∧
      (∀ b ∈ t.blocks, g.IsOutOfBounds b.x b.y = false →
        b ∉ t.blocks.map (fun b => ({ x := b.x, y := b.y + 1 } : Coordinate)) →
        (t.Update g).2.IsCollision b.x b.y Cell.Empty = true)) := by
  have hU : t.Update g = Tetromino.fall { t with frames := 0 } g := by
    simp [Tetromino.Update, hidle, hfire]
  have hmap : t.blocks.map (fun b => ({ x := b.x, y := b.y + 1 } : Coordinate)) =
      t.blocks.map (Coordinate.shifted 0 1) := by
    apply List.map_congr_left
    intro b _
    simp [Coordinate.shifted]
  rw [hU]
  constructor
  · rintro ⟨b, hb, hrej⟩
    have hany : t.blocks.any (Tetromino.blocked g) = true := by
      rw [List.any_eq_true]
      exact ⟨b, hb, by rw [Tetromino.blocked_eq]; simpa using hrej⟩
    simp only [Tetromino.fall, hany, if_true]
    refine ⟨trivial, trivial, ?_⟩
    intro c hc hin
    rw [Grid.IsCollision_iff]
    exact Grid.tileAt_paint_mem g t.blocks _ c.x c.y hwf hc hin
  · intro hfree
    have hany : t.blocks.any (Tetromino.blocked g) = false := by
      rw [List.any_eq_false]
      intro b hb
      rw [Tetromino.blocked_eq]
      simp [hfree b hb]
    simp only [Tetromino.fall, hany, Bool.false_eq_true, if_false, hmap]
    have hnew : ∀ b ∈ t.blocks.map (Coordinate.shifted 0 1), g.IsOutOfBounds b.x b.y = false := by
      intro b hb
      obtain ⟨a, ha, rfl⟩ := List.mem_map.1 hb
      simpa [Coordinate.shifted] using (hfree a ha).1
    obtain ⟨h1, h2, _⟩ := Grid.repaint g t.blocks (t.blocks.map (Coordinate.shifted 0 1)) hwf hnew
    refine ⟨trivial, hidle, ?_, ?_⟩
    · intro b hb
      have := h1 (b.shifted 0 1) (List.mem_map_of_mem _ hb)
      simpa [Coordinate.shifted] using this
    · intro b hb hin hnot
      exact h2 b hb hin hnot

/-- On an empty 10 by 20 playfield, counter at 40: a `Line` lying on the floor
locks, a `Line` standing on its spawn cells goes one row down. -/
theorem Tetromino.Update_descent_attempt_witness :
    (let g : Grid := (Grid.blank 10 20).paint [⟨0, 19⟩, ⟨1, 19⟩, ⟨2, 19⟩, ⟨3, 19⟩] Cell.Active
     let t : Tetromino := ⟨true, false, 40, [⟨0, 19⟩, ⟨1, 19⟩, ⟨2, 19⟩, ⟨3, 19⟩], Tetrominos.Line⟩
     (t.Update g).1.blocks = t.blocks ∧ (t.Update g).1.idle = true ∧
      ∀ b ∈ t.blocks, g.IsOutOfBounds b.x b.y = false →
        (t.Update g).2.IsCollision b.x b.y Cell.Locked = true) ∧
    (let g : Grid := (Grid.blank 10 20).paint [⟨5, 0⟩, ⟨5, 1⟩, ⟨5, 2⟩, ⟨5, 3⟩] Cell.Active
     let t : Tetromino := ⟨true, false, 40, [⟨5, 0⟩, ⟨5, 1⟩, ⟨5, 2⟩, ⟨5, 3⟩], Tetrominos.Line⟩
     (t.Update g).1.blocks = [⟨5, 1⟩, ⟨5, 2⟩, ⟨5, 3⟩, ⟨5, 4⟩] ∧ (t.Update g).1.idle = false ∧
      (t.Update g).2.IsCollision 5 4 Cell.Active = true ∧
      (t.Update g).2.IsCollision 5 0 Cell.Empty = true) :=
  ⟨(Tetromino.Update_descent_attempt _ _ (by decide) rfl rfl).1 ⟨⟨0, 19⟩, by decide, by decide⟩,
   by
    obtain ⟨h1, h2, h3, h4⟩ := (Tetromino.Update_descent_attempt
      ⟨true, false, 40, [⟨5, 0⟩, ⟨5, 1⟩, ⟨5, 2⟩, ⟨5, 3⟩], Tetrominos.Line⟩
      ((Grid.blank 10 20).paint [⟨5, 0⟩, ⟨5, 1⟩, ⟨5, 2⟩, ⟨5, 3⟩] Cell.Active)
      (by decide) rfl rfl).2 (by decide)
    exact ⟨h1, h2, h3 ⟨5, 3⟩ (by decide), h4 ⟨5, 0⟩ (by decide) (by decide) (by decide)⟩⟩

theorem Tetromino.updates_succ (n : Nat) (s : Tetromino × Grid) :
    Tetromino.updates (n + 1) s = (Tetromino.updates n s).1.Update (Tetromino.updates n s).2 := by
  induction n generalizing s with
  | zero => rfl
  | succ n ih =>
    show Tetromino.updates (n + 1) (s.1.Update s.2) = _
    rw [ih]
    rfl

theorem Tetromino.updates_waiting (t : Tetromino) (g : Grid) (hidle : t.idle = false)
    (hz : t.frames = 0) (n : Nat) (hn : n ≤ 40) :
    Tetromino.updates n (t, g) = ({ t with frames := (n : Int) }, g) := by
  induction n with
  | zero =>
    cases t
    simp only at hz
    subst hz
    rfl
  | succ n ih =>
    rw [Tetromino.updates_succ, ih (by omega)]
    have h40 : (n : Int) ≠ 40 := by omega
    simp [Tetromino.Update, hidle, h40]

/-- C6 (as the code has it): gravity fires on every 41st call of `Update`.
For a non-idle piece whose gravity counter is 0, each of the next 40 calls
only counts (after n of them, n up to 40, the coordinates, the flags and the
playfield are as before and the counter is n), and the 41st call performs
the descent attempt and leaves the counter at 0. -/
theorem Tetromino.gravity_every_41st_call (t : Tetromino) (g : Grid) (hidle : t.idle = false)
    (hz : t.frames = 0) :
    (∀ n : Nat, n ≤ 40 → Tetromino.updates n (t, g) = ({ t with frames := (n : Int) }, g)) ∧
    Tetromino.updates 41 (t, g) = Tetromino.fall t g ∧
    (Tetromino.updates 41 (t, g)).1.frames = 0 := by
  have h41 : Tetromino.updates 41 (t, g) = Tetromino.fall t g := by
    rw [Tetromino.updates_succ, Tetromino.updates_waiting t g hidle hz 40 (le_refl _)]
    cases t
    simp only at hz hidle
    subst hz hidle
    simp [Tetromino.Update]
  refine ⟨fun n hn => Tetromino.updates_waiting t g hidle hz n hn, h41, ?_⟩
  rw [h41]
  unfold Tetromino.fall
  split <;> exact hz

/-- The freshly spawned `Line` of an empty 10 by 20 playfield. -/
theorem Tetromino.gravity_every_41st_call_witness :
    (Tetromino.updates 41 (Tetromino.create Tetrominos.Line (Grid.blank 10 20))).1.blocks
      = [⟨5, 1⟩, ⟨5, 2⟩, ⟨5, 3⟩, ⟨5, 4⟩] := by
  have h := (Tetromino.gravity_every_41st_call
    (Tetromino.create Tetrominos.Line (Grid.blank 10 20)).1
    (Tetromino.create Tetrominos.Line (Grid.blank 10 20)).2 rfl rfl).2.1
  rw [h]
  decide

/-- C6 fails as stated: after 40 calls of `Update` on the freshly spawned
`Line` of an empty 10 by 20 playfield (counter 0) the piece still stands on
its spawn cells with the counter at 40, whereas a descent attempt moves it to
(5,1),(5,2),(5,3),(5,4); it is the 41st call that does so. -/
theorem Tetromino.gravity_40th_call_counterexample :
    (Tetromino.updates 40 (Tetromino.create Tetrominos.Line (Grid.blank 10 20)))
      = ({ (Tetromino.create Tetrominos.Line (Grid.blank 10 20)).1 with frames := 40 },
         (Tetromino.create Tetrominos.Line (Grid.blank 10 20)).2) ∧
    (Tetromino.updates 40 (Tetromino.create Tetrominos.Line (Grid.blank 10 20))).1.blocks
      = [⟨5, 0⟩, ⟨5, 1⟩, ⟨5, 2⟩, ⟨5, 3⟩] ∧
    (Tetromino.fall (Tetromino.create Tetrominos.Line (Grid.blank 10 20)).1
        (Tetromino.create Tetrominos.Line (Grid.blank 10 20)).2).1.blocks
      = [⟨5, 1⟩, ⟨5, 2⟩, ⟨5, 3⟩, ⟨5, 4⟩] ∧
    (Tetromino.updates 41 (Tetromino.create Tetrominos.Line (Grid.blank 10 20))).1.blocks
      = [⟨5, 1⟩, ⟨5, 2⟩, ⟨5, 3⟩, ⟨5, 4⟩] := by
  decide


theorem Coordinate.turned_pivot (p : Coordinate) : p.turned p.x p.y = p := by
  cases p
  simp [Coordinate.turned]

/-- C7: `Turn` of a non-idle, non-square piece of four blocks on a rectangular
playfield, with pivot (px,py) the block at index 1.  The turn is accepted
exactly when for every block (x,y) the target (px-(y-py), py+(x-px)) is in
bounds and not `Locked`.  When it is accepted, the block at each index becomes
the target of the old block at that index (so the block at index 1 stays the
pivot), the counter and flags are kept, the four new cells are `Active` and
each vacated cell of the playfield is `Empty`. -/
theorem Tetromino.Turn_accepted (t : Tetromino) (g : Grid) (hwf : g.WF)
    (hidle : t.idle = false) (hsq : t.type ≠ Tetrominos.Square) (hlen : t.blocks.length = 4) :
    (t.turnAccepted g = true ↔
      ∀ b ∈ t.blocks,
        g.IsOutOfBounds (b.turned t.pivot.x t.pivot.y).x (b.turned t.pivot.x t.pivot.y).y = false ∧
        g.IsCollision (b.turned t.pivot.x t.pivot.y).x (b.turned t.pivot.x t.pivot.y).y
          Cell.Locked = false) ∧
    (t.turnAccepted g = true →
      (t.Turn g).1 = { t with blocks := t.blocks.map (Coordinate.turned t.pivot.x t.pivot.y) } ∧
      (∀ i : Nat, i < 4 → (t.Turn g).1.blocks[i]? =
        (t.blocks[i]?).map (Coordinate.turned t.pivot.x t.pivot.y)) ∧
      (t.Turn g).1.blocks[1]? = some t.pivot ∧
      (∀ b ∈ (t.Turn g).1.blocks, (t.Turn g).2.IsCollision b.x b.y Cell.Active = true) ∧
      (∀ b ∈ t.blocks, g.IsOutOfBounds b.x b.y = false → b ∉ (t.Turn g).1.blocks →
        (t.Turn g).2.IsCollision b.x b.y Cell.Empty = true)) := by
  have hacc : t.turnAccepted g = true ↔
      ∀ b ∈ t.blocks,
        g.IsOutOfBounds (b.turned t.pivot.x t.pivot.y).x (b.turned t.pivot.x t.pivot.y).y = false ∧
        g.IsCollision (b.turned t.pivot.x t.pivot.y).x (b.turned t.pivot.x t.pivot.y).y
          Cell.Locked = false := by
    simp only [Tetromino.turnAccepted, hidle, Tetromino.turnLoop_eq, Bool.not_false,
      Bool.true_and, Bool.and_eq_true, decide_eq_true_eq]
    constructor
    · rintro ⟨_, hs⟩ b hb
      by_contra hcon
      have hany : (t.blocks.any fun b =>
          g.IsOutOfBounds (b.turned t.pivot.x t.pivot.y).x (b.turned t.pivot.x t.pivot.y).y
            || g.IsCollision (b.turned t.pivot.x t.pivot.y).x (b.turned t.pivot.x t.pivot.y).y
              Cell.Locked) = true := by
        rw [List.any_eq_true]
        refine ⟨b, hb, ?_⟩
        revert hcon
        cases g.IsOutOfBounds (b.turned t.pivot.x t.pivot.y).x (b.turned t.pivot.x t.pivot.y).y <;>
          cases g.IsCollision (b.turned t.pivot.x t.pivot.y).x (b.turned t.pivot.x t.pivot.y).y
            Cell.Locked <;> simp
      rw [hany] at hs
      simp at hs
    · intro hall
      refine ⟨hsq, ?_⟩
      have hany : (t.blocks.any fun b =>
          g.IsOutOfBounds (b.turned t.pivot.x t.pivot.y).x (b.turned t.pivot.x t.pivot.y).y
            || g.IsCollision (b.turned t.pivot.x t.pivot.y).x (b.turned t.pivot.x t.pivot.y).y
              Cell.Locked) = false := by
        rw [List.any_eq_false]
        intro b hb
        simp [hall b hb]
      rw [hany]
      simp
  refine ⟨hacc, ?_⟩
  intro ha
  have hall := hacc.1 ha
  have hany : (t.blocks.any fun b =>
      g.IsOutOfBounds (b.turned t.pivot.x t.pivot.y).x (b.turned t.pivot.x t.pivot.y).y
        || g.IsCollision (b.turned t.pivot.x t.pivot.y).x (b.turned t.pivot.x t.pivot.y).y
          Cell.Locked) = false := by
    rw [List.any_eq_false]
    intro b hb
    simp [hall b hb]
  have hT : t.Turn g = ({ t with blocks := t.blocks.map (Coordinate.turned t.pivot.x t.pivot.y) },
      (g.paint t.blocks Grid.empty).paint (t.blocks.map (Coordinate.turned t.pivot.x t.pivot.y))
        Tetromino.asciiActive) := by
    have hloop := Tetromino.turnLoop_eq g t.pivot.x t.pivot.y [] t.blocks
    rw [hany] at hloop
    simp only [Bool.false_eq_true, if_false, List.nil_append] at hloop
    unfold Tetromino.pivot at hloop
    unfold Tetromino.Turn
    simp only [hidle, Bool.false_eq_true, if_false, hsq, hloop]
    rfl
  have hnew : ∀ b ∈ t.blocks.map (Coordinate.turned t.pivot.x t.pivot.y),
      g.IsOutOfBounds b.x b.y = false := by
    intro b hb
    obtain ⟨a, ha, rfl⟩ := List.mem_map.1 hb
    exact (hall a ha).1
  obtain ⟨h1, h2, _⟩ := Grid.repaint g t.blocks
    (t.blocks.map (Coordinate.turned t.pivot.x t.pivot.y)) hwf hnew
  rw [hT]
  refine ⟨rfl, ?_, ?_, h1, h2⟩
  · intro i _
    simp
  · have h1lt : 1 < t.blocks.length := by omega
    simp only [List.getElem?_map]
    have hp : t.pivot = t.blocks[1] := by
      simp [Tetromino.pivot, List.getD_eq_getElem?_getD, List.getElem?_eq_getElem h1lt]
    rw [List.getElem?_eq_getElem h1lt, Option.map_some', hp, Coordinate.turned_pivot]

/-- The freshly spawned `Line` of an empty 10 by 20 playfield turns about
(5,1) onto (6,1),(5,1),(4,1),(3,1). -/
theorem Tetromino.Turn_accepted_witness :
    ((Tetromino.create Tetrominos.Line (Grid.blank 10 20)).1.turnAccepted
        (Tetromino.create Tetrominos.Line (Grid.blank 10 20)).2 = true) ∧
    (((Tetromino.create Tetrominos.Line (Grid.blank 10 20)).1.Turn
        (Tetromino.create Tetrominos.Line (Grid.blank 10 20)).2).1.blocks
      = [⟨6, 1⟩, ⟨5, 1⟩, ⟨4, 1⟩, ⟨3, 1⟩]) := by
  have hacc : (Tetromino.create Tetrominos.Line (Grid.blank 10 20)).1.turnAccepted
        (Tetromino.create Tetrominos.Line (Grid.blank 10 20)).2 = true := by decide
  have h := ((Tetromino.Turn_accepted (Tetromino.create Tetrominos.Line (Grid.blank 10 20)).1
    (Tetromino.create Tetrominos.Line (Grid.blank 10 20)).2 (by decide) rfl (by decide) rfl).2
      hacc).1
  refine ⟨hacc, ?_⟩
  rw [h]
  decide


/-! ## The line-clear scan -/

theorem RowChecker.shiftDown_width (r : Nat) (g : Grid) :
    (RowChecker.shiftDown r g).width = g.width := by
  induction r generalizing g with
  | zero => rfl
  | succ i ih => rw [RowChecker.shiftDown, ih]; rfl

theorem RowChecker.shiftDown_length (r : Nat) (g : Grid) :
    (RowChecker.shiftDown r g).tiles.length = g.tiles.length := by
  induction r generalizing g with
  | zero => rfl
  | succ i ih => rw [RowChecker.shiftDown, ih]; simp [Grid.SetRow]

/-- Row `j` after the inner loop started at row `r`: rows 1 to `r` hold what
the row above held, every other row is as before. -/
theorem RowChecker.shiftDown_getElem? (r : Nat) (g : Grid) (j : Nat) :
    (RowChecker.shiftDown r g).tiles[j]? =
      if 1 ≤ j ∧ j ≤ r ∧ j < g.tiles.length then g.tiles[j - 1]? else g.tiles[j]? := by
  induction r generalizing g with
  | zero =>
    have : ¬ (1 ≤ j ∧ j ≤ 0 ∧ j < g.tiles.length) := by omega
    rw [if_neg this]
    rfl
  | succ i ih =>
    rw [RowChecker.shiftDown, ih]
    simp only [Grid.SetRow, Grid.GetTiles, List.length_set, List.getD_eq_getElem?_getD]
    by_cases h1 : 1 ≤ j ∧ j ≤ i ∧ j < g.tiles.length
    · have h2 : 1 ≤ j ∧ j ≤ i + 1 ∧ j < g.tiles.length := by omega
      rw [if_pos h1, if_pos h2, List.getElem?_set_ne (by omega)]
    · rw [if_neg h1]
      by_cases h3 : j = i + 1 ∧ j < g.tiles.length
      · obtain ⟨rfl, hlt⟩ := h3
        have h2 : 1 ≤ i + 1 ∧ i + 1 ≤ i + 1 ∧ i + 1 < g.tiles.length := by omega
        have hi : i < g.tiles.length := by omega
        rw [if_pos h2, List.getElem?_set_self hlt]
        simp [List.getElem?_eq_getElem hi]
      · have h2 : ¬ (1 ≤ j ∧ j ≤ i + 1 ∧ j < g.tiles.length) := by omega
        rw [if_neg h2]
        by_cases h4 : j = i + 1
        · subst h4
          have hge : g.tiles.length ≤ i + 1 := by omega
          rw [List.getElem?_eq_none (by simpa using hge), List.getElem?_eq_none hge]
        · rw [List.getElem?_set_ne (by omega)]

theorem RowChecker.shiftDown_zero_row (r : Nat) (g : Grid) :
    (RowChecker.shiftDown r g).tiles[0]? = g.tiles[0]? := by
  rw [RowChecker.shiftDown_getElem?, if_neg (by omega)]

theorem RowChecker.shiftDown_drop (r : Nat) (g : Grid) :
    (RowChecker.shiftDown r g).tiles.drop (r + 1) = g.tiles.drop (r + 1) := by
  apply List.ext_getElem?
  intro j
  rw [List.getElem?_drop, List.getElem?_drop, RowChecker.shiftDown_getElem?, if_neg (by omega)]

theorem RowChecker.shiftDown_take (r : Nat) (g : Grid) (h1 : 1 ≤ r) (hr : r < g.tiles.length) :
    (RowChecker.shiftDown r g).tiles.take (r + 1) = g.tiles.take 1 ++ g.tiles.take r := by
  apply List.ext_getElem?
  intro j
  rw [List.getElem?_take]
  by_cases hj : j < r + 1
  · rw [if_pos hj, RowChecker.shiftDown_getElem?]
    by_cases h0 : j = 0
    · subst h0
      rw [if_neg (by omega), List.getElem?_append_left (by simp; omega), List.getElem?_take,
        if_pos (by omega)]
    · rw [if_pos (by omega), List.getElem?_append_right (by simp; omega)]
      have hl : (List.take 1 g.tiles).length = 1 := by simp; omega
      rw [hl, List.getElem?_take, if_pos (by omega)]
  · rw [if_neg hj]
    symm
    apply List.getElem?_eq_none
    simp
    omega


theorem RowChecker.scan_neg (full : List Cell) (fuel : Nat) (g : Grid) (cnt : Int) :
    RowChecker.scan full (fuel + 1) (((0 : Nat) : Int) - 1) g cnt = some (g, cnt) := by
  simp [RowChecker.scan]

theorem RowChecker.scan_skip (full : List Cell) (fuel k : Nat) (g : Grid) (cnt : Int)
    (h : g.tiles.getD k [] ≠ full) :
    RowChecker.scan full (fuel + 1) (((k + 1 : Nat) : Int) - 1) g cnt =
      RowChecker.scan full fuel ((k : Int) - 1) g cnt := by
  have h0 : (0 : Int) ≤ ((k + 1 : Nat) : Int) - 1 := by omega
  have ht : (((k + 1 : Nat) : Int) - 1).toNat = k := by omega
  have hr : ((k + 1 : Nat) : Int) - 1 - 1 = (k : Int) - 1 := by omega
  rw [RowChecker.scan]
  simp only [h0, if_true, ht, Grid.GetTiles, ne_eq, h, not_false_eq_true, hr]

theorem RowChecker.scan_clear (full : List Cell) (fuel k : Nat) (g : Grid) (cnt : Int)
    (h : g.tiles.getD k [] = full) :
    RowChecker.scan full (fuel + 1) (((k + 1 : Nat) : Int) - 1) g cnt =
      RowChecker.scan full fuel (((k + 1 : Nat) : Int) - 1) (RowChecker.shiftDown k g)
        (cnt + 1) := by
  have h0 : (0 : Int) ≤ ((k + 1 : Nat) : Int) - 1 := by omega
  have ht : (((k + 1 : Nat) : Int) - 1).toNat = k := by omega
  have hr : ((k + 1 : Nat) : Int) - 1 + 1 - 1 = ((k + 1 : Nat) : Int) - 1 := by omega
  rw [RowChecker.scan]
  simp only [h0, if_true, ht, Grid.GetTiles, ne_eq, h, not_true_eq_false, if_false, hr]

/-- What the outer loop leaves behind whenever it ends, started below row `k`
with no copy of `full` among the rows from `k` on: no row equals `full`, row 0
and the size are as before, the count has not gone down and the playfield is
untouched when the count has not gone up. -/
theorem RowChecker.scan_sound (full : List Cell) (fuel : Nat) :
    ∀ (k : Nat) (g : Grid) (cnt : Int) (g1 : Grid) (n : Int),
      RowChecker.scan full fuel ((k : Int) - 1) g cnt = some (g1, n) →
      k ≤ g.tiles.length →
      (∀ row ∈ g.tiles.drop k, row ≠ full) →
      g1.width = g.width ∧ g1.tiles.length = g.tiles.length ∧
      (∀ row ∈ g1.tiles, row ≠ full) ∧ g1.tiles[0]? = g.tiles[0]? ∧
      cnt ≤ n ∧ (n = cnt → g1 = g) := by
  induction fuel with
  | zero => intro k g cnt g1 n h; simp [RowChecker.scan] at h
  | succ fuel ih =>
    intro k g cnt g1 n h hk hdrop
    cases k with
    | zero =>
      rw [RowChecker.scan_neg] at h
      obtain ⟨rfl, rfl⟩ := Prod.mk.inj (Option.some.inj h)
      exact ⟨rfl, rfl, by simpa using hdrop, rfl, le_refl _, fun _ => rfl⟩
    | succ k =>
      have hklt : k < g.tiles.length := by omega
      by_cases hfull : g.tiles.getD k [] = full
      · rw [RowChecker.scan_clear full fuel k g cnt hfull] at h
        have hd : ∀ row ∈ (RowChecker.shiftDown k g).tiles.drop (k + 1), row ≠ full := by
          rw [RowChecker.shiftDown_drop]; exact hdrop
        obtain ⟨h1, h2, h3, h4, h5, _⟩ := ih (k + 1) _ _ _ _ h
          (by rw [RowChecker.shiftDown_length]; exact hk) hd
        refine ⟨by rw [h1, RowChecker.shiftDown_width], by rw [h2, RowChecker.shiftDown_length],
          h3, by rw [h4, RowChecker.shiftDown_zero_row], by omega, fun hn => by omega⟩
      · rw [RowChecker.scan_skip full fuel k g cnt hfull] at h
        have hd : ∀ row ∈ g.tiles.drop k, row ≠ full := by
          intro row hrow
          rw [List.drop_eq_getElem_cons hklt] at hrow
          rcases List.mem_cons.1 hrow with hr | hr
          · subst hr
            simpa [List.getD_eq_getElem?_getD, List.getElem?_eq_getElem hklt] using hfull
          · exact hdrop row hr
        exact ih k g cnt g1 n h (by omega) hd

/-- The outer loop ends when row 0 is not full, and counts the copies of `full`
among the rows it scans; fuel for one iteration per row and per copy is enough. -/
theorem RowChecker.scan_total (full : List Cell) (fuel : Nat) :
    ∀ (k : Nat) (g : Grid) (cnt : Int),
      k ≤ g.tiles.length →
      g.tiles[0]? ≠ some full →
      k + (g.tiles.take k).countP (fun row => decide (row = full)) < fuel →
      ∃ g1, RowChecker.scan full fuel ((k : Int) - 1) g cnt =
        some (g1, cnt + ((g.tiles.take k).countP (fun row => decide (row = full)) : Nat)) := by
  induction fuel with
  | zero => intro k g cnt _ _ h; omega
  | succ fuel ih =>
    intro k g cnt hk htop hfuel
    cases k with
    | zero => exact ⟨g, by rw [RowChecker.scan_neg]; simp⟩
    | succ k =>
      have hklt : k < g.tiles.length := by omega
      have hget : g.tiles.getD k [] = g.tiles[k] := by
        simp [List.getD_eq_getElem?_getD, List.getElem?_eq_getElem hklt]
      have htake : g.tiles.take (k + 1) = g.tiles.take k ++ [g.tiles[k]] := by
        rw [List.take_succ, List.getElem?_eq_getElem hklt]; rfl
      by_cases hfull : g.tiles.getD k [] = full
      · have hk1 : 1 ≤ k := by
          rcases Nat.eq_zero_or_pos k with h0 | h0
          · subst h0
            exfalso
            apply htop
            rw [List.getElem?_eq_getElem hklt, ← hget, hfull]
          · exact h0
        have hcnt : (g.tiles.take (k + 1)).countP (fun row => decide (row = full)) =
            (g.tiles.take k).countP (fun row => decide (row = full)) + 1 := by
          have hfull2 : g.tiles[k] = full := by rw [← hget]; exact hfull
          rw [htake, List.countP_append]
          simp [hfull2]
        have hcnt1 : ((RowChecker.shiftDown k g).tiles.take (k + 1)).countP
            (fun row => decide (row = full)) =
            (g.tiles.take k).countP (fun row => decide (row = full)) := by
          rw [RowChecker.shiftDown_take k g hk1 hklt, List.countP_append]
          have h0 : (g.tiles.take 1).countP (fun row => decide (row = full)) = 0 := by
            rw [List.countP_eq_zero]
            intro row hrow
            have hlen : 0 < g.tiles.length := by omega
            have : g.tiles.take 1 = [g.tiles[0]] := by
              rw [List.take_succ, List.getElem?_eq_getElem hlen]; rfl
            rw [this] at hrow
            have hrow2 := List.mem_singleton.1 hrow
            subst hrow2
            simp only [decide_eq_true_eq]
            intro hc
            apply htop
            rw [List.getElem?_eq_getElem hlen, hc]
          rw [h0, Nat.zero_add]
        rw [RowChecker.scan_clear full fuel k g cnt hfull]
        obtain ⟨g1, hg1⟩ := ih (k + 1) (RowChecker.shiftDown k g) (cnt + 1)
          (by rw [RowChecker.shiftDown_length]; exact hk)
          (by rw [RowChecker.shiftDown_zero_row]; exact htop)
          (by rw [hcnt1]; omega)
        refine ⟨g1, ?_⟩
        rw [hg1, hcnt1, hcnt]
        congr 2
        push_cast
        ring
      · have hcnt : (g.tiles.take (k + 1)).countP (fun row => decide (row = full)) =
            (g.tiles.take k).countP (fun row => decide (row = full)) := by
          have hfull2 : ¬ g.tiles[k] = full := by rw [← hget]; exact hfull
          rw [htake, List.countP_append]
          simp [hfull2]
        rw [RowChecker.scan_skip full fuel k g cnt hfull]
        obtain ⟨g1, hg1⟩ := ih k g cnt (by omega) htop (by omega)
        exact ⟨g1, by rw [hg1, hcnt]⟩


/-- More fuel does not change the result of a loop that has ended. -/
theorem RowChecker.scan_fuel_succ (full : List Cell) (fuel : Nat) :
    ∀ (row : Int) (g : Grid) (cnt : Int) (r : Grid × Int),
      RowChecker.scan full fuel row g cnt = some r →
      RowChecker.scan full (fuel + 1) row g cnt = some r := by
  induction fuel with
  | zero => intro row g cnt r h; simp [RowChecker.scan] at h
  | succ fuel ih =>
    intro row g cnt r h
    rw [RowChecker.scan] at h ⊢
    by_cases h0 : 0 ≤ row
    · rw [if_pos h0] at h ⊢
      by_cases hf : g.GetTiles.getD row.toNat [] ≠ full
      · rw [if_pos hf] at h ⊢
        exact ih _ _ _ _ h
      · rw [if_neg hf] at h ⊢
        exact ih _ _ _ _ h
    · rw [if_neg h0] at h ⊢
      exact h

theorem RowChecker.scan_fuel_add (full : List Cell) (fuel m : Nat) (row : Int) (g : Grid)
    (cnt : Int) (r : Grid × Int) (h : RowChecker.scan full fuel row g cnt = some r) :
    RowChecker.scan full (fuel + m) row g cnt = some r := by
  induction m with
  | zero => exact h
  | succ m ih => exact RowChecker.scan_fuel_succ full (fuel + m) row g cnt r ih

/-- With a copy of `full` in row 0 the outer loop never ends. -/
theorem RowChecker.scan_diverges (full : List Cell) (fuel : Nat) :
    ∀ (k : Nat) (g : Grid) (cnt : Int), k + 1 ≤ g.tiles.length → g.tiles[0]? = some full →
      RowChecker.scan full fuel (((k + 1 : Nat) : Int) - 1) g cnt = none := by
  induction fuel with
  | zero => intro k g cnt _ _; rfl
  | succ fuel ih =>
    intro k g cnt hk htop
    by_cases hfull : g.tiles.getD k [] = full
    · rw [RowChecker.scan_clear full fuel k g cnt hfull]
      exact ih k _ _ (by rw [RowChecker.shiftDown_length]; exact hk)
        (by rw [RowChecker.shiftDown_zero_row]; exact htop)
    · rw [RowChecker.scan_skip full fuel k g cnt hfull]
      cases k with
      | zero =>
        exfalso
        apply hfull
        simp [List.getD_eq_getElem?_getD, htop]
      | succ k => exact ih k g cnt (by omega) htop

/-- The fuel of `RowChecker.Update` is enough: whenever the outer loop ends
on some amount of fuel, `RowChecker.Update` returns that result. -/
theorem RowChecker.Update_of_scan (rc : RowChecker) (g : Grid) (fuel : Nat) (g1 : Grid) (n : Int)
    (h : RowChecker.scan rc.fullRow fuel ((g.GetHeight : Int) - 1) g 0 = some (g1, n)) :
    rc.Update g = some ({ rc with clearedRowCount := n }, g1) := by
  have htop : g.tiles[0]? ≠ some rc.fullRow := by
    intro htop
    have hpos : 0 < g.tiles.length := by
      rcases Nat.eq_zero_or_pos g.tiles.length with h0 | h0
      · rw [List.getElem?_eq_none (by omega)] at htop; cases htop
      · exact h0
    have hd := RowChecker.scan_diverges rc.fullRow fuel (g.tiles.length - 1) g 0 (by omega) htop
    have he : ((g.tiles.length - 1 + 1 : Nat) : Int) = (g.GetHeight : Int) := by
      simp only [Grid.GetHeight]; omega
    rw [he, h] at hd
    cases hd
  obtain ⟨g2, hg2⟩ := RowChecker.scan_total rc.fullRow (2 * g.GetHeight + 1) g.GetHeight g 0
    (le_refl _) htop (by
      have := List.countP_le_length (fun row => decide (row = rc.fullRow))
        (l := List.take g.GetHeight g.tiles)
      simp only [Grid.GetHeight, List.length_take] at this ⊢
      omega)
  have e1 := RowChecker.scan_fuel_add _ _ (2 * g.GetHeight + 1) _ _ _ _ h
  have e2 := RowChecker.scan_fuel_add _ _ fuel _ _ _ _ hg2
  rw [Nat.add_comm] at e2
  rw [e1] at e2
  have e3 := Option.some.inj e2
  unfold RowChecker.Update
  rw [hg2, ← e3]

/-! ### Full rows, in the words of the spec -/

theorem Grid.all_locked_iff (g : Grid) (hwf : g.WF) (row : List Cell) (hrow : row ∈ g.tiles) :
    row.all (fun c => c == Cell.Locked) = true ↔ row = List.replicate g.GetWidth Cell.Locked := by
  rw [List.eq_replicate_iff, List.all_eq_true]
  constructor
  · intro h
    exact ⟨hwf row hrow, fun b hb => by simpa using h b hb⟩
  · rintro ⟨_, h⟩ b hb
    simpa using h b hb

theorem Grid.fullRows_eq (g : Grid) (hwf : g.WF) :
    g.fullRows = g.tiles.countP (fun row => decide (row = List.replicate g.GetWidth Cell.Locked)) := by
  unfold Grid.fullRows
  apply List.countP_congr
  intro row hrow
  simp only [decide_eq_true_eq]
  exact Grid.all_locked_iff g hwf row hrow

theorem Grid.rowFull_false_iff (g : Grid) (hwf : g.WF) (r : Nat) (hr : r < g.tiles.length) :
    g.rowFull r = false ↔ g.tiles[r] ≠ List.replicate g.GetWidth Cell.Locked := by
  unfold Grid.rowFull
  rw [List.getElem?_eq_getElem hr]
  simp only
  rw [Ne, ← Grid.all_locked_iff g hwf _ (List.getElem_mem hr)]
  simp

theorem Grid.rowFull_of_length_le (g : Grid) (r : Nat) (hr : g.tiles.length ≤ r) :
    g.rowFull r = false := by
  unfold Grid.rowFull
  rw [List.getElem?_eq_none hr]

theorem Grid.rowFull_zero_iff (g : Grid) (hwf : g.WF) :
    g.rowFull 0 = false ↔ g.tiles[0]? ≠ some (List.replicate g.GetWidth Cell.Locked) := by
  rcases Nat.eq_zero_or_pos g.tiles.length with h0 | h0
  · rw [Grid.rowFull_of_length_le g 0 (by omega), List.getElem?_eq_none (by omega)]
    simp
  · rw [Grid.rowFull_false_iff g hwf 0 h0, List.getElem?_eq_getElem h0]
    simp

theorem Grid.no_rowFull_iff (g : Grid) (hwf : g.WF) :
    (∀ r, g.rowFull r = false) ↔
      ∀ row ∈ g.tiles, row ≠ List.replicate g.GetWidth Cell.Locked := by
  constructor
  · intro h row hrow
    obtain ⟨r, hr, rfl⟩ := List.getElem_of_mem hrow
    exact (Grid.rowFull_false_iff g hwf r hr).1 (h r)
  · intro h r
    by_cases hr : r < g.tiles.length
    · exact (Grid.rowFull_false_iff g hwf r hr).2 (h _ (List.getElem_mem hr))
    · exact Grid.rowFull_of_length_le g r (by omega)


theorem RowChecker.shiftDown_mem (r : Nat) (g : Grid) (row : List Cell)
    (h : row ∈ (RowChecker.shiftDown r g).tiles) : row ∈ g.tiles := by
  obtain ⟨j, hj, rfl⟩ := List.getElem_of_mem h
  have hs := RowChecker.shiftDown_getElem? r g j
  rw [List.getElem?_eq_getElem hj] at hs
  split at hs
  · exact List.getElem?_mem hs.symm
  · exact List.getElem?_mem hs.symm

/-- Every row the outer loop leaves behind is a row of the playfield it started on. -/
theorem RowChecker.scan_mem (full : List Cell) (fuel : Nat) :
    ∀ (row : Int) (g : Grid) (cnt : Int) (g1 : Grid) (n : Int),
      RowChecker.scan full fuel row g cnt = some (g1, n) →
      ∀ r ∈ g1.tiles, r ∈ g.tiles := by
  induction fuel with
  | zero => intro row g cnt g1 n h; simp [RowChecker.scan] at h
  | succ fuel ih =>
    intro row g cnt g1 n h
    rw [RowChecker.scan] at h
    by_cases h0 : 0 ≤ row
    · rw [if_pos h0] at h
      by_cases hf : g.GetTiles.getD row.toNat [] ≠ full
      · rw [if_pos hf] at h
        exact ih _ _ _ _ _ h
      · rw [if_neg hf] at h
        intro r hr
        exact RowChecker.shiftDown_mem _ _ _ (ih _ _ _ _ _ h r hr)
    · rw [if_neg h0] at h
      obtain ⟨rfl, rfl⟩ := Prod.mk.inj (Option.some.inj h)
      exact fun r hr => hr

/-- What `RowChecker.Update` returns, in terms of the outer loop. -/
theorem RowChecker.Update_eq_some (rc rc1 : RowChecker) (g g1 : Grid)
    (h : rc.Update g = some (rc1, g1)) :
    rc1.fullRow = rc.fullRow ∧
    RowChecker.scan rc.fullRow (2 * g.GetHeight + 1) ((g.GetHeight : Int) - 1) g 0
      = some (g1, rc1.clearedRowCount) := by
  unfold RowChecker.Update at h
  split at h
  · cases h
  · rename_i g2 n heq
    obtain ⟨rfl, rfl⟩ := Prod.mk.inj (Option.some.inj h)
    exact ⟨rfl, heq⟩

/-- The facts about a finished line-clear scan that hold on every playfield:
size and rectangular shape are kept, row 0 is kept, no row equals the full
row of the checker, the count is not negative, and a scan that counts 0 leaves
the playfield as it was. -/
theorem RowChecker.Update_sound (rc rc1 : RowChecker) (g g1 : Grid)
    (h : rc.Update g = some (rc1, g1)) :
    rc1.fullRow = rc.fullRow ∧ g1.width = g.width ∧ g1.tiles.length = g.tiles.length ∧
    (g.WF → g1.WF) ∧ (∀ row ∈ g1.tiles, row ≠ rc.fullRow) ∧ g1.tiles[0]? = g.tiles[0]? ∧
    0 ≤ rc1.GetClearedRows ∧ (rc1.GetClearedRows = 0 → g1 = g) := by
  obtain ⟨hf, hs⟩ := RowChecker.Update_eq_some rc rc1 g g1 h
  obtain ⟨h1, h2, h3, h4, h5, h6⟩ := RowChecker.scan_sound rc.fullRow _ g.GetHeight g 0 g1 _ hs
    (le_refl _) (by simp [Grid.GetHeight])
  refine ⟨hf, h1, h2, ?_, h3, h4, h5, h6⟩
  intro hwf row hrow
  rw [h1]
  exact hwf row (RowChecker.scan_mem _ _ _ _ _ _ _ hs row hrow)

/-- On a rectangular playfield whose row 0 is not full the line-clear scan
ends, and its count is the number of full rows the playfield had. -/
theorem RowChecker.Update_total (rc : RowChecker) (g : Grid) (hwf : g.WF)
    (hrc : rc.fullRow = List.replicate g.GetWidth Cell.Locked) (htop : g.rowFull 0 = false) :
    ∃ rc1 g1, rc.Update g = some (rc1, g1) ∧ rc1.GetClearedRows = (g.fullRows : Int) := by
  have htop2 : g.tiles[0]? ≠ some rc.fullRow := by
    rw [hrc]; exact (Grid.rowFull_zero_iff g hwf).1 htop
  obtain ⟨g2, hg2⟩ := RowChecker.scan_total rc.fullRow (2 * g.GetHeight + 1) g.GetHeight g 0
    (le_refl _) htop2 (by
      have := List.countP_le_length (fun row => decide (row = rc.fullRow))
        (l := List.take g.GetHeight g.tiles)
      simp only [Grid.GetHeight, List.length_take] at this ⊢
      omega)
  refine ⟨_, g2, RowChecker.Update_of_scan rc g _ g2 _ hg2, ?_⟩
  simp only [RowChecker.GetClearedRows, Grid.GetHeight, List.take_length, zero_add]
  rw [Grid.fullRows_eq g hwf, hrc]

/-- C2: on every rectangular playfield whose top row (index 0) is not full,
the line-clear scan of a row checker built for that width ends, and the count
it reports (`Update` followed by `GetClearedRows`) is the number of rows that
consisted only of `Locked` cells before the scan, whether they are adjacent or
apart; so it is 0 when there is none. -/
theorem RowChecker.Update_counts_full_rows (rc : RowChecker) (g : Grid) (hwf : g.WF)
    (hrc : rc.fullRow = List.replicate g.GetWidth Cell.Locked) (htop : g.rowFull 0 = false) :
    ∃ rc1 g1, rc.Update g = some (rc1, g1) ∧ rc1.GetClearedRows = (g.fullRows : Int) ∧
      (g.fullRows = 0 → rc1.GetClearedRows = 0) := by
  obtain ⟨rc1, g1, h1, h2⟩ := RowChecker.Update_total rc g hwf hrc htop
  exact ⟨rc1, g1, h1, h2, fun h0 => by rw [h2, h0]; rfl⟩

/-- A 3 wide playfield with two adjacent full rows and one apart from them. -/
theorem RowChecker.Update_counts_full_rows_witness :
    ∃ rc1 g1, (RowChecker.create
        ⟨3, [[Cell.Empty, Cell.Locked, Cell.Empty], [Cell.Locked, Cell.Locked, Cell.Locked],
          [Cell.Locked, Cell.Locked, Cell.Locked], [Cell.Locked, Cell.Empty, Cell.Active],
          [Cell.Locked, Cell.Locked, Cell.Locked]]⟩).Update
        ⟨3, [[Cell.Empty, Cell.Locked, Cell.Empty], [Cell.Locked, Cell.Locked, Cell.Locked],
          [Cell.Locked, Cell.Locked, Cell.Locked], [Cell.Locked, Cell.Empty, Cell.Active],
          [Cell.Locked, Cell.Locked, Cell.Locked]]⟩ = some (rc1, g1) ∧
      rc1.GetClearedRows = 3 := by
  obtain ⟨rc1, g1, h1, h2, _⟩ := RowChecker.Update_counts_full_rows
    (RowChecker.create
        ⟨3, [[Cell.Empty, Cell.Locked, Cell.Empty], [Cell.Locked, Cell.Locked, Cell.Locked],
          [Cell.Locked, Cell.Locked, Cell.Locked], [Cell.Locked, Cell.Empty, Cell.Active],
          [Cell.Locked, Cell.Locked, Cell.Locked]]⟩)
    ⟨3, [[Cell.Empty, Cell.Locked, Cell.Empty], [Cell.Locked, Cell.Locked, Cell.Locked],
          [Cell.Locked, Cell.Locked, Cell.Locked], [Cell.Locked, Cell.Empty, Cell.Active],
          [Cell.Locked, Cell.Locked, Cell.Locked]]⟩ (by decide) rfl (by decide)
  exact ⟨rc1, g1, h1, h2⟩

/-- C9: on every rectangular playfield whose top row (index 0) is not full,
the line-clear scan of a row checker built for that width ends, and no row of
the playfield it returns is full. -/
theorem RowChecker.Update_leaves_no_full_row (rc : RowChecker) (g : Grid) (hwf : g.WF)
    (hrc : rc.fullRow = List.replicate g.GetWidth Cell.Locked) (htop : g.rowFull 0 = false) :
    ∃ rc1 g1, rc.Update g = some (rc1, g1) ∧ ∀ r : Nat, g1.rowFull r = false := by
  obtain ⟨rc1, g1, h1, _⟩ := RowChecker.Update_total rc g hwf hrc htop
  refine ⟨rc1, g1, h1, ?_⟩
  obtain ⟨_, hw, _, hwf1, hno, _⟩ := RowChecker.Update_sound rc rc1 g g1 h1
  rw [Grid.no_rowFull_iff g1 (hwf1 hwf)]
  intro row hrow
  have := hno row hrow
  rw [hrc] at this
  simpa [Grid.GetWidth, hw] using this

/-- The playfield with a full bottom row on which a line has just spawned. -/
theorem RowChecker.Update_leaves_no_full_row_witness :
    Grid.bottomRowFullSpawned.rowFull 19 = true ∧
    ∃ rc1 g1, (RowChecker.create Grid.bottomRowFullSpawned).Update Grid.bottomRowFullSpawned
        = some (rc1, g1) ∧ ∀ r : Nat, g1.rowFull r = false :=
  ⟨by decide, RowChecker.Update_leaves_no_full_row (RowChecker.create Grid.bottomRowFullSpawned)
    Grid.bottomRowFullSpawned (by decide) rfl (by decide)⟩

/-- C8, the code at a failing input: the playfield `Grid.bottomRowFullSpawned`
has exactly one full row (row 19); the scan counts 1 and returns a playfield
whose row 0 is the old row 0, with the `Active` cell of the new line at (5,0),
and not a row of `Empty` cells. -/
theorem RowChecker.Update_keeps_top_row_at_bottomRowFullSpawned :
    Grid.bottomRowFullSpawned.fullRows = 1 ∧
    Grid.bottomRowFullSpawned.rowFull 19 = true ∧
    ((RowChecker.create Grid.bottomRowFullSpawned).Update Grid.bottomRowFullSpawned).map
      (fun r => (r.1.GetClearedRows, r.2.tiles[0]?, r.2.IsCollision 5 0 Cell.Active))
      = some (1, some [Cell.Empty, Cell.Empty, Cell.Empty, Cell.Empty, Cell.Empty, Cell.Active,
          Cell.Empty, Cell.Empty, Cell.Empty, Cell.Empty], true) := by
  decide


/-! ## Every piece operation is one of three effects -/

theorem Coordinate.shifted_injective (dx dy : Int) :
    Function.Injective (Coordinate.shifted dx dy) := by
  intro a b h
  cases a; cases b
  simp only [Coordinate.shifted, Coordinate.mk.injEq] at h ⊢
  omega

theorem Coordinate.turned_injective (px py : Int) :
    Function.Injective (Coordinate.turned px py) := by
  intro a b h
  cases a; cases b
  simp only [Coordinate.turned, Coordinate.mk.injEq] at h ⊢
  omega

theorem Tetromino.Move_step (t : Tetromino) (g : Grid) (dx dy : Int) :
    PieceStep t g (t.Move g dx dy).1 (t.Move g dx dy).2 := by
  unfold Tetromino.Move
  split
  · exact Or.inl ⟨rfl, rfl, rfl⟩
  rename_i hidle
  split
  · exact Or.inl ⟨rfl, rfl, rfl⟩
  rename_i hany
  right; left
  have hidle2 : t.idle = false := by simpa using hidle
  refine ⟨hidle2, hidle2, Coordinate.shifted dx dy, Coordinate.shifted_injective dx dy, rfl, ?_, rfl⟩
  intro b hb
  obtain ⟨a, ha, rfl⟩ := List.mem_map.1 hb
  have hf : t.blocks.any (Tetromino.moveRejected g dx dy) = false := by simpa using hany
  have := (List.any_eq_false.1 hf) a ha
  simp only [Tetromino.moveRejected, Bool.or_eq_true, not_or, Bool.not_eq_true] at this
  exact this.1

theorem Tetromino.Turn_step (t : Tetromino) (g : Grid) :
    PieceStep t g (t.Turn g).1 (t.Turn g).2 := by
  unfold Tetromino.Turn
  split
  · exact Or.inl ⟨rfl, rfl, rfl⟩
  rename_i hidle
  split
  · exact Or.inl ⟨rfl, rfl, rfl⟩
  simp only [Tetromino.turnLoop_eq, List.nil_append]
  split
  · rename_i heq
    simp only
    exact Or.inl ⟨rfl, rfl, rfl⟩
  · rename_i nc heq
    split at heq
    · cases heq
    rename_i hany
    have hnc := Option.some.inj heq
    subst hnc
    right; left
    have hidle2 : t.idle = false := by simpa using hidle
    refine ⟨hidle2, hidle2, _, Coordinate.turned_injective _ _, rfl, ?_, rfl⟩
    intro b hb
    obtain ⟨a, ha, rfl⟩ := List.mem_map.1 hb
    rw [Bool.not_eq_true, List.any_eq_false] at hany
    have hf := hany a ha
    simp only [Bool.or_eq_true, not_or, Bool.not_eq_true] at hf
    exact hf.1

theorem Tetromino.fall_step (t : Tetromino) (g : Grid) (hidle : t.idle = false) :
    PieceStep t g (t.fall g).1 (t.fall g).2 := by
  unfold Tetromino.fall
  split
  · exact Or.inr (Or.inr ⟨hidle, rfl, rfl, rfl⟩)
  rename_i hany
  right; left
  have hmap : t.blocks.map (fun b => ({ x := b.x, y := b.y + 1 } : Coordinate)) =
      t.blocks.map (Coordinate.shifted 0 1) := by
    apply List.map_congr_left
    intro b _
    simp [Coordinate.shifted]
  refine ⟨hidle, hidle, Coordinate.shifted 0 1, Coordinate.shifted_injective 0 1, hmap, ?_, rfl⟩
  intro b hb
  simp only at hb
  rw [hmap] at hb
  obtain ⟨a, ha, rfl⟩ := List.mem_map.1 hb
  have hf := (List.any_eq_false.1 (by simpa using hany)) a ha
  rw [Tetromino.blocked_eq] at hf
  simp only [Bool.or_eq_true, not_or, Bool.not_eq_true] at hf
  simpa [Coordinate.shifted] using hf.1

theorem Tetromino.Update_step (t : Tetromino) (g : Grid) :
    PieceStep t g (t.Update g).1 (t.Update g).2 := by
  unfold Tetromino.Update
  split
  · exact Or.inl ⟨rfl, rfl, rfl⟩
  rename_i hidle
  split
  · exact Or.inl ⟨rfl, rfl, rfl⟩
  have hidle2 : t.idle = false := by simpa using hidle
  exact Tetromino.fall_step { t with frames := 0 } g hidle2

theorem Player.command_step (t : Tetromino) (g : Grid) (c : UserInput) :
    PieceStep t g (Player.command t g c).1 (Player.command t g c).2 := by
  unfold Player.command
  split
  · exact Tetromino.Move_step t g _ _
  split
  · exact Tetromino.Move_step t g _ _
  split
  · exact Tetromino.Move_step t g _ _
  split
  · exact Tetromino.Turn_step t g
  · exact Or.inl ⟨rfl, rfl, rfl⟩

/-! ### What the three effects preserve -/

theorem PieceStep.size {t t1 : Tetromino} {g g1 : Grid} (h : PieceStep t g t1 g1) :
    g1.width = g.width ∧ g1.tiles.length = g.tiles.length ∧ (g.WF → g1.WF) := by
  rcases h with ⟨_, _, rfl⟩ | ⟨_, _, f, _, _, _, rfl⟩ | ⟨_, _, _, rfl⟩
  · exact ⟨rfl, rfl, id⟩
  · exact ⟨by rw [Grid.paint_width, Grid.paint_width], by rw [Grid.paint_length, Grid.paint_length],
      fun hwf => Grid.paint_WF _ _ _ (Grid.paint_WF _ _ _ hwf)⟩
  · exact ⟨Grid.paint_width _ _ _, Grid.paint_length _ _ _, fun hwf => Grid.paint_WF _ _ _ hwf⟩

theorem Grid.IsOutOfBounds_cast (g : Grid) (x y : Nat) (hy : y < g.GetHeight)
    (hx : x < g.GetWidth) : g.IsOutOfBounds (x : Int) (y : Int) = false := by
  rw [Grid.IsOutOfBounds_false_iff]
  simp only [Grid.GetHeight, Grid.GetWidth] at hy hx
  omega

theorem PieceStep.activeIffPiece {t t1 : Tetromino} {g g1 : Grid} (h : PieceStep t g t1 g1)
    (hwf : g.WF) (hrel : ActiveIffPiece t g) : ActiveIffPiece t1 g1 := by
  have hsz := h.size
  intro y hy x hx
  have hy0 : y < g.GetHeight := by simpa [Grid.GetHeight, hsz.2.1] using hy
  have hx0 : x < g.GetWidth := by simpa [Grid.GetWidth, hsz.1] using hx
  have hin := Grid.IsOutOfBounds_cast g x y hy0 hx0
  have h0 := hrel y hy0 x hx0
  rcases h with ⟨hi, hb, rfl⟩ | ⟨hi, hi1, f, _, hb, hnew, rfl⟩ | ⟨hi, hi1, hb, rfl⟩
  · rw [hi, hb]; exact h0
  · obtain ⟨r1, r2, r3⟩ := Grid.repaint g t.blocks t1.blocks hwf hnew
    by_cases hm : (⟨x, y⟩ : Coordinate) ∈ t1.blocks
    · have := r1 _ hm
      simp only at this
      simp [this, hi1, hm]
    · by_cases ho : (⟨x, y⟩ : Coordinate) ∈ t.blocks
      · have := r2 _ ho hin hm
        simp only [Grid.IsCollision_iff] at this ⊢
        simp [this, hm]
      · have := r3 x y ho hm
        simp only [Grid.IsCollision_iff, this] at h0 ⊢
        simp only [hm, and_false, iff_false]
        intro hc
        exact ho (h0.1 hc).2
  · simp only [hi1, Bool.true_eq_false, false_and, iff_false, Grid.IsCollision_iff]
    by_cases ho : (⟨x, y⟩ : Coordinate) ∈ t.blocks
    · rw [Grid.tileAt_paint_mem g t.blocks _ x y hwf ho hin]
      simp [Tetromino.asciiIdle]
    · rw [Grid.tileAt_paint_not_mem g t.blocks _ x y ho]
      intro hc
      exact ho (h0.1 ((Grid.IsCollision_iff _ _ _ _).2 hc)).2

theorem PieceStep.blocks {t t1 : Tetromino} {g g1 : Grid} (h : PieceStep t g t1 g1)
    (hnd : t.blocks.Nodup) (hlen : t.blocks.length = 4)
    (hin : ∀ b ∈ t.blocks, g.IsOutOfBounds b.x b.y = false) :
    t1.blocks.Nodup ∧ t1.blocks.length = 4 ∧ ∀ b ∈ t1.blocks, g1.IsOutOfBounds b.x b.y = false := by
  rcases h with ⟨_, hb, rfl⟩ | ⟨_, _, f, hf, hb, hnew, rfl⟩ | ⟨_, _, hb, rfl⟩
  · rw [hb]; exact ⟨hnd, hlen, hin⟩
  · refine ⟨by rw [hb]; exact hnd.map hf, by rw [hb, List.length_map]; exact hlen, ?_⟩
    intro b hb1
    rw [Grid.paint_IsOutOfBounds, Grid.paint_IsOutOfBounds]
    exact hnew b hb1
  · rw [hb]
    refine ⟨hnd, hlen, ?_⟩
    intro b hb1
    rw [Grid.paint_IsOutOfBounds]
    exact hin b hb1


/-! ## The constructor -/

theorem Tetromino.place_eq (g : Grid) (sp : Bool) (done bs : List Coordinate) :
    (Tetromino.place g sp done bs).2.1 = done ++ bs.map
      (fun b => ({ x := b.x + ((g.width / 2 : Nat) : Int), y := b.y } : Coordinate)) ∧
    (Tetromino.place g sp done bs).2.2 = g.paint (bs.map
      (fun b => ({ x := b.x + ((g.width / 2 : Nat) : Int), y := b.y } : Coordinate)))
      Tetromino.asciiActive := by
  induction bs generalizing g sp done with
  | nil => simp [Tetromino.place, Grid.paint_nil]
  | cons b bs ih =>
    simp only [Tetromino.place, List.map_cons, Grid.paint_cons]
    have hw : (g.SetTile (b.x + ((g.GetWidth / 2 : Nat) : Int)) b.y Tetromino.asciiActive).width
        = g.width := Grid.SetTile_width _ _ _ _
    obtain ⟨h1, h2⟩ := ih (g.SetTile (b.x + ((g.GetWidth / 2 : Nat) : Int)) b.y
      Tetromino.asciiActive)
      (if g.IsCollision (b.x + ((g.GetWidth / 2 : Nat) : Int)) b.y Tetromino.asciiIdle = true
        then false else sp)
      (done ++ [{ x := b.x + ((g.GetWidth / 2 : Nat) : Int), y := b.y }])
    rw [hw] at h1 h2
    refine ⟨?_, ?_⟩
    · rw [h1]; simp [Grid.GetWidth]
    · rw [h2]; rfl

theorem Tetromino.create_blocks (ty : Tetrominos) (g : Grid) :
    (Tetromino.create ty g).1.blocks = Tetromino.spawnBlocks ty g.width := by
  simp only [Tetromino.create, Tetromino.spawnBlocks]
  rw [(Tetromino.place_eq g true [] (Tetromino.layout ty)).1, List.nil_append]

theorem Tetromino.create_grid (ty : Tetrominos) (g : Grid) :
    (Tetromino.create ty g).2 = g.paint (Tetromino.spawnBlocks ty g.width)
      Tetromino.asciiActive := by
  simp only [Tetromino.create, Tetromino.spawnBlocks]
  rw [(Tetromino.place_eq g true [] (Tetromino.layout ty)).2]

theorem Tetromino.create_idle (ty : Tetrominos) (g : Grid) :
    (Tetromino.create ty g).1.idle = false := rfl

theorem Tetromino.create_size (ty : Tetrominos) (g : Grid) :
    (Tetromino.create ty g).2.width = g.width ∧
    (Tetromino.create ty g).2.tiles.length = g.tiles.length ∧
    (g.WF → (Tetromino.create ty g).2.WF) := by
  rw [Tetromino.create_grid]
  exact ⟨Grid.paint_width _ _ _, Grid.paint_length _ _ _, fun h => Grid.paint_WF _ _ _ h⟩

theorem Tetromino.create_activeIffPiece (ty : Tetrominos) (g : Grid) (hwf : g.WF)
    (hno : ∀ y : Nat, y < g.GetHeight → ∀ x : Nat, x < g.GetWidth →
      g.IsCollision x y Cell.Active = false) :
    ActiveIffPiece (Tetromino.create ty g).1 (Tetromino.create ty g).2 := by
  have hsz := Tetromino.create_size ty g
  intro y hy x hx
  have hy0 : y < g.GetHeight := by simpa [Grid.GetHeight, hsz.2.1] using hy
  have hx0 : x < g.GetWidth := by simpa [Grid.GetWidth, hsz.1] using hx
  have hin := Grid.IsOutOfBounds_cast g x y hy0 hx0
  rw [Tetromino.create_blocks, Tetromino.create_grid, Tetromino.create_idle, Grid.IsCollision_iff]
  by_cases hm : (⟨x, y⟩ : Coordinate) ∈ Tetromino.spawnBlocks ty g.width
  · rw [Grid.tileAt_paint_mem g _ _ x y hwf hm hin]
    simp [hm, Tetromino.asciiActive]
  · rw [Grid.tileAt_paint_not_mem g _ _ x y hm]
    have := hno y hy0 x hx0
    simp only [Grid.IsCollision, beq_eq_false_iff_ne, ne_eq] at this
    simp [hm, this]

theorem Tetromino.spawnBlocks_nodup (ty : Tetrominos) (w : Nat) :
    (Tetromino.spawnBlocks ty w).Nodup := by
  unfold Tetromino.spawnBlocks
  apply List.Nodup.map
  · intro a b h
    cases a; cases b
    simp only [Coordinate.mk.injEq] at h ⊢
    omega
  · cases ty <;> decide

theorem Tetromino.spawnBlocks_length (ty : Tetrominos) (w : Nat) :
    (Tetromino.spawnBlocks ty w).length = 4 := by
  cases ty <;> rfl

theorem Tetromino.spawnBlocks_inBounds (ty : Tetrominos) (g : Grid) (hw : 5 ≤ g.width)
    (hh : 4 ≤ g.tiles.length) :
    ∀ b ∈ Tetromino.spawnBlocks ty g.width, g.IsOutOfBounds b.x b.y = false := by
  intro b hb
  rw [Grid.IsOutOfBounds_false_iff]
  unfold Tetromino.spawnBlocks at hb
  obtain ⟨a, ha, rfl⟩ := List.mem_map.1 hb
  have hbound : 0 ≤ a.x ∧ a.x ≤ 2 ∧ 0 ≤ a.y ∧ a.y ≤ 3 := by
    cases ty <;> simp only [Tetromino.layout, List.mem_cons, List.mem_singleton,
      List.not_mem_nil, or_false] at ha <;> rcases ha with h | h | h | h <;> subst h <;> decide
  simp only
  omega

/-! ## Rows that are not full stay so -/

theorem Grid.SetTile_no_full (g : Grid) (x y : Int) (c : Cell) (hc : c ≠ Cell.Locked)
    (h : ∀ row ∈ g.tiles, row ≠ List.replicate g.width Cell.Locked) :
    ∀ row ∈ (g.SetTile x y c).tiles, row ≠ List.replicate g.width Cell.Locked := by
  unfold Grid.SetTile
  split
  · exact h
  rename_i hb
  have hb2 := (Grid.IsOutOfBounds_false_iff g x y).1 (by simpa using hb)
  intro row hrow
  rcases List.mem_or_eq_of_mem_set hrow with hr | hr
  · exact h row hr
  · intro heq
    rw [hr] at heq
    have hlen : ((g.tiles.getD y.toNat []).set x.toNat c).length = g.width := by
      rw [heq, List.length_replicate]
    have hx : x.toNat < ((g.tiles.getD y.toNat []).set x.toNat c).length := by omega
    have h1 : ((g.tiles.getD y.toNat []).set x.toNat c)[x.toNat] = c := by
      simp
    have h2 : ((g.tiles.getD y.toNat []).set x.toNat c)[x.toNat] = Cell.Locked := by
      simp only [heq, List.getElem_replicate]
    exact hc (h1.symm.trans h2)

theorem Grid.paint_no_full (g : Grid) (bs : List Coordinate) (c : Cell) (hc : c ≠ Cell.Locked)
    (h : ∀ row ∈ g.tiles, row ≠ List.replicate g.width Cell.Locked) :
    ∀ row ∈ (g.paint bs c).tiles, row ≠ List.replicate g.width Cell.Locked := by
  induction bs generalizing g with
  | nil => exact h
  | cons b bs ih =>
    rw [Grid.paint_cons]
    have := ih (g.SetTile b.x b.y c) (by
      rw [Grid.SetTile_width]; exact Grid.SetTile_no_full g b.x b.y c hc h)
    rw [Grid.SetTile_width] at this
    exact this

theorem PieceStep.no_full {t t1 : Tetromino} {g g1 : Grid} (h : PieceStep t g t1 g1)
    (hidle : t1.idle = false)
    (hno : ∀ row ∈ g.tiles, row ≠ List.replicate g.width Cell.Locked) :
    ∀ row ∈ g1.tiles, row ≠ List.replicate g.width Cell.Locked := by
  rcases h with ⟨_, _, rfl⟩ | ⟨_, _, f, _, _, _, rfl⟩ | ⟨_, hi1, _, _⟩
  · exact hno
  · have h1 := Grid.paint_no_full g t.blocks Grid.empty (by decide) hno
    have h2 := Grid.paint_no_full (g.paint t.blocks Grid.empty) t1.blocks Tetromino.asciiActive
      (by decide) (by rw [Grid.paint_width]; exact h1)
    rw [Grid.paint_width] at h2
    exact h2
  · rw [hi1] at hidle; cases hidle

theorem Tetromino.create_no_full (ty : Tetrominos) (g : Grid)
    (hno : ∀ row ∈ g.tiles, row ≠ List.replicate g.width Cell.Locked) :
    ∀ row ∈ (Tetromino.create ty g).2.tiles, row ≠ List.replicate g.width Cell.Locked := by
  rw [Tetromino.create_grid]
  exact Grid.paint_no_full g _ _ (by decide) hno

/-! ## The cases of `Player::Update` -/

theorem Player.Update_cases (p : Player) (g : Grid) (c : UserInput) (rnd : Nat)
    (p1 : Player) (g1 : Grid) (h : p.Update g c rnd = some (p1, g1)) :
    ((Player.command p.tetromino g c).1.idle = false ∧
      p1 = { p with tetromino := ((Player.command p.tetromino g c).1.Update
        (Player.command p.tetromino g c).2).1 } ∧
      g1 = ((Player.command p.tetromino g c).1.Update (Player.command p.tetromino g c).2).2) ∨
    ((Player.command p.tetromino g c).1.idle = true ∧
      (Tetromino.create (Tetrominos.ofRand rnd) (Player.command p.tetromino g c).2).1.spawnable
        = false ∧
      p1 = { p with
        tetromino := (Tetromino.create (Tetrominos.ofRand rnd)
          (Player.command p.tetromino g c).2).1,
        playable := false } ∧
      g1 = (Tetromino.create (Tetrominos.ofRand rnd) (Player.command p.tetromino g c).2).2) ∨
    ((Player.command p.tetromino g c).1.idle = true ∧
      ∃ rc g2, p.rowChecker.Update
          (Tetromino.create (Tetrominos.ofRand rnd) (Player.command p.tetromino g c).2).2
          = some (rc, g2) ∧
        p1 = { p with
          tetromino := ((Tetromino.create (Tetrominos.ofRand rnd)
            (Player.command p.tetromino g c).2).1.Update g2).1,
          rowChecker := rc, score := p.score + rc.GetClearedRows } ∧
        g1 = ((Tetromino.create (Tetrominos.ofRand rnd)
            (Player.command p.tetromino g c).2).1.Update g2).2) := by
  unfold Player.Update at h
  simp only [Tetromino.IsIdle, Tetromino.IsSpawnable] at h
  split at h
  · rename_i hidle
    split at h
    · rename_i hsp
      obtain ⟨rfl, rfl⟩ := Prod.mk.inj (Option.some.inj h)
      exact Or.inr (Or.inl ⟨hidle, by simpa using hsp, rfl, rfl⟩)
    · split at h
      · cases h
      · rename_i rc g2 heq
        obtain ⟨rfl, rfl⟩ := Prod.mk.inj (Option.some.inj h)
        exact Or.inr (Or.inr ⟨hidle, rc, g2, heq, rfl, rfl⟩)
  · rename_i hidle
    obtain ⟨rfl, rfl⟩ := Prod.mk.inj (Option.some.inj h)
    exact Or.inl ⟨by simpa using hidle, rfl, rfl⟩


/-! ## Counting the `Active` cells -/

theorem Grid.sum_map_set (f : List Cell → Nat) (l : List (List Cell)) (i : Nat) (r : List Cell)
    (h : i < l.length) :
    ((l.set i r).map f).sum + f l[i] = (l.map f).sum + f r := by
  induction l generalizing i with
  | nil => simp at h
  | cons a l ih =>
    cases i with
    | zero => simp; omega
    | succ i =>
      simp only [List.length_cons, Nat.add_lt_add_iff_right] at h
      have := ih i h
      simp only [List.set_cons_succ, List.map_cons, List.sum_cons, List.getElem_cons_succ]
      omega

theorem Grid.tileAt_eq_getElem (g : Grid) (x y : Int) (c : Cell) (h : g.tileAt x y = some c) :
    ∃ (hy : y.toNat < g.tiles.length) (hx : x.toNat < (g.tiles[y.toNat]).length),
      (g.tiles[y.toNat])[x.toNat] = c := by
  unfold Grid.tileAt at h
  split at h
  · cases h
  rename_i hb
  have hb2 := (Grid.IsOutOfBounds_false_iff g x y).1 (by simpa using hb)
  have hy : y.toNat < g.tiles.length := by omega
  rw [List.getD_eq_getElem?_getD, List.getElem?_eq_getElem hy, Option.getD_some] at h
  obtain ⟨hx, hc⟩ := List.getElem?_eq_some.1 h
  exact ⟨hy, hx, hc⟩

theorem Grid.activeCount_SetTile (g : Grid) (x y : Int) (c : Cell) (hc : c ≠ Cell.Active)
    (h : g.tileAt x y = some Cell.Active) :
    (g.SetTile x y c).activeCount + 1 = g.activeCount := by
  obtain ⟨hy, hx, hcell⟩ := Grid.tileAt_eq_getElem g x y _ h
  have hb : g.IsOutOfBounds x y = false := by
    unfold Grid.tileAt at h
    split at h
    · cases h
    · rename_i hb; simpa using hb
  have hrow : g.tiles.getD y.toNat [] = g.tiles[y.toNat] := by
    simp [List.getD_eq_getElem?_getD, List.getElem?_eq_getElem hy]
  simp only [Grid.activeCount, Grid.SetTile, hb, Bool.false_eq_true, if_false, hrow]
  have hs := Grid.sum_map_set (fun r => r.count Cell.Active) g.tiles y.toNat
    ((g.tiles[y.toNat]).set x.toNat c) hy
  simp only at hs
  have hcs := List.count_set c Cell.Active (g.tiles[y.toNat]) x.toNat hx
  have hpos : 0 < (g.tiles[y.toNat]).count Cell.Active := by
    rw [List.count_pos_iff]
    rw [← hcell]
    exact List.getElem_mem hx
  have h1 : ((g.tiles[y.toNat])[x.toNat] == Cell.Active) = true := by simp [hcell]
  have h2 : (c == Cell.Active) = false := by simpa using hc
  rw [h1, h2] at hcs
  simp only [if_true, Bool.false_eq_true, if_false, Nat.add_zero] at hcs
  omega

theorem Grid.activeCount_eq_zero (g : Grid) (hwf : g.WF)
    (hno : ∀ y : Nat, y < g.GetHeight → ∀ x : Nat, x < g.GetWidth →
      g.IsCollision x y Cell.Active = false) :
    g.activeCount = 0 := by
  unfold Grid.activeCount
  rw [List.sum_eq_zero_iff]
  intro n hn
  obtain ⟨row, hrow, rfl⟩ := List.mem_map.1 hn
  rw [List.count_eq_zero]
  intro hmem
  obtain ⟨y, hy, rfl⟩ := List.getElem_of_mem hrow
  obtain ⟨x, hx, hcell⟩ := List.getElem_of_mem hmem
  have hw : (g.tiles[y]).length = g.width := hwf _ (List.getElem_mem hy)
  have := hno y hy x (by simp only [Grid.GetWidth]; omega)
  have hb := Grid.IsOutOfBounds_cast g x y hy (by simp only [Grid.GetWidth]; omega)
  simp only [Grid.IsCollision, Grid.tileAt, hb, Bool.false_eq_true, if_false, Int.toNat_ofNat,
    List.getD_eq_getElem?_getD, List.getElem?_eq_getElem hy, Option.getD_some,
    List.getElem?_eq_getElem hx, hcell] at this
  simp at this

/-- On a rectangular playfield whose `Active` cells are exactly the cells of a
list of distinct coordinates on the playfield, the number of `Active` cells is
the length of the list. -/
theorem Grid.activeCount_eq_length (bs : List Coordinate) :
    ∀ (g : Grid), g.WF → bs.Nodup → (∀ b ∈ bs, g.IsOutOfBounds b.x b.y = false) →
      (∀ y : Nat, y < g.GetHeight → ∀ x : Nat, x < g.GetWidth →
        (g.IsCollision x y Cell.Active = true ↔ (⟨x, y⟩ : Coordinate) ∈ bs)) →
      g.activeCount = bs.length := by
  induction bs with
  | nil =>
    intro g hwf _ _ hrel
    apply Grid.activeCount_eq_zero g hwf
    intro y hy x hx
    have := hrel y hy x hx
    simpa using this
  | cons b bs ih =>
    intro g hwf hnd hin hrel
    have hb := hin b (List.mem_cons_self _ _)
    have hb2 := (Grid.IsOutOfBounds_false_iff g b.x b.y).1 hb
    have hbx : ((b.x.toNat : Nat) : Int) = b.x := by omega
    have hby : ((b.y.toNat : Nat) : Int) = b.y := by omega
    have hact : g.tileAt b.x b.y = some Cell.Active := by
      have := (hrel b.y.toNat (by simp only [Grid.GetHeight]; omega) b.x.toNat
        (by simp only [Grid.GetWidth]; omega)).2 (by rw [hbx, hby]; exact List.mem_cons_self _ _)
      rw [hbx, hby] at this
      exact (Grid.IsCollision_iff _ _ _ _).1 this
    have hcount := Grid.activeCount_SetTile g b.x b.y Cell.Empty (by decide) hact
    have hrest := ih (g.SetTile b.x b.y Cell.Empty) (Grid.SetTile_WF _ _ _ _ hwf)
      (List.nodup_cons.1 hnd).2
      (fun c hc => by rw [Grid.SetTile_IsOutOfBounds]; exact hin c (List.mem_cons_of_mem _ hc))
      (by
        intro y hy x hx
        have hy0 : y < g.GetHeight := by
          simpa [Grid.GetHeight, Grid.SetTile_length] using hy
        have hx0 : x < g.GetWidth := by
          simpa [Grid.GetWidth, Grid.SetTile_width] using hx
        rw [Grid.IsCollision_iff]
        by_cases he : ((x : Int) = b.x ∧ (y : Int) = b.y)
        · rw [he.1, he.2, Grid.tileAt_SetTile_same g b.x b.y _ hwf hb]
          have hnb : b ∉ bs := (List.nodup_cons.1 hnd).1
          simp [hnb]
        · rw [Grid.tileAt_SetTile_other g b.x b.y _ x y he, ← Grid.IsCollision_iff,
            hrel y hy0 x hx0, List.mem_cons]
          constructor
          · rintro (h | h)
            · exfalso
              apply he
              rw [← h]
              exact ⟨rfl, rfl⟩
            · exact h
          · exact fun h => Or.inr h)
    rw [List.length_cons, ← hrest]
    exact hcount.symm


/-! ## The round -/

theorem ActiveIffPiece.none_of_idle {t : Tetromino} {g : Grid} (h : ActiveIffPiece t g)
    (hidle : t.idle = true) :
    ∀ y : Nat, y < g.GetHeight → ∀ x : Nat, x < g.GetWidth →
      g.IsCollision x y Cell.Active = false := by
  intro y hy x hx
  have := h y hy x hx
  rw [hidle] at this
  simpa using this

/-- C10 (as the code has it): the relation that a cell is `Active` if and
only if it is one of the coordinates of the piece and the piece is not idle is
preserved by every step of `Player::Update` that leaves the score as it was,
that is every step whose line-clear scan, if it ran one, cleared no row: from
every round on a rectangular playfield that satisfies the relation, for every
command and draw, the round after the step satisfies it, also when the step
spawns a piece. -/
theorem Player.Update_preserves_activeIffPiece (p : Player) (g : Grid) (c : UserInput)
    (rnd : Nat) (p1 : Player) (g1 : Grid) (hwf : g.WF)
    (hrel : ActiveIffPiece p.tetromino g)
    (hstep : p.Update g c rnd = some (p1, g1)) (hscore : p1.score = p.score) :
    ActiveIffPiece p1.tetromino g1 := by
  have hc := Player.command_step p.tetromino g c
  have hrel1 := hc.activeIffPiece hwf hrel
  have hwf1 := hc.size.2.2 hwf
  rcases Player.Update_cases p g c rnd p1 g1 hstep with
    ⟨_, rfl, rfl⟩ | ⟨hidle, _, rfl, rfl⟩ | ⟨hidle, rc, g2, hscan, rfl, rfl⟩
  · exact (Tetromino.Update_step _ _).activeIffPiece hwf1 hrel1
  · exact Tetromino.create_activeIffPiece _ _ hwf1 (hrel1.none_of_idle hidle)
  · have hs := RowChecker.Update_sound _ _ _ _ hscan
    have h0 : rc.GetClearedRows = 0 := by
      simp only at hscore
      omega
    have hg2 := hs.2.2.2.2.2.2.2 h0
    subst hg2
    have hk := Tetromino.create_activeIffPiece (Tetrominos.ofRand rnd) _ hwf1
      (hrel1.none_of_idle hidle)
    exact (Tetromino.Update_step _ _).activeIffPiece ((Tetromino.create_size _ _).2.2 hwf1) hk

/-- The initial round of the 10 by 20 playfield, one step with `Left`. -/
theorem Player.Update_preserves_activeIffPiece_witness :
    ActiveIffPiece (Player.initial 10 20).1.tetromino (Player.initial 10 20).2 ∧
    ∃ s, (Player.initial 10 20).1.Update (Player.initial 10 20).2 UserInput.Left 0 = some s ∧
      ActiveIffPiece s.1.tetromino s.2 := by
  have hrel : ActiveIffPiece (Player.initial 10 20).1.tetromino (Player.initial 10 20).2 := by
    decide
  have hsome : ((Player.initial 10 20).1.Update (Player.initial 10 20).2 UserInput.Left 0).isSome
      = true := by decide
  obtain ⟨s, hs⟩ := Option.isSome_iff_exists.1 hsome
  have hscore : s.1.score = (Player.initial 10 20).1.score := by
    have : ((Player.initial 10 20).1.Update (Player.initial 10 20).2 UserInput.Left 0).map
        (fun s => s.1.score) = some 0 := by decide
    rw [hs] at this
    exact Option.some.inj this
  exact ⟨hrel, s, hs, Player.Update_preserves_activeIffPiece _ _ _ _ s.1 s.2 (by decide) hrel hs
    hscore⟩

/-- C10 fails as stated: the round `Player.bottomRowFilled` (idle square, no
`Active` cell, bottom row full, playable) satisfies the relation; the next step
spawns a line on (5,0),(5,1),(5,2),(5,3), clears the bottom row and leaves the
cell (5,4) `Active` although it is not a coordinate of the piece. -/
theorem Player.Update_activeIffPiece_counterexample :
    ActiveIffPiece Player.bottomRowFilled.1.tetromino Player.bottomRowFilled.2 ∧
    Player.bottomRowFilled.1.playable = true ∧
    ∃ s, Player.Update Player.bottomRowFilled.1 Player.bottomRowFilled.2 UserInput.None 0
        = some s ∧
      s.1.tetromino.idle = false ∧
      s.1.tetromino.blocks = [⟨5, 0⟩, ⟨5, 1⟩, ⟨5, 2⟩, ⟨5, 3⟩] ∧
      s.2.IsCollision 5 4 Cell.Active = true ∧
      ¬ ActiveIffPiece s.1.tetromino s.2 := by
  refine ⟨by decide, rfl, ?_⟩
  have hsome : (Player.Update Player.bottomRowFilled.1 Player.bottomRowFilled.2
      UserInput.None 0).isSome = true := by decide
  obtain ⟨s, hs⟩ := Option.isSome_iff_exists.1 hsome
  have hval : (Player.Update Player.bottomRowFilled.1 Player.bottomRowFilled.2
      UserInput.None 0).map (fun s => (s.1.tetromino.idle, s.1.tetromino.blocks,
        s.2.IsCollision 5 4 Cell.Active, decide (ActiveIffPiece s.1.tetromino s.2)))
      = some (false, [⟨5, 0⟩, ⟨5, 1⟩, ⟨5, 2⟩, ⟨5, 3⟩], true, false) := by decide
  rw [hs] at hval
  simp only [Option.map_some', Option.some.injEq, Prod.mk.injEq, decide_eq_false_iff_not] at hval
  exact ⟨s, hs, hval.1, hval.2.1, hval.2.2.1, hval.2.2.2⟩


/-! ## Reachable rounds -/

theorem Reachable.of_run (w h : Nat) (l : List (UserInput × Nat)) :
    ∀ (s s1 : Player × Grid), Reachable w h s → Player.run l s = some s1 → Reachable w h s1 := by
  induction l with
  | nil =>
    intro s s1 hr hrun
    obtain rfl := Option.some.inj hrun
    exact hr
  | cons a l ih =>
    intro s s1 hr hrun
    obtain ⟨c, rnd⟩ := a
    simp only [Player.run] at hrun
    split at hrun
    · cases hrun
    · rename_i s2 heq
      exact ih s2 s1 (Reachable.step s s2 c rnd hr heq) hrun

set_option maxRecDepth 100000 in
/-- The commands of `Player.fillBottomRow` lead from the initial round of the
10 by 20 playfield to `Player.bottomRowFilled`. -/
theorem Player.run_fillBottomRow :
    Player.run Player.fillBottomRow (Player.initial 10 20) = some Player.bottomRowFilled := by
  decide

theorem Reachable.bottomRowFilled : Reachable 10 20 Player.bottomRowFilled :=
  Reachable.of_run 10 20 Player.fillBottomRow _ _ Reachable.init Player.run_fillBottomRow

theorem Grid.blank_WF (w h : Nat) : (Grid.blank w h).WF := by
  intro r hr
  simp only [Grid.blank] at hr ⊢
  rw [(List.mem_replicate.1 hr).2, List.length_replicate]

theorem Grid.blank_no_active (w h : Nat) :
    ∀ y : Nat, y < (Grid.blank w h).GetHeight → ∀ x : Nat, x < (Grid.blank w h).GetWidth →
      (Grid.blank w h).IsCollision x y Cell.Active = false := by
  intro y hy x hx
  have hb := Grid.IsOutOfBounds_cast _ x y hy hx
  simp only [Grid.blank, Grid.GetHeight, Grid.GetWidth, List.length_replicate] at hy hx
  simp [Grid.IsCollision, Grid.tileAt, hb, Grid.blank, List.getD_eq_getElem?_getD, hy, hx,
    Grid.empty]

theorem PieceStep.pieceOnField {w h : Nat} {t t1 : Tetromino} {g g1 : Grid}
    (hs : PieceStep t g t1 g1) (hok : PieceOnField w h t g) : PieceOnField w h t1 g1 := by
  obtain ⟨hwf, hw, hh, hrel, hnd, hlen, hin⟩ := hok
  obtain ⟨s1, s2, s3⟩ := hs.size
  obtain ⟨b1, b2, b3⟩ := hs.blocks hnd hlen hin
  exact ⟨s3 hwf, by rw [s1, hw], by rw [s2, hh], hs.activeIffPiece hwf hrel, b1, b2, b3⟩

theorem Tetromino.create_pieceOnField {w h : Nat} (hw5 : 5 ≤ w) (hh4 : 4 ≤ h)
    (ty : Tetrominos) (g : Grid) (hwf : g.WF) (hw : g.width = w) (hh : g.tiles.length = h)
    (hno : ∀ y : Nat, y < g.GetHeight → ∀ x : Nat, x < g.GetWidth →
      g.IsCollision x y Cell.Active = false) :
    PieceOnField w h (Tetromino.create ty g).1 (Tetromino.create ty g).2 := by
  obtain ⟨s1, s2, s3⟩ := Tetromino.create_size ty g
  refine ⟨s3 hwf, by rw [s1, hw], by rw [s2, hh], Tetromino.create_activeIffPiece ty g hwf hno,
    ?_, ?_, ?_⟩
  · rw [Tetromino.create_blocks]; exact Tetromino.spawnBlocks_nodup _ _
  · rw [Tetromino.create_blocks]; exact Tetromino.spawnBlocks_length _ _
  · intro b hb
    rw [Tetromino.create_blocks] at hb
    rw [Tetromino.create_grid, Grid.paint_IsOutOfBounds]
    exact Tetromino.spawnBlocks_inBounds ty g (by omega) (by omega) b hb

theorem PieceOnField.activeCount {w h : Nat} {t : Tetromino} {g : Grid}
    (hok : PieceOnField w h t g) : g.activeCount = if t.idle then 0 else 4 := by
  obtain ⟨hwf, _, _, hrel, hnd, hlen, hin⟩ := hok
  cases hidle : t.idle
  · simp only [Bool.false_eq_true, if_false]
    rw [← hlen]
    apply Grid.activeCount_eq_length t.blocks g hwf hnd hin
    intro y hy x hx
    rw [hrel y hy x hx, hidle]
    simp
  · simp only [if_true]
    exact Grid.activeCount_eq_zero g hwf (hrel.none_of_idle hidle)

/-- Until a row is cleared the piece and the playfield fit together. -/
theorem Reachable.pieceOnField_invariant (w h : Nat) (hw : 5 ≤ w) (hh : 4 ≤ h) (s : Player × Grid)
    (hr : Reachable w h s) :
    0 ≤ s.1.score ∧ (s.1.score = 0 → PieceOnField w h s.1.tetromino s.2) := by
  induction hr with
  | init =>
    refine ⟨le_refl _, fun _ => ?_⟩
    exact Tetromino.create_pieceOnField hw hh Tetrominos.Line (Grid.blank w h)
      (Grid.blank_WF w h) rfl (by simp [Grid.blank]) (Grid.blank_no_active w h)
  | step s s1 c rnd _ hstep ih =>
    obtain ⟨hnn, hok⟩ := ih
    have hc := Player.command_step s.1.tetromino s.2 c
    rcases Player.Update_cases s.1 s.2 c rnd s1.1 s1.2 hstep with
      ⟨_, h1, h2⟩ | ⟨hidle, _, h1, h2⟩ | ⟨hidle, rc, g2, hscan, h1, h2⟩
    · rw [h1, h2]
      exact ⟨hnn, fun h0 => (Tetromino.Update_step _ _).pieceOnField (hc.pieceOnField (hok h0))⟩
    · rw [h1, h2]
      refine ⟨hnn, fun h0 => ?_⟩
      obtain ⟨hwf, hw1, hh1, hrel, _⟩ := hc.pieceOnField (hok h0)
      exact Tetromino.create_pieceOnField hw hh _ _ hwf hw1 hh1 (hrel.none_of_idle hidle)
    · have hs := RowChecker.Update_sound _ _ _ _ hscan
      rw [h1, h2]
      refine ⟨by simp only; omega, fun h0 => ?_⟩
      simp only at h0
      have hz : s.1.score = 0 := by omega
      have hn : rc.GetClearedRows = 0 := by omega
      have hg2 := hs.2.2.2.2.2.2.2 hn
      subst hg2
      obtain ⟨hwf, hw1, hh1, hrel, _⟩ := hc.pieceOnField (hok hz)
      exact (Tetromino.Update_step _ _).pieceOnField
        (Tetromino.create_pieceOnField hw hh _ _ hwf hw1 hh1 (hrel.none_of_idle hidle))

/-- C1 (as the code has it): on a playfield at least 5 wide and 4 tall, in
every state reachable from the initial round by steps of `Player::Update`, for
any commands and draws, in which no row has been cleared yet (score 0), the
number of `Active` cells is 0 or exactly 4: 0 when the piece is idle, 4 when
it is not. -/
theorem Reachable.activeCount_before_first_clear (w h : Nat) (hw : 5 ≤ w) (hh : 4 ≤ h)
    (s : Player × Grid) (hr : Reachable w h s) (hscore : s.1.score = 0) :
    (s.2.activeCount = 0 ∨ s.2.activeCount = 4) ∧
    s.2.activeCount = if s.1.tetromino.idle then 0 else 4 := by
  have hc := ((Reachable.pieceOnField_invariant w h hw hh s hr).2 hscore).activeCount
  refine ⟨?_, hc⟩
  rw [hc]
  split
  · exact Or.inl rfl
  · exact Or.inr rfl

/-- The round `Player.bottomRowFilled` of the 10 by 20 playfield: score 0,
the square has locked, no cell is `Active`. -/
theorem Reachable.activeCount_before_first_clear_witness :
    Reachable 10 20 Player.bottomRowFilled ∧ Player.bottomRowFilled.1.score = 0 ∧
    Player.bottomRowFilled.2.activeCount = 0 :=
  ⟨Reachable.bottomRowFilled, rfl,
    by
      have h := (Reachable.activeCount_before_first_clear 10 20 (by decide) (by decide)
        Player.bottomRowFilled Reachable.bottomRowFilled rfl).2
      rw [h]
      rfl⟩

/-- C1 fails as stated: the round reached from the initial round of the 10 by
20 playfield by the commands of `Player.fillBottomRow` and one more step, which
spawns a line and clears the bottom row, has 5 `Active` cells: the cells
(5,0) to (5,3) of the new line and the copy (5,4) that the scan made of it. -/
theorem Reachable.activeCount_counterexample :
    ∃ s, Reachable 10 20 s ∧ s.1.score = 1 ∧ s.2.activeCount = 5 ∧
      s.2.IsCollision 5 4 Cell.Active = true := by
  have hsome : (Player.Update Player.bottomRowFilled.1 Player.bottomRowFilled.2
      UserInput.None 0).isSome = true := by decide
  obtain ⟨s, hs⟩ := Option.isSome_iff_exists.1 hsome
  have hval : (Player.Update Player.bottomRowFilled.1 Player.bottomRowFilled.2
      UserInput.None 0).map (fun s => (s.1.score, s.2.activeCount,
        s.2.IsCollision 5 4 Cell.Active)) = some (1, 5, true) := by decide
  rw [hs] at hval
  simp only [Option.map_some', Option.some.injEq, Prod.mk.injEq] at hval
  exact ⟨s, Reachable.step _ s UserInput.None 0 Reachable.bottomRowFilled hs,
    hval.1, hval.2.1, hval.2.2⟩


theorem Grid.blank_no_full (w h : Nat) (hw : 0 < w) :
    ∀ row ∈ (Grid.blank w h).tiles, row ≠ List.replicate (Grid.blank w h).width Cell.Locked := by
  intro row hrow heq
  simp only [Grid.blank] at hrow heq
  rw [(List.mem_replicate.1 hrow).2] at heq
  have h0 : (List.replicate w Grid.empty)[0]? = (List.replicate w Cell.Locked)[0]? := by rw [heq]
  simp [List.getElem?_replicate, hw, Grid.empty] at h0

/-- While the round is playable and the piece is falling no row equals the
full row of the row checker. -/
theorem Reachable.no_full_invariant (w h : Nat) (hw : 0 < w) (s : Player × Grid) (hr : Reachable w h s) :
    s.2.WF ∧ s.2.width = w ∧ s.1.rowChecker.fullRow = List.replicate w Cell.Locked ∧
    (s.1.playable = true → s.1.tetromino.idle = false →
      ∀ row ∈ s.2.tiles, row ≠ List.replicate w Cell.Locked) := by
  induction hr with
  | init =>
    obtain ⟨s1, _, s3⟩ := Tetromino.create_size Tetrominos.Line (Grid.blank w h)
    refine ⟨s3 (Grid.blank_WF w h), s1, ?_, fun _ _ => ?_⟩
    · simp only [Player.initial, RowChecker.create, Grid.GetWidth, s1, Tetromino.asciiIdle]
      rfl
    · exact Tetromino.create_no_full Tetrominos.Line (Grid.blank w h) (Grid.blank_no_full w h hw)
  | step s s1 c rnd _ hstep ih =>
    obtain ⟨hwf, hwd, hrc, hno⟩ := ih
    have hc := Player.command_step s.1.tetromino s.2 c
    obtain ⟨c1, _, c3⟩ := hc.size
    rcases Player.Update_cases s.1 s.2 c rnd s1.1 s1.2 hstep with
      ⟨hidle, h1, h2⟩ | ⟨_, _, h1, h2⟩ | ⟨_, rc, g2, hscan, h1, h2⟩
    · have hu := Tetromino.Update_step (Player.command s.1.tetromino s.2 c).1
        (Player.command s.1.tetromino s.2 c).2
      obtain ⟨u1, _, u3⟩ := hu.size
      rw [h1, h2]
      refine ⟨u3 (c3 hwf), by rw [u1, c1, hwd], hrc, fun hp hi => ?_⟩
      have hsi : s.1.tetromino.idle = false := by
        rcases hc with ⟨e, _, _⟩ | ⟨e, _, _⟩ | ⟨e, _, _⟩
        · rw [← e]; exact hidle
        · exact e
        · exact e
      have n1 := hc.no_full hidle (by rw [hwd]; exact hno hp hsi)
      have n2 := hu.no_full hi (by rw [c1]; exact n1)
      rw [c1, hwd] at n2
      exact n2
    · obtain ⟨k1, _, k3⟩ := Tetromino.create_size (Tetrominos.ofRand rnd)
        (Player.command s.1.tetromino s.2 c).2
      rw [h1, h2]
      refine ⟨k3 (c3 hwf), by rw [k1, c1, hwd], hrc, fun hp _ => ?_⟩
      simp at hp
    · obtain ⟨k1, _, k3⟩ := Tetromino.create_size (Tetrominos.ofRand rnd)
        (Player.command s.1.tetromino s.2 c).2
      obtain ⟨r1, r2, _, r4, r5, _⟩ := RowChecker.Update_sound _ _ _ _ hscan
      have hu := Tetromino.Update_step (Tetromino.create (Tetrominos.ofRand rnd)
        (Player.command s.1.tetromino s.2 c).2).1 g2
      obtain ⟨u1, _, u3⟩ := hu.size
      have hg2w : g2.width = w := by rw [r2, k1, c1, hwd]
      rw [h1, h2]
      refine ⟨u3 (r4 (k3 (c3 hwf))), by rw [u1, hg2w], by rw [r1, hrc], fun _ hi => ?_⟩
      have n2 := hu.no_full hi (by rw [hg2w, ← hrc]; exact r5)
      rw [hg2w] at n2
      exact n2

/-- C3 (as the code has it): on a playfield at least one cell wide, in every
state reachable from the initial round by steps of `Player::Update`, for any
commands and draws, in which the round is still playable and the piece is not
idle (the step did not end by locking the piece), no row of the playfield
consists entirely of `Locked` cells. -/
theorem Reachable.no_full_row_while_falling (w h : Nat) (hw : 0 < w) (s : Player × Grid)
    (hr : Reachable w h s) (hplay : s.1.playable = true) (hidle : s.1.tetromino.idle = false) :
    ∀ r : Nat, s.2.rowFull r = false := by
  obtain ⟨hwf, hwd, _, hno⟩ := Reachable.no_full_invariant w h hw s hr
  rw [Grid.no_rowFull_iff s.2 hwf]
  simpa [Grid.GetWidth, hwd] using hno hplay hidle

/-- The round of the 10 by 20 playfield reached by the 185 steps of
`Player.fillBottomRow` and one more step: three pieces have locked, the step
spawned a line and its scan cleared the full bottom row (score 1), the cells
(8,19) and (9,19) of the square are `Locked`, the round is playable and the
line is falling; no row of that playfield is full. -/
theorem Reachable.no_full_row_while_falling_witness :
    ∃ s, Player.Update Player.bottomRowFilled.1 Player.bottomRowFilled.2 UserInput.None 0
        = some s ∧
      Reachable 10 20 s ∧ s.1.playable = true ∧ s.1.tetromino.idle = false ∧
      s.1.score = 1 ∧
      s.2.IsCollision 8 19 Cell.Locked = true ∧ s.2.IsCollision 9 19 Cell.Locked = true ∧
      ∀ r : Nat, s.2.rowFull r = false := by
  have hsome : (Player.Update Player.bottomRowFilled.1 Player.bottomRowFilled.2
      UserInput.None 0).isSome = true := by decide
  obtain ⟨s, hs⟩ := Option.isSome_iff_exists.1 hsome
  have hval : (Player.Update Player.bottomRowFilled.1 Player.bottomRowFilled.2
      UserInput.None 0).map (fun s => (s.1.playable, s.1.tetromino.idle, s.1.score,
        s.2.IsCollision 8 19 Cell.Locked, s.2.IsCollision 9 19 Cell.Locked))
      = some (true, false, 1, true, true) := by decide
  rw [hs] at hval
  simp only [Option.map_some', Option.some.injEq, Prod.mk.injEq] at hval
  have hreach : Reachable 10 20 s :=
    Reachable.step _ s UserInput.None 0 Reachable.bottomRowFilled hs
  exact ⟨s, hs, hreach, hval.1, hval.2.1, hval.2.2.1, hval.2.2.2.1, hval.2.2.2.2,
    Reachable.no_full_row_while_falling 10 20 (by decide) s hreach hval.1 hval.2.1⟩

/-- C3 fails as stated: the round `Player.bottomRowFilled`, reached from the
initial round of the 10 by 20 playfield by the commands of
`Player.fillBottomRow`, is the state at the end of a step of `Player::Update`
(the one in which the square locked), the round is playable, and its row 19
consists entirely of `Locked` cells. -/
theorem Reachable.full_row_counterexample :
    Reachable 10 20 Player.bottomRowFilled ∧
    Player.bottomRowFilled.1.playable = true ∧
    Player.bottomRowFilled.1.tetromino.idle = true ∧
    Player.bottomRowFilled.2.rowFull 19 = true ∧
    Player.bottomRowFilled.2.tiles[19]? = some (List.replicate 10 Cell.Locked) :=
  ⟨Reachable.bottomRowFilled, rfl, rfl, by decide, by decide⟩


/-! ## Checked playfield accesses -/

theorem Grid.IsCollisionChecked_eq (g : Grid) (x y : Int) (c : Cell)
    (h : g.IsOutOfBounds x y = false) :
    g.IsCollisionChecked x y c = some (g.IsCollision x y c) := by
  simp [Grid.IsCollisionChecked, h]

theorem Grid.SetTileChecked_eq (g : Grid) (x y : Int) (c : Cell)
    (h : g.IsOutOfBounds x y = false) :
    g.SetTileChecked x y c = some (g.SetTile x y c) := by
  simp [Grid.SetTileChecked, h]

theorem Grid.paintChecked_eq (g : Grid) (c : Cell) (bs : List Coordinate)
    (h : ∀ b ∈ bs, g.IsOutOfBounds b.x b.y = false) :
    g.paintChecked c bs = some (g.paint bs c) := by
  induction bs generalizing g with
  | nil => rfl
  | cons b bs ih =>
    rw [Grid.paintChecked, Grid.SetTileChecked_eq g b.x b.y c (h b (List.mem_cons_self _ _))]
    simp only
    rw [ih, Grid.paint_cons]
    intro d hd
    rw [Grid.SetTile_IsOutOfBounds]
    exact h d (List.mem_cons_of_mem _ hd)

theorem Tetromino.anyChecked_eq (test : Coordinate → Option Bool) (f : Coordinate → Bool)
    (bs : List Coordinate) (h : ∀ b ∈ bs, test b = some (f b)) :
    Tetromino.anyChecked test bs = some (bs.any f) := by
  induction bs with
  | nil => rfl
  | cons b bs ih =>
    rw [Tetromino.anyChecked, h b (List.mem_cons_self _ _), List.any_cons]
    cases hf : f b
    · simp only [Bool.false_or]
      exact ih (fun d hd => h d (List.mem_cons_of_mem _ hd))
    · rfl

theorem Tetromino.placeChecked_eq (g : Grid) (sp : Bool) (done bs : List Coordinate)
    (h : ∀ b ∈ bs, g.IsOutOfBounds (b.x + ((g.width / 2 : Nat) : Int)) b.y = false) :
    Tetromino.placeChecked g sp done bs = some (Tetromino.place g sp done bs) := by
  induction bs generalizing g sp done with
  | nil => rfl
  | cons b bs ih =>
    have hb := h b (List.mem_cons_self _ _)
    rw [Tetromino.placeChecked, Tetromino.place]
    simp only [Grid.GetWidth]
    rw [Grid.IsCollisionChecked_eq _ _ _ _ hb, Grid.SetTileChecked_eq _ _ _ _ hb]
    simp only
    apply ih
    intro d hd
    rw [Grid.SetTile_IsOutOfBounds, Grid.SetTile_width]
    exact h d (List.mem_cons_of_mem _ hd)

theorem Tetromino.createChecked_eq (ty : Tetrominos) (g : Grid) (hw : 5 ≤ g.width)
    (hh : 4 ≤ g.tiles.length) :
    Tetromino.createChecked ty g = some (Tetromino.create ty g) := by
  have hin := Tetromino.spawnBlocks_inBounds ty g hw hh
  unfold Tetromino.createChecked
  rw [Tetromino.placeChecked_eq]
  · rfl
  · intro b hb
    exact hin ⟨b.x + ((g.width / 2 : Nat) : Int), b.y⟩
      (by unfold Tetromino.spawnBlocks; exact List.mem_map_of_mem _ hb)

theorem Tetromino.fallChecked_eq (t : Tetromino) (g : Grid)
    (hin : ∀ b ∈ t.blocks, g.IsOutOfBounds b.x b.y = false) :
    t.fallChecked g = some (t.fall g) := by
  have htest : ∀ b ∈ t.blocks, Tetromino.blockedChecked g b = some (Tetromino.blocked g b) := by
    intro b _
    unfold Tetromino.blockedChecked Tetromino.blocked
    cases hb : g.IsOutOfBounds b.x (b.y + 1)
    · rw [Grid.IsCollisionChecked_eq _ _ _ _ hb]
      simp only [Bool.not_false, if_true]
      cases g.IsCollision b.x (b.y + 1) Tetromino.asciiIdle <;> rfl
    · rfl
  unfold Tetromino.fallChecked Tetromino.fall
  rw [Tetromino.anyChecked_eq _ _ _ htest]
  cases hany : t.blocks.any (Tetromino.blocked g)
  · simp only [Bool.false_eq_true, if_false]
    rw [Grid.paintChecked_eq _ _ _ hin]
    simp only
    rw [Grid.paintChecked_eq]
    intro b hb
    obtain ⟨a, ha, rfl⟩ := List.mem_map.1 hb
    rw [Grid.paint_IsOutOfBounds]
    have hf := (List.any_eq_false.1 hany) a ha
    rw [Tetromino.blocked_eq] at hf
    simp only [Bool.or_eq_true, not_or, Bool.not_eq_true] at hf
    exact hf.1
  · simp only [if_true]
    rw [Grid.paintChecked_eq _ _ _ hin]

theorem Tetromino.UpdateChecked_eq (t : Tetromino) (g : Grid)
    (hin : ∀ b ∈ t.blocks, g.IsOutOfBounds b.x b.y = false) :
    t.UpdateChecked g = some (t.Update g) := by
  unfold Tetromino.UpdateChecked Tetromino.Update
  split
  · rfl
  split
  · rfl
  exact Tetromino.fallChecked_eq { t with frames := 0 } g hin

theorem Tetromino.MoveChecked_eq (t : Tetromino) (g : Grid) (dx dy : Int)
    (hin : ∀ b ∈ t.blocks, g.IsOutOfBounds b.x b.y = false) :
    t.MoveChecked g dx dy = some (t.Move g dx dy) := by
  have htest : ∀ b ∈ t.blocks, Tetromino.moveRejectedChecked g dx dy b
      = some (Tetromino.moveRejected g dx dy b) := by
    intro b _
    unfold Tetromino.moveRejectedChecked Tetromino.moveRejected
    cases hb : g.IsOutOfBounds (b.x + dx) (b.y + dy)
    · rw [Grid.IsCollisionChecked_eq _ _ _ _ hb]
      simp
    · rfl
  unfold Tetromino.MoveChecked Tetromino.Move
  split
  · rfl
  rw [Tetromino.anyChecked_eq _ _ _ htest]
  cases hany : t.blocks.any (Tetromino.moveRejected g dx dy)
  · simp only [Bool.false_eq_true, if_false]
    rw [Grid.paintChecked_eq _ _ _ hin]
    simp only
    rw [Grid.paintChecked_eq]
    intro b hb
    obtain ⟨a, ha, rfl⟩ := List.mem_map.1 hb
    rw [Grid.paint_IsOutOfBounds]
    have hf := (List.any_eq_false.1 hany) a ha
    simp only [Tetromino.moveRejected, Bool.or_eq_true, not_or, Bool.not_eq_true] at hf
    exact hf.1
  · simp

theorem Tetromino.TurnChecked_eq (t : Tetromino) (g : Grid)
    (hin : ∀ b ∈ t.blocks, g.IsOutOfBounds b.x b.y = false) :
    t.TurnChecked g = some (t.Turn g) := by
  have hx : ∀ (p q : Int) (b : Coordinate),
      ({ x := p + (b.y - q) * -1, y := q + (b.x - p) } : Coordinate) = b.turned p q := by
    intro p q b
    simp only [Coordinate.turned, Coordinate.mk.injEq]
    exact ⟨by ring, trivial⟩
  have htest : ∀ b ∈ t.blocks,
      Tetromino.turnRejectedChecked g (t.blocks.getD 1 ⟨0, 0⟩).x (t.blocks.getD 1 ⟨0, 0⟩).y b
      = some (g.IsOutOfBounds (b.turned (t.blocks.getD 1 ⟨0, 0⟩).x (t.blocks.getD 1 ⟨0, 0⟩).y).x
            (b.turned (t.blocks.getD 1 ⟨0, 0⟩).x (t.blocks.getD 1 ⟨0, 0⟩).y).y
          || g.IsCollision (b.turned (t.blocks.getD 1 ⟨0, 0⟩).x (t.blocks.getD 1 ⟨0, 0⟩).y).x
            (b.turned (t.blocks.getD 1 ⟨0, 0⟩).x (t.blocks.getD 1 ⟨0, 0⟩).y).y Cell.Locked) := by
    intro b _
    have e1 : (t.blocks.getD 1 ⟨0, 0⟩).x + (b.y - (t.blocks.getD 1 ⟨0, 0⟩).y) * -1
        = (b.turned (t.blocks.getD 1 ⟨0, 0⟩).x (t.blocks.getD 1 ⟨0, 0⟩).y).x := by
      simp only [Coordinate.turned]; ring
    have e2 : (t.blocks.getD 1 ⟨0, 0⟩).y + (b.x - (t.blocks.getD 1 ⟨0, 0⟩).x)
        = (b.turned (t.blocks.getD 1 ⟨0, 0⟩).x (t.blocks.getD 1 ⟨0, 0⟩).y).y := rfl
    simp only [Tetromino.turnRejectedChecked, e1, e2, Tetromino.asciiIdle]
    cases hb : g.IsOutOfBounds (b.turned (t.blocks.getD 1 ⟨0, 0⟩).x (t.blocks.getD 1 ⟨0, 0⟩).y).x
        (b.turned (t.blocks.getD 1 ⟨0, 0⟩).x (t.blocks.getD 1 ⟨0, 0⟩).y).y
    · rw [Grid.IsCollisionChecked_eq _ _ _ _ hb]
      simp
    · rfl
  unfold Tetromino.TurnChecked Tetromino.Turn
  split
  · rfl
  split
  · rfl
  simp only [Tetromino.turnLoop_eq, List.nil_append]
  rw [Tetromino.anyChecked_eq _ _ _ htest]
  have hmap : t.blocks.map (fun b =>
      (⟨(t.blocks.getD 1 ⟨0, 0⟩).x + (b.y - (t.blocks.getD 1 ⟨0, 0⟩).y) * -1,
        (t.blocks.getD 1 ⟨0, 0⟩).y + (b.x - (t.blocks.getD 1 ⟨0, 0⟩).x)⟩ : Coordinate))
      = t.blocks.map (Coordinate.turned (t.blocks.getD 1 ⟨0, 0⟩).x (t.blocks.getD 1 ⟨0, 0⟩).y) := by
    apply List.map_congr_left
    intro b _
    exact hx _ _ b
  cases hany : t.blocks.any (fun b =>
      g.IsOutOfBounds (b.turned (t.blocks.getD 1 ⟨0, 0⟩).x (t.blocks.getD 1 ⟨0, 0⟩).y).x
          (b.turned (t.blocks.getD 1 ⟨0, 0⟩).x (t.blocks.getD 1 ⟨0, 0⟩).y).y
        || g.IsCollision (b.turned (t.blocks.getD 1 ⟨0, 0⟩).x (t.blocks.getD 1 ⟨0, 0⟩).y).x
          (b.turned (t.blocks.getD 1 ⟨0, 0⟩).x (t.blocks.getD 1 ⟨0, 0⟩).y).y Cell.Locked)
  · simp only [Bool.false_eq_true, if_false, hmap]
    rw [Grid.paintChecked_eq _ _ _ hin]
    simp only
    rw [Grid.paintChecked_eq]
    intro b hb
    obtain ⟨a, ha, rfl⟩ := List.mem_map.1 hb
    rw [Grid.paint_IsOutOfBounds]
    have hf := (List.any_eq_false.1 hany) a ha
    simp only [Bool.or_eq_true, not_or, Bool.not_eq_true] at hf
    exact hf.1
  · simp


theorem Grid.IsOutOfBounds_congr (g g1 : Grid) (hw : g1.width = g.width)
    (hl : g1.tiles.length = g.tiles.length) (x y : Int) :
    g1.IsOutOfBounds x y = g.IsOutOfBounds x y := by
  simp only [Grid.IsOutOfBounds, Grid.GetWidth, Grid.GetHeight, hw, hl]

/-- The blocks of the piece stay four distinct cells of the playfield. -/
theorem PieceReachable.blocks_invariant (w h : Nat) (hw : 5 ≤ w) (hh : 4 ≤ h)
    (s : Tetromino × Grid) (hr : PieceReachable w h s) :
    s.2.width = w ∧ s.2.tiles.length = h ∧ s.1.blocks.Nodup ∧ s.1.blocks.length = 4 ∧
    ∀ b ∈ s.1.blocks, s.2.IsOutOfBounds b.x b.y = false := by
  have hcreate : ∀ (ty : Tetrominos) (g : Grid), g.width = w → g.tiles.length = h →
      (Tetromino.create ty g).2.width = w ∧ (Tetromino.create ty g).2.tiles.length = h ∧
      (Tetromino.create ty g).1.blocks.Nodup ∧ (Tetromino.create ty g).1.blocks.length = 4 ∧
      ∀ b ∈ (Tetromino.create ty g).1.blocks,
        (Tetromino.create ty g).2.IsOutOfBounds b.x b.y = false := by
    intro ty g hgw hgh
    obtain ⟨s1, s2, _⟩ := Tetromino.create_size ty g
    refine ⟨by rw [s1, hgw], by rw [s2, hgh], ?_, ?_, ?_⟩
    · rw [Tetromino.create_blocks]; exact Tetromino.spawnBlocks_nodup _ _
    · rw [Tetromino.create_blocks]; exact Tetromino.spawnBlocks_length _ _
    · intro b hb
      rw [Tetromino.create_blocks] at hb
      rw [Tetromino.create_grid, Grid.paint_IsOutOfBounds]
      exact Tetromino.spawnBlocks_inBounds ty g (by omega) (by omega) b hb
  have hstep : ∀ (t t1 : Tetromino) (g g1 : Grid), PieceStep t g t1 g1 →
      (g.width = w ∧ g.tiles.length = h ∧ t.blocks.Nodup ∧ t.blocks.length = 4 ∧
        ∀ b ∈ t.blocks, g.IsOutOfBounds b.x b.y = false) →
      (g1.width = w ∧ g1.tiles.length = h ∧ t1.blocks.Nodup ∧ t1.blocks.length = 4 ∧
        ∀ b ∈ t1.blocks, g1.IsOutOfBounds b.x b.y = false) := by
    intro t t1 g g1 hs ⟨h1, h2, h3, h4, h5⟩
    obtain ⟨s1, s2, _⟩ := hs.size
    obtain ⟨b1, b2, b3⟩ := hs.blocks h3 h4 h5
    exact ⟨by rw [s1, h1], by rw [s2, h2], b1, b2, b3⟩
  induction hr with
  | init => exact hcreate _ _ rfl (by simp [Grid.blank])
  | spawn s ty _ ih => exact hcreate ty s.2 ih.1 ih.2.1
  | move s dx dy _ ih => exact hstep _ _ _ _ (Tetromino.Move_step s.1 s.2 dx dy) ih
  | turn s _ ih => exact hstep _ _ _ _ (Tetromino.Turn_step s.1 s.2) ih
  | tick s _ ih => exact hstep _ _ _ _ (Tetromino.Update_step s.1 s.2) ih
  | scan s rc rc1 g1 _ hscan ih =>
    obtain ⟨_, r2, r3, _⟩ := RowChecker.Update_sound rc rc1 s.2 g1 hscan
    obtain ⟨h1, h2, h3, h4, h5⟩ := ih
    refine ⟨by rw [r2, h1], by rw [r3, h2], h3, h4, ?_⟩
    intro b hb
    rw [Grid.IsOutOfBounds_congr s.2 g1 r2 r3]
    exact h5 b hb

/-- The piece and the playfield of a round reached by steps of `Player::Update`
are reached by spawns, `Move`, `Turn`, `Update` and finished scans. -/
theorem Reachable.pieceReachable (w h : Nat) (s : Player × Grid) (hr : Reachable w h s) :
    PieceReachable w h (s.1.tetromino, s.2) := by
  induction hr with
  | init => exact PieceReachable.init
  | step s s1 c rnd _ hstep ih =>
    have hc : PieceReachable w h (Player.command s.1.tetromino s.2 c) := by
      unfold Player.command
      split
      · exact PieceReachable.move _ _ _ ih
      split
      · exact PieceReachable.move _ _ _ ih
      split
      · exact PieceReachable.move _ _ _ ih
      split
      · exact PieceReachable.turn _ ih
      · exact ih
    rcases Player.Update_cases s.1 s.2 c rnd s1.1 s1.2 hstep with
      ⟨_, h1, h2⟩ | ⟨_, _, h1, h2⟩ | ⟨_, rc, g2, hscan, h1, h2⟩
    · rw [h1, h2]
      exact PieceReachable.tick _ hc
    · rw [h1, h2]
      exact PieceReachable.spawn _ _ hc
    · rw [h1, h2]
      have hs := PieceReachable.spawn _ (Tetrominos.ofRand rnd) hc
      have hsc := PieceReachable.scan _ _ rc g2 hs hscan
      exact PieceReachable.tick _ hsc

/-- C11: on a playfield at least 5 wide and 4 tall, so on the 10 wide and 20
tall one, in every state reached from the initial piece by spawns, `Move`,
`Turn` and `Update` calls in any order (finished line-clear scans may come in
between), the piece has four coordinates and each lies in
`[0,width) x [0,height)`.  Consequently the constructor, `Move`, `Turn` and
`Update` called in such a state make every `IsCollision` and `SetTile` access
at a coordinate of the playfield: run with checked accesses they do not stop
on an out-of-bounds access and give the result of the methods themselves.  The
same holds for the constructor call that makes the initial piece. -/
theorem PieceReachable.accesses_in_bounds (w h : Nat) (hw : 5 ≤ w) (hh : 4 ≤ h)
    (s : Tetromino × Grid) (hr : PieceReachable w h s) :
    s.2.GetWidth = w ∧ s.2.GetHeight = h ∧ s.1.blocks.length = 4 ∧
    (∀ b ∈ s.1.blocks, 0 ≤ b.x ∧ b.x < (w : Int) ∧ 0 ≤ b.y ∧ b.y < (h : Int)) ∧
    (∀ b ∈ s.1.blocks, s.2.IsOutOfBounds b.x b.y = false) ∧
    (∀ ty : Tetrominos, Tetromino.createChecked ty s.2 = some (Tetromino.create ty s.2)) ∧
    (∀ dx dy : Int, s.1.MoveChecked s.2 dx dy = some (s.1.Move s.2 dx dy)) ∧
    s.1.TurnChecked s.2 = some (s.1.Turn s.2) ∧
    s.1.UpdateChecked s.2 = some (s.1.Update s.2) ∧
    Tetromino.createChecked Tetrominos.Line (Grid.blank w h)
      = some (Tetromino.create Tetrominos.Line (Grid.blank w h)) := by
  obtain ⟨h1, h2, _, h4, h5⟩ := PieceReachable.blocks_invariant w h hw hh s hr
  refine ⟨h1, h2, h4, ?_, h5, ?_, ?_, ?_, ?_, ?_⟩
  · intro b hb
    have := (Grid.IsOutOfBounds_false_iff s.2 b.x b.y).1 (h5 b hb)
    rw [h1, h2] at this
    exact this
  · intro ty
    exact Tetromino.createChecked_eq ty s.2 (by omega) (by omega)
  · intro dx dy
    exact Tetromino.MoveChecked_eq s.1 s.2 dx dy h5
  · exact Tetromino.TurnChecked_eq s.1 s.2 h5
  · exact Tetromino.UpdateChecked_eq s.1 s.2 h5
  · exact Tetromino.createChecked_eq _ _ (by simp [Grid.blank]; omega) (by simp [Grid.blank]; omega)

/-- The piece and the playfield of the round `Player.bottomRowFilled` of the
10 by 20 playfield. -/
theorem PieceReachable.accesses_in_bounds_witness :
    PieceReachable 10 20 (Player.bottomRowFilled.1.tetromino, Player.bottomRowFilled.2) ∧
    (∀ b ∈ Player.bottomRowFilled.1.tetromino.blocks,
      0 ≤ b.x ∧ b.x < 10 ∧ 0 ≤ b.y ∧ b.y < 20) ∧
    (∀ ty : Tetrominos, Tetromino.createChecked ty Player.bottomRowFilled.2
      = some (Tetromino.create ty Player.bottomRowFilled.2)) :=
  ⟨Reachable.pieceReachable 10 20 _ Reachable.bottomRowFilled,
    (PieceReachable.accesses_in_bounds 10 20 (by decide) (by decide) _
      (Reachable.pieceReachable 10 20 _ Reachable.bottomRowFilled)).2.2.2.1,
    (PieceReachable.accesses_in_bounds 10 20 (by decide) (by decide) _
      (Reachable.pieceReachable 10 20 _ Reachable.bottomRowFilled)).2.2.2.2.2.1⟩


/-! ## Spawning -/

theorem Tetromino.place_spawnable (g : Grid) (sp : Bool) (done bs : List Coordinate)
    (hnd : (bs.map (fun b => ({ x := b.x + ((g.width / 2 : Nat) : Int), y := b.y }
      : Coordinate))).Nodup) :
    (Tetromino.place g sp done bs).1 = false ↔
      (sp = false ∨ ∃ c ∈ bs.map (fun b => ({ x := b.x + ((g.width / 2 : Nat) : Int), y := b.y }
        : Coordinate)), g.IsCollision c.x c.y Cell.Locked = true) := by
  induction bs generalizing g sp done with
  | nil => simp [Tetromino.place]
  | cons b bs ih =>
    rw [List.map_cons, List.nodup_cons] at hnd
    obtain ⟨hnot, hnd2⟩ := hnd
    have hw : (g.SetTile (b.x + ((g.GetWidth / 2 : Nat) : Int)) b.y Tetromino.asciiActive).width
        = g.width := Grid.SetTile_width _ _ _ _
    simp only [Tetromino.place]
    rw [ih _ _ _ (by rw [hw]; exact hnd2), hw]
    simp only [Grid.GetWidth, Tetromino.asciiIdle, List.map_cons, List.mem_cons,
      exists_eq_or_imp]
    have hsame : ∀ c ∈ bs.map (fun b => ({ x := b.x + ((g.width / 2 : Nat) : Int), y := b.y }
        : Coordinate)),
        (g.SetTile (b.x + ((g.width / 2 : Nat) : Int)) b.y Tetromino.asciiActive).IsCollision
          c.x c.y Cell.Locked = g.IsCollision c.x c.y Cell.Locked := by
      intro c hc
      unfold Grid.IsCollision
      rw [Grid.tileAt_SetTile_other]
      rintro ⟨h1, h2⟩
      apply hnot
      have : c = ⟨b.x + ((g.width / 2 : Nat) : Int), b.y⟩ := by
        cases c
        simp only at h1 h2
        rw [h1, h2]
      rw [← this]
      exact hc
    constructor
    · rintro (h | ⟨c, hc, hcol⟩)
      · by_cases hcol : g.IsCollision (b.x + ((g.width / 2 : Nat) : Int)) b.y Cell.Locked = true
        · exact Or.inr (Or.inl hcol)
        · rw [if_neg hcol] at h
          exact Or.inl h
      · exact Or.inr (Or.inr ⟨c, hc, by rw [← hsame c hc]; exact hcol⟩)
    · rintro (h | h | ⟨c, hc, hcol⟩)
      · left
        rw [h]
        split <;> rfl
      · left
        rw [if_pos h]
      · exact Or.inr ⟨c, hc, by rw [hsame c hc]; exact hcol⟩

theorem Tetromino.create_spawnable_false_iff (ty : Tetrominos) (g : Grid) :
    (Tetromino.create ty g).1.spawnable = false ↔
      ∃ b ∈ Tetromino.spawnBlocks ty g.width, g.IsCollision b.x b.y Cell.Locked = true := by
  have h := Tetromino.place_spawnable g true [] (Tetromino.layout ty)
    (Tetromino.spawnBlocks_nodup ty g.width)
  simp only [Bool.true_eq_false, false_or] at h
  exact h

theorem Grid.blank_no_locked (w h : Nat) (x y : Int) :
    (Grid.blank w h).IsCollision x y Cell.Locked = false := by
  unfold Grid.IsCollision Grid.tileAt
  split
  · rfl
  · rename_i hb
    have hb2 := (Grid.IsOutOfBounds_false_iff _ x y).1 (by simpa using hb)
    simp only [Grid.blank, List.length_replicate] at hb2
    have hy : y.toNat < h := by omega
    have hx : x.toNat < w := by omega
    simp [Grid.blank, List.getD_eq_getElem?_getD, hy, hx, Grid.empty]

theorem Player.command_idle (t : Tetromino) (g : Grid) (c : UserInput) (h : t.idle = true) :
    Player.command t g c = (t, g) := by
  unfold Player.command Tetromino.Move Tetromino.Turn
  simp [h]

/-- C12: a newly constructed piece is not spawnable if and only if at least
one of its four spawn cells was `Locked` on the playfield handed to the
constructor; and a step of `Player::Update` that starts with an idle piece and
spawns such a piece sets `playable` to false and stops there: the playfield is
the one the constructor left (no line-clear scan), the score and the row
checker are as before, and the new piece has not been ticked (its counter is
0, it is not idle). -/
theorem Player.Update_unspawnable (p : Player) (g : Grid) (c : UserInput) (rnd : Nat)
    (ty : Tetrominos) :
    ((Tetromino.create ty g).1.IsSpawnable = false ↔
      ∃ b ∈ Tetromino.spawnBlocks ty g.GetWidth, g.IsCollision b.x b.y Cell.Locked = true) ∧
    (p.tetromino.IsIdle = true →
      (Tetromino.create (Tetrominos.ofRand rnd) g).1.IsSpawnable = false →
      ∃ p1 g1, p.Update g c rnd = some (p1, g1) ∧
        p1.IsPlayable = false ∧
        p1.tetromino = (Tetromino.create (Tetrominos.ofRand rnd) g).1 ∧
        g1 = (Tetromino.create (Tetrominos.ofRand rnd) g).2 ∧
        p1.GetScore = p.GetScore ∧ p1.rowChecker = p.rowChecker ∧
        p1.tetromino.frames = 0 ∧ p1.tetromino.idle = false) := by
  refine ⟨Tetromino.create_spawnable_false_iff ty g, ?_⟩
  intro hidle hsp
  simp only [Tetromino.IsIdle, Tetromino.IsSpawnable] at hidle hsp
  refine ⟨⟨(Tetromino.create (Tetrominos.ofRand rnd) g).1, p.rowChecker, p.score, false⟩,
    (Tetromino.create (Tetrominos.ofRand rnd) g).2, ?_, rfl, rfl, rfl, rfl, rfl, rfl, rfl⟩
  unfold Player.Update
  simp only [Player.command_idle _ g c hidle, Tetromino.IsIdle, hidle, if_true,
    Tetromino.IsSpawnable, hsp, Bool.not_false]

/-- A 10 by 20 playfield with the cell (5,2) `Locked`, an idle piece and a
draw of a line, whose spawn cells are (5,0),(5,1),(5,2),(5,3). -/
theorem Player.Update_unspawnable_witness :
    ∃ p1 g1, Player.Update ⟨⟨true, true, 0, [⟨5, 2⟩, ⟨5, 3⟩, ⟨5, 4⟩, ⟨5, 5⟩], Tetrominos.Line⟩,
        RowChecker.create (Grid.blank 10 20), 3, true⟩
        ((Grid.blank 10 20).paint [⟨5, 2⟩, ⟨5, 3⟩, ⟨5, 4⟩, ⟨5, 5⟩] Cell.Locked)
        UserInput.Left 0 = some (p1, g1) ∧
      p1.IsPlayable = false ∧ p1.GetScore = 3 := by
  obtain ⟨p1, g1, h1, h2, _, _, h5, _⟩ := (Player.Update_unspawnable
    ⟨⟨true, true, 0, [⟨5, 2⟩, ⟨5, 3⟩, ⟨5, 4⟩, ⟨5, 5⟩], Tetrominos.Line⟩,
        RowChecker.create (Grid.blank 10 20), 3, true⟩
    ((Grid.blank 10 20).paint [⟨5, 2⟩, ⟨5, 3⟩, ⟨5, 4⟩, ⟨5, 5⟩] Cell.Locked)
    UserInput.Left 0 Tetrominos.Line).2 rfl (by decide)
  exact ⟨p1, g1, h1, h2, h5⟩

/-- C13: for each of the seven shapes, the constructor on a rectangular
playfield of width `w` with no `Locked` cell yields the four local cells of
the shape, in order, with every x shifted by `w / 2` and y unchanged, leaves
`spawnable` true (and the piece non-idle with counter 0), and paints those of
the four cells that lie on the playfield `Active`; in particular a line on the
empty 10 by 20 playfield occupies (5,0),(5,1),(5,2),(5,3). -/
theorem Tetromino.create_on_free_playfield (ty : Tetrominos) (g : Grid) (hwf : g.WF)
    (hfree : ∀ x y : Int, g.IsCollision x y Cell.Locked = false) :
    (Tetromino.create ty g).1.blocks = (Tetromino.layout ty).map
      (fun b => ({ x := b.x + ((g.GetWidth / 2 : Nat) : Int), y := b.y } : Coordinate)) ∧
    (Tetromino.create ty g).1.blocks.length = 4 ∧
    (Tetromino.create ty g).1.IsSpawnable = true ∧
    (Tetromino.create ty g).1.IsIdle = false ∧
    (Tetromino.create ty g).1.frames = 0 ∧
    (∀ b ∈ (Tetromino.create ty g).1.blocks, g.IsOutOfBounds b.x b.y = false →
      (Tetromino.create ty g).2.IsCollision b.x b.y Cell.Active = true) ∧
    (Tetromino.create Tetrominos.Line (Grid.blank 10 20)).1.blocks
      = [⟨5, 0⟩, ⟨5, 1⟩, ⟨5, 2⟩, ⟨5, 3⟩] := by
  refine ⟨Tetromino.create_blocks ty g, ?_, ?_, rfl, rfl, ?_, by decide⟩
  · rw [Tetromino.create_blocks]; exact Tetromino.spawnBlocks_length _ _
  · have h := Tetromino.create_spawnable_false_iff ty g
    cases hs : (Tetromino.create ty g).1.spawnable
    · obtain ⟨b, _, hb⟩ := h.1 hs
      rw [hfree b.x b.y] at hb
      cases hb
    · exact hs
  · intro b hb hin
    rw [Tetromino.create_blocks] at hb
    rw [Tetromino.create_grid, Grid.IsCollision_iff]
    exact Grid.tileAt_paint_mem g _ _ b.x b.y hwf hb hin

/-- A `T` on the empty 10 by 20 playfield. -/
theorem Tetromino.create_on_free_playfield_witness :
    (Tetromino.create Tetrominos.T (Grid.blank 10 20)).1.blocks
      = [⟨5, 0⟩, ⟨6, 0⟩, ⟨6, 1⟩, ⟨7, 0⟩] ∧
    (Tetromino.create Tetrominos.T (Grid.blank 10 20)).1.IsSpawnable = true := by
  obtain ⟨h1, _, h3, _⟩ := Tetromino.create_on_free_playfield Tetrominos.T (Grid.blank 10 20)
    (by decide) (Grid.blank_no_locked 10 20)
  refine ⟨?_, h3⟩
  rw [h1]
  decide


/-! ## Score -/

theorem Player.Update_score_step (p : Player) (g : Grid) (c : UserInput) (rnd : Nat)
    (p1 : Player) (g1 : Grid) (h : p.Update g c rnd = some (p1, g1)) :
    0 ≤ Player.clearedInStep p g c rnd ∧
    p1.score = p.score + Player.clearedInStep p g c rnd := by
  unfold Player.Update at h
  unfold Player.clearedInStep
  simp only [Tetromino.IsIdle, Tetromino.IsSpawnable] at h ⊢
  split at h
  · rename_i hidle
    rw [if_pos hidle]
    split at h
    · rename_i hsp
      rw [if_pos hsp]
      obtain ⟨rfl, _⟩ := Prod.mk.inj (Option.some.inj h)
      simp
    · rename_i hsp
      rw [if_neg hsp]
      split at h
      · cases h
      · rename_i rc g2 hscan
        obtain ⟨rfl, _⟩ := Prod.mk.inj (Option.some.inj h)
        exact ⟨(RowChecker.Update_sound _ _ _ _ hscan).2.2.2.2.2.2.1, rfl⟩
  · rename_i hidle
    rw [if_neg hidle]
    obtain ⟨rfl, _⟩ := Prod.mk.inj (Option.some.inj h)
    simp

theorem Player.run_score (l : List (UserInput × Nat)) :
    ∀ (s s1 : Player × Grid), Player.run l s = some s1 →
      0 ≤ Player.clearedInRun l s ∧ s1.1.score = s.1.score + Player.clearedInRun l s := by
  induction l with
  | nil =>
    intro s s1 h
    obtain rfl := Option.some.inj h
    simp [Player.clearedInRun]
  | cons a l ih =>
    intro s s1 h
    obtain ⟨c, rnd⟩ := a
    simp only [Player.run, Player.clearedInRun] at h ⊢
    split at h
    · cases h
    · rename_i s2 heq
      obtain ⟨h1, h2⟩ := Player.Update_score_step s.1 s.2 c rnd s2.1 s2.2 heq
      obtain ⟨h3, h4⟩ := ih s2 s1 h
      exact ⟨by omega, by omega⟩

/-- C14: for every round state, command and draw, the score after a step of
`Player::Update` is greater than or equal to the score before it and exceeds
it by exactly the cleared-row count of the line-clear scan run in that step,
by 0 when the step runs no scan; so over every run the score grows by the
total of the cleared-row counts of its steps, and from the initial round
(score 0) it equals that total. -/
theorem Player.score_counts_cleared_rows (p : Player) (g : Grid) (c : UserInput) (rnd : Nat)
    (l : List (UserInput × Nat)) (w h : Nat) :
    (∀ p1 g1, p.Update g c rnd = some (p1, g1) →
      p.GetScore ≤ p1.GetScore ∧
      p1.GetScore = p.GetScore + Player.clearedInStep p g c rnd ∧
      (∀ rc g2, (Player.command p.tetromino g c).1.IsIdle = true →
        (Tetromino.create (Tetrominos.ofRand rnd)
          (Player.command p.tetromino g c).2).1.IsSpawnable = true →
        p.rowChecker.Update (Tetromino.create (Tetrominos.ofRand rnd)
          (Player.command p.tetromino g c).2).2 = some (rc, g2) →
        p1.GetScore = p.GetScore + rc.GetClearedRows) ∧
      ((Player.command p.tetromino g c).1.IsIdle = false → p1.GetScore = p.GetScore) ∧
      ((Tetromino.create (Tetrominos.ofRand rnd)
          (Player.command p.tetromino g c).2).1.IsSpawnable = false →
        p1.GetScore = p.GetScore)) ∧
    (∀ s1, Player.run l (p, g) = some s1 →
      p.GetScore ≤ s1.1.GetScore ∧ s1.1.GetScore = p.GetScore + Player.clearedInRun l (p, g)) ∧
    (∀ s1, Player.run l (Player.initial w h) = some s1 →
      s1.1.GetScore = Player.clearedInRun l (Player.initial w h)) := by
  refine ⟨?_, ?_, ?_⟩
  · intro p1 g1 hstep
    obtain ⟨h1, h2⟩ := Player.Update_score_step p g c rnd p1 g1 hstep
    simp only [Player.GetScore]
    refine ⟨by omega, h2, ?_, ?_, ?_⟩
    · intro rc g2 hidle hsp hscan
      rw [h2]
      simp only [Player.clearedInStep, hidle, if_true, hsp, Bool.not_true, Bool.false_eq_true,
        if_false, hscan]
    · intro hidle
      rw [h2]
      simp [Player.clearedInStep, hidle]
    · intro hsp
      rw [h2]
      simp [Player.clearedInStep, hsp]
  · intro s1 hrun
    obtain ⟨h1, h2⟩ := Player.run_score l (p, g) s1 hrun
    simp only [Player.GetScore]
    exact ⟨by simp only at h2; omega, h2⟩
  · intro s1 hrun
    obtain ⟨_, h2⟩ := Player.run_score l (Player.initial w h) s1 hrun
    simp only [Player.GetScore]
    rw [h2]
    simp [Player.initial]

/-- The step that follows `Player.bottomRowFilled` clears one row: the score
goes from 0 to 1. -/
theorem Player.score_counts_cleared_rows_witness :
    ∃ s1, Player.Update Player.bottomRowFilled.1 Player.bottomRowFilled.2 UserInput.None 0
        = some s1 ∧
      Player.clearedInStep Player.bottomRowFilled.1 Player.bottomRowFilled.2 UserInput.None 0 = 1 ∧
      s1.1.GetScore = 1 := by
  have hsome : (Player.Update Player.bottomRowFilled.1 Player.bottomRowFilled.2
      UserInput.None 0).isSome = true := by decide
  obtain ⟨s, hs⟩ := Option.isSome_iff_exists.1 hsome
  have hc : Player.clearedInStep Player.bottomRowFilled.1 Player.bottomRowFilled.2
      UserInput.None 0 = 1 := by decide
  have h := ((Player.score_counts_cleared_rows Player.bottomRowFilled.1 Player.bottomRowFilled.2
    UserInput.None 0 [] 10 20).1 s.1 s.2 hs).2.1
  rw [hc] at h
  exact ⟨s, hs, hc, h⟩

/-! ## Idle pieces and squares -/

/-- C18: an idle piece no longer reacts: `Update`, `Move` by any (dx,dy) and
`Turn` return the piece (coordinates, gravity counter, flags) and the
playfield exactly as they were. -/
theorem Tetromino.idle_noop (t : Tetromino) (g : Grid) (dx dy : Int) (hidle : t.IsIdle = true) :
    t.Update g = (t, g) ∧ t.Move g dx dy = (t, g) ∧ t.Turn g = (t, g) := by
  simp only [Tetromino.IsIdle] at hidle
  refine ⟨?_, ?_, ?_⟩
  · simp [Tetromino.Update, hidle]
  · simp [Tetromino.Move, hidle]
  · simp [Tetromino.Turn, hidle]

/-- The locked square of `Player.bottomRowFilled`. -/
theorem Tetromino.idle_noop_witness :
    Player.bottomRowFilled.1.tetromino.Update Player.bottomRowFilled.2
      = (Player.bottomRowFilled.1.tetromino, Player.bottomRowFilled.2) ∧
    Player.bottomRowFilled.1.tetromino.Move Player.bottomRowFilled.2 (-1) 0
      = (Player.bottomRowFilled.1.tetromino, Player.bottomRowFilled.2) ∧
    Player.bottomRowFilled.1.tetromino.Turn Player.bottomRowFilled.2
      = (Player.bottomRowFilled.1.tetromino, Player.bottomRowFilled.2) :=
  Tetromino.idle_noop Player.bottomRowFilled.1.tetromino Player.bottomRowFilled.2 (-1) 0 rfl

/-- C15: for every square piece, every playfield and every n, n calls of
`Turn` leave the piece (so its four coordinates) and the playfield exactly as
they were. -/
theorem Tetromino.turns_square (t : Tetromino) (g : Grid) (n : Nat)
    (hsq : t.type = Tetrominos.Square) : Tetromino.turns n (t, g) = (t, g) := by
  induction n with
  | zero => rfl
  | succ n ih =>
    have h1 : t.Turn g = (t, g) := by
      simp [Tetromino.Turn, hsq]
    show Tetromino.turns n (t.Turn g) = (t, g)
    rw [h1]
    exact ih

/-- The freshly spawned square of the empty 10 by 20 playfield, turned 7 times. -/
theorem Tetromino.turns_square_witness :
    (Tetromino.turns 7 (Tetromino.create Tetrominos.Square (Grid.blank 10 20))).1.blocks
      = [⟨5, 0⟩, ⟨5, 1⟩, ⟨6, 1⟩, ⟨6, 0⟩] := by
  have h := Tetromino.turns_square (Tetromino.create Tetrominos.Square (Grid.blank 10 20)).1
    (Tetromino.create Tetrominos.Square (Grid.blank 10 20)).2 7 rfl
  rw [h]
  decide

/-- C16: an accepted `Move`.  For a non-idle piece on a rectangular playfield
and (dx,dy) such that all translated cells are in bounds and not `Locked`,
`Move` replaces the coordinate at each index by (x+dx, y+dy), keeps the
flags, sets the gravity counter to 0 if dy = 1 and keeps it otherwise, makes
the new cells `Active`, makes every old cell of the playfield that is not a
new cell `Empty`, and leaves every other cell of the playfield as it was. -/
theorem Tetromino.Move_accepted (t : Tetromino) (g : Grid) (dx dy : Int) (hwf : g.WF)
    (hidle : t.idle = false)
    (hok : ∀ b ∈ t.blocks, g.IsOutOfBounds (b.x + dx) (b.y + dy) = false ∧
      g.IsCollision (b.x + dx) (b.y + dy) Cell.Locked = false) :
    (t.Move g dx dy).1.blocks =
      t.blocks.map (fun b => ({ x := b.x + dx, y := b.y + dy } : Coordinate)) ∧
    (∀ i : Nat, (t.Move g dx dy).1.blocks[i]? =
      (t.blocks[i]?).map (fun b => ({ x := b.x + dx, y := b.y + dy } : Coordinate))) ∧
    (t.Move g dx dy).1.frames = (if dy = 1 then 0 else t.frames) ∧
    (t.Move g dx dy).1.idle = false ∧
    (t.Move g dx dy).1.spawnable = t.spawnable ∧
    (t.Move g dx dy).1.type = t.type ∧
    (∀ b ∈ t.blocks, (t.Move g dx dy).2.IsCollision (b.x + dx) (b.y + dy) Cell.Active = true) ∧
    (∀ b ∈ t.blocks, g.IsOutOfBounds b.x b.y = false → b ∉ (t.Move g dx dy).1.blocks →
      (t.Move g dx dy).2.IsCollision b.x b.y Cell.Empty = true) ∧
    (∀ x y : Int, (⟨x, y⟩ : Coordinate) ∉ t.blocks →
      (⟨x, y⟩ : Coordinate) ∉ (t.Move g dx dy).1.blocks →
      (t.Move g dx dy).2.tileAt x y = g.tileAt x y) := by
  have hany : t.blocks.any (Tetromino.moveRejected g dx dy) = false := by
    rw [List.any_eq_false]
    intro b hb
    simp [Tetromino.moveRejected, Tetromino.asciiIdle, hok b hb]
  have hM : t.Move g dx dy =
      (⟨t.spawnable, t.idle, (if dy = 1 then 0 else t.frames),
        t.blocks.map (fun b => ({ x := b.x + dx, y := b.y + dy } : Coordinate)), t.type⟩,
       (g.paint t.blocks Grid.empty).paint
          (t.blocks.map (fun b => ({ x := b.x + dx, y := b.y + dy } : Coordinate)))
          Tetromino.asciiActive) := by
    unfold Tetromino.Move
    rw [if_neg (by simp [hidle]), if_neg (by simp [hany])]
  have hnew : ∀ b ∈ t.blocks.map (fun b => ({ x := b.x + dx, y := b.y + dy } : Coordinate)),
      g.IsOutOfBounds b.x b.y = false := by
    intro b hb
    obtain ⟨a, ha, rfl⟩ := List.mem_map.1 hb
    exact (hok a ha).1
  obtain ⟨r1, r2, r3⟩ := Grid.repaint g t.blocks _ hwf hnew
  rw [hM]
  refine ⟨rfl, fun i => List.getElem?_map _ _ _, rfl, hidle, rfl, rfl, ?_, r2, r3⟩
  intro b hb
  exact r1 ⟨b.x + dx, b.y + dy⟩ (List.mem_map.2 ⟨b, hb, rfl⟩)

/-- The freshly spawned line of the empty 10 by 20 playfield, moved by `Down`. -/
theorem Tetromino.Move_accepted_witness :
    ((Tetromino.create Tetrominos.Line (Grid.blank 10 20)).1.Move
      (Tetromino.create Tetrominos.Line (Grid.blank 10 20)).2 0 1).1.blocks
      = [⟨5, 1⟩, ⟨5, 2⟩, ⟨5, 3⟩, ⟨5, 4⟩] := by
  have h := (Tetromino.Move_accepted (Tetromino.create Tetrominos.Line (Grid.blank 10 20)).1
    (Tetromino.create Tetrominos.Line (Grid.blank 10 20)).2 0 1 (by decide) rfl (by decide)).1
  rw [h]
  decide


/-! ## One clear of the line-clear scan -/

theorem RowChecker.scan_skip_rows (full : List Cell) (g : Grid) (cnt : Int) (fuel k : Nat) :
    ∀ j : Nat, (∀ i : Nat, k ≤ i → i < k + j → g.tiles.getD i [] ≠ full) →
      RowChecker.scan full (fuel + j) (((k + j : Nat) : Int) - 1) g cnt =
        RowChecker.scan full fuel ((k : Int) - 1) g cnt := by
  intro j
  induction j with
  | zero => intro _; rfl
  | succ j ih =>
    intro hj
    have e : fuel + (j + 1) = (fuel + j) + 1 := by omega
    have e2 : k + (j + 1) = (k + j) + 1 := by omega
    rw [e, e2, RowChecker.scan_skip full (fuel + j) (k + j) g cnt (hj (k + j) (by omega) (by omega))]
    exact ih (fun i h1 h2 => hj i h1 (by omega))

theorem RowChecker.shiftDown_WF (r : Nat) (g : Grid) (hwf : g.WF) :
    (RowChecker.shiftDown r g).WF := by
  intro row hrow
  rw [RowChecker.shiftDown_width]
  exact hwf row (RowChecker.shiftDown_mem r g row hrow)

/-- One clear takes one copy of `full` away when row 0 is not such a copy. -/
theorem RowChecker.shiftDown_countP (full : List Cell) (r : Nat) (g : Grid)
    (hr : r < g.tiles.length) (hfull : g.tiles[r] = full) (htop : g.tiles[0]? ≠ some full) :
    (RowChecker.shiftDown r g).tiles.countP (fun row => decide (row = full)) + 1 =
      g.tiles.countP (fun row => decide (row = full)) := by
  have hr1 : 1 ≤ r := by
    rcases Nat.eq_zero_or_pos r with h0 | h0
    · subst h0
      exfalso
      apply htop
      rw [List.getElem?_eq_getElem hr, hfull]
    · exact h0
  have hlen : 0 < g.tiles.length := by omega
  have e1 : (RowChecker.shiftDown r g).tiles =
      (g.tiles.take 1 ++ g.tiles.take r) ++ g.tiles.drop (r + 1) := by
    rw [← RowChecker.shiftDown_take r g hr1 hr, ← RowChecker.shiftDown_drop r g,
      List.take_append_drop]
  have e2 : g.tiles = g.tiles.take r ++ (g.tiles[r] :: g.tiles.drop (r + 1)) := by
    rw [← List.drop_eq_getElem_cons hr, List.take_append_drop]
  have h0 : (g.tiles.take 1).countP (fun row => decide (row = full)) = 0 := by
    rw [List.countP_eq_zero]
    intro row hrow
    have : g.tiles.take 1 = [g.tiles[0]] := by
      rw [List.take_succ, List.getElem?_eq_getElem hlen]; rfl
    rw [this] at hrow
    have hrow2 := List.mem_singleton.1 hrow
    subst hrow2
    simp only [decide_eq_true_eq]
    intro hc
    apply htop
    rw [List.getElem?_eq_getElem hlen, hc]
  rw [e1]
  conv_rhs => rw [e2]
  simp only [List.countP_append, List.countP_cons, h0, hfull, decide_True, if_true]
  omega

/-- The scan of a playfield whose only copy of `full` is row `r`, `r` at
least 1: one clear at row `r`, count 1. -/
theorem RowChecker.scan_single (full : List Cell) (g : Grid) (r : Nat)
    (hr1 : 1 ≤ r) (hr : r < g.tiles.length) (hfull : g.tiles[r] = full)
    (hother : ∀ i : Nat, i ≠ r → g.tiles.getD i [] ≠ full) :
    RowChecker.scan full (g.tiles.length + 2) ((g.tiles.length : Int) - 1) g 0 =
      some (RowChecker.shiftDown r g, 1) := by
  have hget : g.tiles.getD r [] = full := by
    simp [List.getD_eq_getElem?_getD, List.getElem?_eq_getElem hr, hfull]
  have e1 : g.tiles.length + 2 = (r + 3) + (g.tiles.length - (r + 1)) := by omega
  have e2 : ((g.tiles.length : Nat) : Int) = (((r + 1) + (g.tiles.length - (r + 1)) : Nat) : Int) := by
    congr 1; omega
  rw [e1, e2, RowChecker.scan_skip_rows full g 0 (r + 3) (r + 1) (g.tiles.length - (r + 1))
    (fun i h1 _ => hother i (by omega))]
  have e3 : r + 3 = (r + 2) + 1 := by omega
  rw [e3, RowChecker.scan_clear full (r + 2) r g 0 hget]
  have hrows : ∀ i : Nat, 0 ≤ i → i < 0 + (r + 1) →
      (RowChecker.shiftDown r g).tiles.getD i [] ≠ full := by
    intro i _ hi
    rw [List.getD_eq_getElem?_getD, RowChecker.shiftDown_getElem?]
    split
    · have := hother (i - 1) (by omega)
      rwa [List.getD_eq_getElem?_getD] at this
    · rename_i hc
      have hi0 : i = 0 := by omega
      subst hi0
      have := hother 0 (by omega)
      rwa [List.getD_eq_getElem?_getD] at this
  have e4 : r + 2 = 1 + (r + 1) := by omega
  have e5 : ((r + 1 : Nat) : Int) = ((0 + (r + 1) : Nat) : Int) := by simp
  rw [e4, e5, RowChecker.scan_skip_rows full (RowChecker.shiftDown r g) (0 + 1) 1 0 (r + 1) hrows]
  exact RowChecker.scan_neg full 0 _ _

/-- C17: on every rectangular playfield whose only full row is row `r`, with
`r` at least 1, the line-clear scan of a row checker built for that width
ends with count 1, and afterwards every row `i` with `1 ≤ i ≤ r` holds what
row `i - 1` held before the scan and every row with index greater than `r`
is unchanged. -/
theorem RowChecker.Update_single_full_row (rc : RowChecker) (g : Grid) (r : Nat) (hwf : g.WF)
    (hrc : rc.fullRow = List.replicate g.GetWidth Cell.Locked) (hr1 : 1 ≤ r)
    (hfull : g.rowFull r = true) (honly : ∀ i : Nat, i ≠ r → g.rowFull i = false) :
    ∃ rc1 g1, rc.Update g = some (rc1, g1) ∧ rc1.GetClearedRows = 1 ∧
      g1.GetHeight = g.GetHeight ∧
      (∀ i : Nat, 1 ≤ i → i ≤ r → g1.GetTiles[i]? = g.GetTiles[i - 1]?) ∧
      (∀ i : Nat, r < i → g1.GetTiles[i]? = g.GetTiles[i]?) := by
  have hr : r < g.tiles.length := by
    by_contra hc
    rw [Grid.rowFull_of_length_le g r (by omega)] at hfull
    cases hfull
  have hrow : g.tiles[r] = rc.fullRow := by
    by_contra hc
    rw [hrc] at hc
    rw [(Grid.rowFull_false_iff g hwf r hr).2 hc] at hfull
    cases hfull
  have hother : ∀ i : Nat, i ≠ r → g.tiles.getD i [] ≠ rc.fullRow := by
    intro i hi
    by_cases hlt : i < g.tiles.length
    · have := (Grid.rowFull_false_iff g hwf i hlt).1 (honly i hi)
      rw [hrc]
      simpa [List.getD_eq_getElem?_getD, List.getElem?_eq_getElem hlt] using this
    · rw [List.getD_eq_getElem?_getD, List.getElem?_eq_none (by omega)]
      intro hc
      rw [← hc] at hrow
      have := hwf _ (List.getElem_mem hr)
      rw [hrow] at this
      have h2 := (Grid.rowFull_false_iff g hwf 0 (by omega)).1 (honly 0 (by omega))
      apply h2
      have h3 := hwf _ (List.getElem_mem (show 0 < g.tiles.length by omega))
      simp only [Option.getD_none, List.length_nil] at this
      rw [← this] at h3
      simp only [Grid.GetWidth, ← this, List.replicate_zero]
      exact List.length_eq_zero.1 h3
  have hscan := RowChecker.scan_single rc.fullRow g r hr1 hr hrow hother
  refine ⟨_, _, RowChecker.Update_of_scan rc g _ _ _ hscan, rfl, ?_, ?_, ?_⟩
  · simp only [Grid.GetHeight, RowChecker.shiftDown_length]
  · intro i h1 h2
    simp only [Grid.GetTiles]
    rw [RowChecker.shiftDown_getElem?, if_pos ⟨h1, h2, by omega⟩]
  · intro i hi
    simp only [Grid.GetTiles]
    rw [RowChecker.shiftDown_getElem?, if_neg (by omega)]

/-- A 3 wide playfield of four rows whose only full row is row 2. -/
theorem RowChecker.Update_single_full_row_witness :
    ∃ rc1 g1, (RowChecker.create
        ⟨3, [[Cell.Empty, Cell.Active, Cell.Empty], [Cell.Locked, Cell.Empty, Cell.Empty],
          [Cell.Locked, Cell.Locked, Cell.Locked], [Cell.Locked, Cell.Empty, Cell.Locked]]⟩).Update
        ⟨3, [[Cell.Empty, Cell.Active, Cell.Empty], [Cell.Locked, Cell.Empty, Cell.Empty],
          [Cell.Locked, Cell.Locked, Cell.Locked], [Cell.Locked, Cell.Empty, Cell.Locked]]⟩
        = some (rc1, g1) ∧
      rc1.GetClearedRows = 1 ∧
      g1.GetTiles[2]? = some [Cell.Locked, Cell.Empty, Cell.Empty] ∧
      g1.GetTiles[1]? = some [Cell.Empty, Cell.Active, Cell.Empty] ∧
      g1.GetTiles[3]? = some [Cell.Locked, Cell.Empty, Cell.Locked] := by
  obtain ⟨rc1, g1, h1, h2, _, h4, h5⟩ := RowChecker.Update_single_full_row
    (RowChecker.create
        ⟨3, [[Cell.Empty, Cell.Active, Cell.Empty], [Cell.Locked, Cell.Empty, Cell.Empty],
          [Cell.Locked, Cell.Locked, Cell.Locked], [Cell.Locked, Cell.Empty, Cell.Locked]]⟩)
    ⟨3, [[Cell.Empty, Cell.Active, Cell.Empty], [Cell.Locked, Cell.Empty, Cell.Empty],
          [Cell.Locked, Cell.Locked, Cell.Locked], [Cell.Locked, Cell.Empty, Cell.Locked]]⟩
    2 (by decide) rfl (by decide) (by decide) (by
      intro i hi
      rcases Nat.lt_or_ge i 4 with hlt | hge
      · interval_cases i
        · rfl
        · rfl
        · exact absurd rfl hi
        · rfl
      · exact Grid.rowFull_of_length_le _ i hge)
  exact ⟨rc1, g1, h1, h2, h4 2 (by decide) (by decide), h4 1 (by decide) (by decide),
    h5 3 (by decide)⟩


/-- C19: on every rectangular playfield whose top row (index 0) is not full
the line-clear scan of a row checker built for that width terminates:
`Update` returns a result, and the outer loop gives that same result on every
amount of fuel from twice the height plus one on.  The reason is the measure
of the claim: a clear is made at a full row `r`, which is then not row 0; the
clear leaves row 0 as it was, hence not full, and the playfield it leaves has
exactly one full row less. -/
theorem RowChecker.Update_terminates (rc : RowChecker) (g : Grid) (hwf : g.WF)
    (hrc : rc.fullRow = List.replicate g.GetWidth Cell.Locked) (htop : g.rowFull 0 = false) :
    (∃ rc1 g1, rc.Update g = some (rc1, g1) ∧
      ∀ fuel : Nat, 2 * g.GetHeight + 1 ≤ fuel →
        RowChecker.scan rc.fullRow fuel ((g.GetHeight : Int) - 1) g 0
          = some (g1, rc1.GetClearedRows)) ∧
    (∀ r : Nat, g.rowFull r = true →
      1 ≤ r ∧
      (RowChecker.shiftDown r g).GetTiles[0]? = g.GetTiles[0]? ∧
      (RowChecker.shiftDown r g).rowFull 0 = false ∧
      (RowChecker.shiftDown r g).fullRows + 1 = g.fullRows) := by
  constructor
  · obtain ⟨rc1, g1, h1, _⟩ := RowChecker.Update_total rc g hwf hrc htop
    refine ⟨rc1, g1, h1, ?_⟩
    intro fuel hfuel
    obtain ⟨_, hs⟩ := RowChecker.Update_eq_some rc rc1 g g1 h1
    have := RowChecker.scan_fuel_add rc.fullRow _ (fuel - (2 * g.GetHeight + 1)) _ _ _ _ hs
    have e : 2 * g.GetHeight + 1 + (fuel - (2 * g.GetHeight + 1)) = fuel := by omega
    rw [e] at this
    exact this
  · intro r hfull
    have hr : r < g.tiles.length := by
      by_contra hc
      rw [Grid.rowFull_of_length_le g r (by omega)] at hfull
      cases hfull
    have hrow : g.tiles[r] = List.replicate g.GetWidth Cell.Locked := by
      by_contra hc
      rw [(Grid.rowFull_false_iff g hwf r hr).2 hc] at hfull
      cases hfull
    have htop2 := (Grid.rowFull_zero_iff g hwf).1 htop
    have hr1 : 1 ≤ r := by
      rcases Nat.eq_zero_or_pos r with h0 | h0
      · subst h0
        rw [hfull] at htop
        cases htop
      · exact h0
    have hwf1 := RowChecker.shiftDown_WF r g hwf
    have hw1 : (RowChecker.shiftDown r g).GetWidth = g.GetWidth := by
      simp only [Grid.GetWidth, RowChecker.shiftDown_width]
    refine ⟨hr1, RowChecker.shiftDown_zero_row r g, ?_, ?_⟩
    · rw [Grid.rowFull_zero_iff _ hwf1, RowChecker.shiftDown_zero_row, hw1]
      exact htop2
    · rw [Grid.fullRows_eq _ hwf1, Grid.fullRows_eq g hwf, hw1]
      exact RowChecker.shiftDown_countP _ r g hr hrow htop2

/-- The playfield with a full bottom row on which a line has just spawned:
the scan ends with one clear. -/
theorem RowChecker.Update_terminates_witness :
    Grid.bottomRowFullSpawned.rowFull 0 = false ∧
    (∃ rc1 g1, (RowChecker.create Grid.bottomRowFullSpawned).Update Grid.bottomRowFullSpawned
      = some (rc1, g1)) ∧
    (RowChecker.shiftDown 19 Grid.bottomRowFullSpawned).fullRows + 1
      = Grid.bottomRowFullSpawned.fullRows := by
  have h := RowChecker.Update_terminates (RowChecker.create Grid.bottomRowFullSpawned)
    Grid.bottomRowFullSpawned (by decide) rfl (by decide)
  obtain ⟨rc1, g1, h1, _⟩ := h.1
  exact ⟨by decide, ⟨rc1, g1, h1⟩, (h.2 19 (by decide)).2.2.2⟩

/-! ## Quarter turns -/

theorem Tetromino.Turn_of_accepted (t : Tetromino) (g : Grid) (h : t.turnAccepted g = true) :
    t.Turn g = (⟨t.spawnable, t.idle, t.frames,
        t.blocks.map (Coordinate.turned t.pivot.x t.pivot.y), t.type⟩,
      (g.paint t.blocks Grid.empty).paint
        (t.blocks.map (Coordinate.turned t.pivot.x t.pivot.y)) Tetromino.asciiActive) := by
  simp only [Tetromino.turnAccepted, Bool.and_eq_true, Bool.not_eq_true', decide_eq_true_eq] at h
  obtain ⟨⟨hidle, hsq⟩, hsome⟩ := h
  rw [Tetromino.turnLoop_eq] at hsome
  unfold Tetromino.Turn
  rw [if_neg (by simp [hidle]), if_neg hsq]
  simp only [Tetromino.turnLoop_eq]
  unfold Tetromino.pivot at hsome ⊢
  split at hsome
  · cases hsome
  · rename_i hany
    simp only [hany, if_false, List.nil_append]
    rfl

theorem Tetromino.pivot_map_turned (t : Tetromino) :
    (t.blocks.map (Coordinate.turned t.pivot.x t.pivot.y)).getD 1 ⟨0, 0⟩ = t.pivot := by
  unfold Tetromino.pivot
  rw [List.getD_eq_getElem?_getD, List.getD_eq_getElem?_getD, List.getElem?_map]
  cases h : t.blocks[1]? with
  | none => rfl
  | some p =>
    simp only [Option.map_some', Option.getD_some]
    exact Coordinate.turned_pivot p

theorem Coordinate.turned_turned (px py : Int) (b : Coordinate) :
    (b.turned px py).turned px py = ⟨2 * px - b.x, 2 * py - b.y⟩ := by
  simp only [Coordinate.turned, Coordinate.mk.injEq]
  constructor <;> omega

theorem Coordinate.turned_four (px py : Int) (b : Coordinate) :
    (((b.turned px py).turned px py).turned px py).turned px py = b := by
  cases b
  simp only [Coordinate.turned, Coordinate.mk.injEq]
  constructor <;> omega

/-- C20: four quarter turns are the identity.  For every piece and playfield
on which four consecutive calls of `Turn` are all accepted (so the piece is
not idle and not a square), the piece after the fourth call is the piece
before the first: its coordinates are the same index by index; and after two
calls the block at each index is the point reflection (2px - x, 2py - y) of
the original block through the pivot (px,py), the block at index 1. -/
theorem Tetromino.four_turns_identity (t : Tetromino) (g : Grid)
    (h0 : t.turnAccepted g = true)
    (h1 : (Tetromino.turns 1 (t, g)).1.turnAccepted (Tetromino.turns 1 (t, g)).2 = true)
    (h2 : (Tetromino.turns 2 (t, g)).1.turnAccepted (Tetromino.turns 2 (t, g)).2 = true)
    (h3 : (Tetromino.turns 3 (t, g)).1.turnAccepted (Tetromino.turns 3 (t, g)).2 = true) :
    (Tetromino.turns 4 (t, g)).1 = t ∧
    (Tetromino.turns 4 (t, g)).1.blocks = t.blocks ∧
    (∀ i : Nat, (Tetromino.turns 4 (t, g)).1.blocks[i]? = t.blocks[i]?) ∧
    (Tetromino.turns 2 (t, g)).1.blocks =
      t.blocks.map (fun b => ({ x := 2 * t.pivot.x - b.x, y := 2 * t.pivot.y - b.y }
        : Coordinate)) ∧
    (∀ i : Nat, (Tetromino.turns 2 (t, g)).1.blocks[i]? =
      (t.blocks[i]?).map (fun b => ({ x := 2 * t.pivot.x - b.x, y := 2 * t.pivot.y - b.y }
        : Coordinate))) := by
  have e1 : Tetromino.turns 1 (t, g) = t.Turn g := rfl
  have e2 : Tetromino.turns 2 (t, g) =
      (Tetromino.turns 1 (t, g)).1.Turn (Tetromino.turns 1 (t, g)).2 := rfl
  have e3 : Tetromino.turns 3 (t, g) =
      (Tetromino.turns 2 (t, g)).1.Turn (Tetromino.turns 2 (t, g)).2 := rfl
  have e4 : Tetromino.turns 4 (t, g) =
      (Tetromino.turns 3 (t, g)).1.Turn (Tetromino.turns 3 (t, g)).2 := rfl
  have a1 : (Tetromino.turns 1 (t, g)).1 = ⟨t.spawnable, t.idle, t.frames,
      t.blocks.map (Coordinate.turned t.pivot.x t.pivot.y), t.type⟩ := by
    rw [e1, Tetromino.Turn_of_accepted t g h0]
  have p1 : (Tetromino.turns 1 (t, g)).1.pivot = t.pivot := by
    rw [a1]; exact Tetromino.pivot_map_turned t
  have a2 : (Tetromino.turns 2 (t, g)).1 = ⟨t.spawnable, t.idle, t.frames,
      (t.blocks.map (Coordinate.turned t.pivot.x t.pivot.y)).map
        (Coordinate.turned t.pivot.x t.pivot.y), t.type⟩ := by
    rw [e2, Tetromino.Turn_of_accepted _ _ h1, p1, a1]
  have p2 : (Tetromino.turns 2 (t, g)).1.pivot = t.pivot := by
    have := Tetromino.pivot_map_turned (Tetromino.turns 1 (t, g)).1
    rw [p1, a1] at this
    rw [a2]
    exact this
  have a3 : (Tetromino.turns 3 (t, g)).1 = ⟨t.spawnable, t.idle, t.frames,
      ((t.blocks.map (Coordinate.turned t.pivot.x t.pivot.y)).map
        (Coordinate.turned t.pivot.x t.pivot.y)).map
        (Coordinate.turned t.pivot.x t.pivot.y), t.type⟩ := by
    rw [e3, Tetromino.Turn_of_accepted _ _ h2, p2, a2]
  have p3 : (Tetromino.turns 3 (t, g)).1.pivot = t.pivot := by
    have := Tetromino.pivot_map_turned (Tetromino.turns 2 (t, g)).1
    rw [p2, a2] at this
    rw [a3]
    exact this
  have a4 : (Tetromino.turns 4 (t, g)).1 = ⟨t.spawnable, t.idle, t.frames,
      (((t.blocks.map (Coordinate.turned t.pivot.x t.pivot.y)).map
        (Coordinate.turned t.pivot.x t.pivot.y)).map
        (Coordinate.turned t.pivot.x t.pivot.y)).map
        (Coordinate.turned t.pivot.x t.pivot.y), t.type⟩ := by
    rw [e4, Tetromino.Turn_of_accepted _ _ h3, p3, a3]
  have b4 : (((t.blocks.map (Coordinate.turned t.pivot.x t.pivot.y)).map
        (Coordinate.turned t.pivot.x t.pivot.y)).map
        (Coordinate.turned t.pivot.x t.pivot.y)).map
        (Coordinate.turned t.pivot.x t.pivot.y) = t.blocks := by
    simp only [List.map_map]
    conv_rhs => rw [← List.map_id t.blocks]
    apply List.map_congr_left
    intro b _
    exact Coordinate.turned_four _ _ b
  have b2 : (t.blocks.map (Coordinate.turned t.pivot.x t.pivot.y)).map
        (Coordinate.turned t.pivot.x t.pivot.y) =
      t.blocks.map (fun b => ({ x := 2 * t.pivot.x - b.x, y := 2 * t.pivot.y - b.y }
        : Coordinate)) := by
    simp only [List.map_map]
    apply List.map_congr_left
    intro b _
    exact Coordinate.turned_turned _ _ b
  have r4 : (Tetromino.turns 4 (t, g)).1 = t := by
    rw [a4, b4]
  have r2 : (Tetromino.turns 2 (t, g)).1.blocks =
      t.blocks.map (fun b => ({ x := 2 * t.pivot.x - b.x, y := 2 * t.pivot.y - b.y }
        : Coordinate)) := by
    rw [a2]; exact b2
  refine ⟨r4, by rw [r4], fun i => by rw [r4], r2, fun i => ?_⟩
  rw [r2, List.getElem?_map]

/-- A line standing on (5,2),(5,3),(5,4),(5,5) of the empty 10 by 20
playfield: the four turns about (5,3) are accepted. -/
theorem Tetromino.four_turns_identity_witness :
    (Tetromino.turns 2 (⟨true, false, 0, [⟨5, 2⟩, ⟨5, 3⟩, ⟨5, 4⟩, ⟨5, 5⟩], Tetrominos.Line⟩,
      (Grid.blank 10 20).paint [⟨5, 2⟩, ⟨5, 3⟩, ⟨5, 4⟩, ⟨5, 5⟩] Cell.Active)).1.blocks
      = [⟨5, 4⟩, ⟨5, 3⟩, ⟨5, 2⟩, ⟨5, 1⟩] ∧
    (Tetromino.turns 4 (⟨true, false, 0, [⟨5, 2⟩, ⟨5, 3⟩, ⟨5, 4⟩, ⟨5, 5⟩], Tetrominos.Line⟩,
      (Grid.blank 10 20).paint [⟨5, 2⟩, ⟨5, 3⟩, ⟨5, 4⟩, ⟨5, 5⟩] Cell.Active)).1.blocks
      = [⟨5, 2⟩, ⟨5, 3⟩, ⟨5, 4⟩, ⟨5, 5⟩] := by
  obtain ⟨_, h4, _, h2, _⟩ := Tetromino.four_turns_identity
    ⟨true, false, 0, [⟨5, 2⟩, ⟨5, 3⟩, ⟨5, 4⟩, ⟨5, 5⟩], Tetrominos.Line⟩
    ((Grid.blank 10 20).paint [⟨5, 2⟩, ⟨5, 3⟩, ⟨5, 4⟩, ⟨5, 5⟩] Cell.Active)
    (by decide) (by decide) (by decide) (by decide)
  refine ⟨?_, h4⟩
  rw [h2]
  decide


end Tetris
